import Mathlib

/-! dnsdbflex: the streaming engine (netio.c, pdns.c)

A shallow embedding of the deblocker (`writer_func`), the protocol decoder
(`tuple_make`, `data_blob`) and the completion handler (`io_drain`) of
dnsdbflex, with theorems about them.

Conventions of the embedding.

* The receive buffer `fetch->buf` / `fetch->len` is a `List Char`, one `Char`
  per octet; `fetch->len` is the length of the list.
* The pointer graph fetch <-> query <-> writer of one query is flattened into
  one record `world`, which also carries the globals the engine touches
  (`exit_code`, `quiet`) and what the process has written so far.
* jansson and libcurl are libraries outside the repository.  The JSON parser
  `json_loadb` is a parameter of every function that reaches it; the value it
  returns is a `json_t`.
* A process can end inside the engine: in `abort()` (also of a failed
  `assert`), in the `my_exit(1)` of `my_panic`, or in a store outside the
  receive buffer.  This is recorded in `world.aborted`, and `world.ended` says
  which of the three it was; nothing runs on a world that has ended.
* The presenter is the function pointer `presenter`, one of the three
  renderers of pdns.c, selected by `world.presenter`; its calls are recorded
  in `world.presented`.  What a renderer prints on stdout is not modelled,
  whether it returns or ends in `my_panic` is.
* Diagnostics on stderr are kept as lines in `world.stderr`, with the fixed
  part of their text.
* `writer.count` is a C `int`; it is kept as an unbounded `Int` (signed
  overflow is undefined in C and would take more than 2^31 forwarded records).
-/

namespace Dnsdbflex

/-! ## jansson values -/

/-- A decoded JSON value, the `json_t` of jansson. -/
inductive json_t where
  | null
  | jtrue
  | jfalse
  | integer (value : Int)
  | real (digits : String)
  | string (value : String)
  | array (elems : List json_t)
  | object (members : List (String × json_t))

/-- The jansson lookup `json_object_get`: NULL unless `json` is an object that
has the key. -/
def json_object_get (json : Option json_t) (key : String) : Option json_t :=
  match json with
  | some (json_t.object members) => members.lookup key
  | _ => none

/-- Type test `json_is_string`. -/
def json_is_string (j : json_t) : Bool :=
  match j with
  | json_t.string _ => true
  | _ => false

/-- Type test `json_is_object`. -/
def json_is_object (j : json_t) : Bool :=
  match j with
  | json_t.object _ => true
  | _ => false

/-- Type test `json_is_integer`. -/
def json_is_integer (j : json_t) : Bool :=
  match j with
  | json_t.integer _ => true
  | _ => false

/-- Accessor `json_string_value`: NULL unless the value is a string. -/
def json_string_value (j : json_t) : Option String :=
  match j with
  | json_t.string s => some s
  | _ => none

/-- Accessor `json_integer_value`: 0 unless the value is an integer. -/
def json_integer_value (j : json_t) : Int :=
  match j with
  | json_t.integer v => v
  | _ => 0

/-! ## netio.h, pdns.h: the data model -/

/-- The enum `saf_cond_e` of netio.h. -/
inductive saf_cond_e where
  | sc_init
  | sc_begin
  | sc_ongoing
  | sc_succeeded
  | sc_limited
  | sc_failed
  | sc_we_limited
  | sc_missing
  deriving DecidableEq, Repr

open saf_cond_e

/-- The struct `pdns_json`: `main` and the borrowed references into it. -/
structure pdns_json where
  main : Option json_t := none
  saf_obj : Option json_t := none
  saf_cond : Option json_t := none
  saf_msg : Option json_t := none
  rrname : Option json_t := none
  rrtype : Option json_t := none
  count : Option json_t := none
  time_first : Option json_t := none
  time_last : Option json_t := none
  rdata : Option json_t := none
  raw_rdata : Option json_t := none

/-- The struct `pdns_tuple`; the defaults are the `memset(tup, 0, ...)`. -/
structure pdns_tuple where
  obj : pdns_json := {}
  cond : Option String := none
  msg : Option String := none
  rrname : Option String := none
  rrtype : Option String := none
  count : Int := 0
  time_first : Nat := 0
  time_last : Nat := 0
  rdata : Option String := none
  raw_rdata : Option String := none

/-- What libcurl reports about an easy handle through `curl_easy_getinfo`. -/
structure CURL where
  response_code : Int
  effective_url : String := ""

/-- The struct `fetch`, without its back pointer; `len` is `buf.length`. -/
structure fetch where
  easy : Option CURL := none
  buf : List Char := []
  rcode : Int := 0
  stopped : Bool := false

/-- The struct `query`, without its pointers to the fetch and the writer. -/
structure query where
  status : Option String := none
  message : Option String := none
  saf_cond : saf_cond_e := sc_init
  saf_msg : Option String := none

/-- The struct `writer`, without its pointer to the query. -/
structure writer where
  output_limit : Int := 0
  count : Int := 0

/-- The enum `present_e` of pdns.h: JSON output (the default, `-j`), batch
output (`-F`), batch output without repeated names (`-T`). -/
inductive present_e where
  | pres_json
  | pres_batch
  | pres_batch_dedup_rrtype
  deriving DecidableEq, Repr

open present_e

/-- How a process that ended inside the engine has ended: in `abort()` (also
of a failed `assert`), in the `my_exit(1)` of `my_panic`, or in a store
outside the receive buffer. -/
inductive end_e where
  | by_abort
  | by_panic
  | by_store
  deriving DecidableEq, Repr

open end_e

/-- One query of the process with its fetch and its writer, the globals the
engine uses (`exit_code`, `quiet`, and `presenter` as the renderer it points
to), and the observable history: the records handed to `data_blob` (`blobs`),
the calls of `(*presenter)` (`presented`, the tuple and the raw bytes), the
lines written to stderr, and whether and how the process has ended inside the
engine (`aborted`, `ended`). -/
structure world where
  fetch : fetch := {}
  query : query := {}
  writer : writer := {}
  linked : Bool := true
  reaped : Nat := 0
  exit_code : Int := 0
  quiet : Bool := false
  blobs : List (List Char) := []
  presented : List (pdns_tuple × List Char) := []
  stderr : List String := []
  aborted : Bool := false
  presenter : present_e := pres_json
  ended : Option end_e := none

/-- HTTP status handled specially (pdns.h). -/
def HTTP_OK : Int := 200

/-- Global `status_noerror`. -/
def status_noerror : String := "NOERROR"

/-- Global `status_error`. -/
def status_error : String := "ERROR"

/-- The function `dnsdb_status`, the `psys->status` of the only pDNS system. -/
def dnsdb_status (_f : fetch) : String := status_error

/-- libcurl result code `CURLE_OK`. -/
def CURLE_OK : Nat := 0

/-- libcurl result code `CURLE_COULDNT_RESOLVE_HOST`. -/
def CURLE_COULDNT_RESOLVE_HOST : Nat := 6

/-- libcurl result code `CURLE_COULDNT_CONNECT`. -/
def CURLE_COULDNT_CONNECT : Nat := 7

/-- libcurl result code `CURLE_WRITE_ERROR`. -/
def CURLE_WRITE_ERROR : Nat := 23

/-! ## pdns.c: tuple_make -/

/-- The three ways `tuple_make` ends: `abort()` after a failed `json_loadb`,
the `ouch` exit with a message, or NULL with the tuple filled in. -/
inductive tuple_result where
  | aborted
  | ouch (msg : String)
  | made (tup : pdns_tuple)

/-- The block
`if (x != NULL) { if (!json_is_string(x)) { msg = m; goto ouch; } f = json_string_value(x); }`. -/
def string_field (x : Option json_t) (m : String) : Except String (Option String) :=
  match x with
  | none => Except.ok none
  | some v => if json_is_string v then Except.ok (json_string_value v) else Except.error m

/-- The block
`if (x != NULL) { if (!json_is_integer(x)) { msg = m; goto ouch; } f = json_integer_value(x); }`;
`none` leaves the zeroed field. -/
def integer_field (x : Option json_t) (m : String) : Except String (Option Int) :=
  match x with
  | none => Except.ok none
  | some v => if json_is_integer v then Except.ok (some (json_integer_value v)) else Except.error m

/-- The block
`if (x != NULL) { if (!json_is_object(x)) { msg = m; goto ouch; } }`. -/
def object_field (x : Option json_t) (m : String) : Except String Unit :=
  match x with
  | none => Except.ok ()
  | some v => if json_is_object v then Except.ok () else Except.error m

/-- The cast `(u_long)` of a `json_int_t`. -/
def to_u_long (v : Int) : Nat := (v % 2 ^ 64).toNat

/-- The body of `tuple_make` after `json_loadb` succeeded: the field checks in
source order, the first failing one leaving through `ouch`. -/
def tuple_fields (main : json_t) : Except String pdns_tuple := do
  let saf_cond := json_object_get (some main) "cond"
  let cond ← string_field saf_cond "cond must be a string"
  let saf_msg := json_object_get (some main) "msg"
  let msg ← string_field saf_msg "msg must be a string"
  let saf_obj := json_object_get (some main) "obj"
  object_field saf_obj "obj must be an object"
  let rrname_j := json_object_get saf_obj "rrname"
  let rrname ← string_field rrname_j "rrname must be a string"
  let rdata_j := json_object_get saf_obj "rdata"
  let rdata ← string_field rdata_j "rdata must be a string"
  let raw_rdata_j := json_object_get saf_obj "raw_rdata"
  let raw_rdata ← string_field raw_rdata_j "raw_rdata must be a string"
  let rrtype_j := json_object_get saf_obj "rrtype"
  let rrtype ← string_field rrtype_j "rrtype must be a string"
  let count_j := json_object_get saf_obj "count"
  let count ← integer_field count_j "count must be an integer"
  let time_first_j := json_object_get saf_obj "time_first"
  let time_first ← integer_field time_first_j "time_first must be an integer"
  let time_last_j := json_object_get saf_obj "time_last"
  let time_last ← integer_field time_last_j "time_last must be an integer"
  pure {
    obj := {
      main := some main, saf_obj := saf_obj, saf_cond := saf_cond, saf_msg := saf_msg,
      rrname := rrname_j, rrtype := rrtype_j, count := count_j,
      time_first := time_first_j, time_last := time_last_j,
      rdata := rdata_j, raw_rdata := raw_rdata_j },
    cond := cond, msg := msg, rrname := rrname, rrtype := rrtype,
    count := count.getD 0,
    time_first := to_u_long (time_first.getD 0),
    time_last := to_u_long (time_last.getD 0),
    rdata := rdata, raw_rdata := raw_rdata }

/-- The function `tuple_make` of pdns.c.  A NULL from `json_loadb` runs into
`abort()` (the warning printed before it is logged by `data_blob` below). -/
def tuple_make (json_loadb : List Char → Option json_t) (buf : List Char) : tuple_result :=
  match json_loadb buf with
  | none => tuple_result.aborted
  | some main =>
    match tuple_fields main with
    | Except.error msg => tuple_result.ouch msg
    | Except.ok tup => tuple_result.made tup

/-! ## pdns.c: data_blob -/

/-- Assignment `query->saf_cond = c`. -/
def set_saf_cond (w : world) (c : saf_cond_e) : world :=
  { w with query := { w.query with saf_cond := c } }

/-- Append one line to stderr. -/
def log_stderr (w : world) (line : String) : world :=
  { w with stderr := w.stderr ++ [line] }

/-- The `if (tup.cond != NULL)` chain of `data_blob` for a present cond: the
new world, and whether the branch ends in `goto next`. -/
def cond_chain (w : world) (cond : String) : world × Bool :=
  if cond = "begin" then (set_saf_cond w sc_begin, true)
  else if cond = "ongoing" then (set_saf_cond w sc_ongoing, false)
  else if cond = "succeeded" then (set_saf_cond w sc_succeeded, true)
  else if cond = "limited" then (set_saf_cond w sc_limited, true)
  else if cond = "failed" then (set_saf_cond w sc_failed, true)
  else (log_stderr (set_saf_cond w sc_missing) ("Unknown value for \"cond\": " ++ cond), false)

/-- The function `my_panic` of dnsdbflex.c: the message `s` on stderr (the
program name and the text of `perror` are left out), then `my_exit(1)`, which
ends the process with status 1. -/
def my_panic (w : world) (s : String) : world :=
  { log_stderr w s with aborted := true, ended := some by_panic }

/-- The call `(*presenter)(&tup, buf, len, writer)`, recorded with the tuple
and the raw bytes it is given.  `present_json` prints and returns;
`present_batch` and `present_batch_dedup_rrtype` print and return for a tuple
with an rrname or, failing that, an rdata, and call `my_panic` for a tuple
with neither. -/
def present (w : world) (tup : pdns_tuple) (buf : List Char) : world :=
  let w1 : world := { w with presented := w.presented ++ [(tup, buf)] }
  match w.presenter with
  | pres_json => w1
  | pres_batch =>
    if tup.rrname.isSome then w1
    else if tup.rdata.isSome then w1
    else my_panic w1 "present_batch"
  | pres_batch_dedup_rrtype =>
    if tup.rrname.isSome then w1
    else if tup.rdata.isSome then w1
    else my_panic w1 "present_batch_dedup_rrtype"

/-- Whether the renderer `p` returns for the tuple: `present_json` always
does, the two batch renderers do for a tuple with an rrname or an rdata. -/
def presenter_returns (p : present_e) (tup : pdns_tuple) : Bool :=
  match p with
  | pres_json => true
  | pres_batch => tup.rrname.isSome || tup.rdata.isSome
  | pres_batch_dedup_rrtype => tup.rrname.isSome || tup.rdata.isSome

/-- The step `if (tup.msg != NULL) query->saf_msg = strdup(tup.msg)`. -/
def take_msg (w : world) (tup : pdns_tuple) : world :=
  match tup.msg with
  | some m => { w with query := { w.query with saf_msg := some m } }
  | none => w

/-- The step `if (tup.cond != NULL) { ... }`: the new world, and whether
control left through `goto next`. -/
def take_cond (w : world) (tup : pdns_tuple) : world × Bool :=
  match tup.cond with
  | some c => cond_chain w c
  | none => (w, false)

/-- The part of `data_blob` after a successful `tuple_make`. -/
def data_blob_tuple (w : world) (tup : pdns_tuple) (buf : List Char) : world × Int :=
  let r := take_cond (take_msg w tup) tup
  if r.2 then (r.1, 0)
  else if tup.obj.saf_obj.isNone then (r.1, 0)
  else (present r.1 tup buf, 1)

/-- The record handed to `data_blob` is noted in `blobs`. -/
def note_blob (w : world) (buf : List Char) : world :=
  { w with blobs := w.blobs ++ [buf] }

/-- The end of the process in `abort()`. -/
def do_abort (w : world) : world :=
  { w with aborted := true, ended := some by_abort }

/-- The function `data_blob` of pdns.c: the world afterwards and the value
returned. -/
def data_blob (json_loadb : List Char → Option json_t) (w : world) (buf : List Char) :
    world × Int :=
  match tuple_make json_loadb buf with
  | tuple_result.aborted => (do_abort (log_stderr (note_blob w buf) "warning: json_loadb"), 0)
  | tuple_result.ouch msg => (log_stderr (note_blob w buf) msg, 0)
  | tuple_result.made tup => data_blob_tuple (note_blob w buf) tup buf

/-! ## netio.c: query_status, writer_func -/

/-- The function `query_status`; a failed `assert` ends the process. -/
def query_status (w : world) (status message : String) : world :=
  if w.query.status.isNone = w.query.message.isNone ∧ w.query.status.isNone then
    { w with query := { w.query with status := some status, message := some message } }
  else { w with aborted := true, ended := some by_abort }

/-- The libc call `memchr(buf, c, len)`: the offset of the first `c`, or NULL. -/
def memchr (buf : List Char) (c : Char) : Option Nat :=
  match buf with
  | [] => none
  | b :: rest => if b = c then some 0 else (memchr rest c).map (fun i => i + 1)

/-- The libc call `strcasecmp(a, b) == 0`. -/
def strcasecmp_eq (a b : List Char) : Bool :=
  a.map Char.toLower == b.map Char.toLower

/-- The branch `fetch->rcode != HTTP_OK` of `writer_func`: the first line of
the buffered body becomes the message, the status pair is written if it is
still unset, and the buffer is reset.  When `fetch->len` is 0 after the
append (a chunk of no octets on an empty buffer), `realloc(fetch->buf, 0)`
has left NULL or a block of no octets, and the store `fetch->buf[0] = '\0'`
goes outside it: the process ends there. -/
def error_report (easy : CURL) (w : world) : world :=
  let copy := w.fetch.buf.takeWhile (fun c => c != '\x00')
  let line := copy.takeWhile (fun c => c != '\r' && c != '\n')
  let message : String :=
    if strcasecmp_eq line "<html>".toList then "HTTP Status " ++ toString w.fetch.rcode
    else String.mk line
  let w1 : world :=
    if w.query.status.isNone then
      let v := query_status w (dnsdb_status w.fetch) message
      if v.aborted then v
      else if !v.quiet then
        log_stderr v ("warning: libcurl " ++ toString v.fetch.rcode ++ " [" ++
          easy.effective_url ++ "]")
      else v
    else w
  if w1.aborted then w1
  else
    let w2 : world := if !w1.quiet then log_stderr w1 ("warning: libcurl: [" ++ message ++ "]") else w1
    if w2.fetch.buf.length = 0 then { w2 with aborted := true, ended := some by_store }
    else { w2 with fetch := { w2.fetch with buf := [] } }

/-- The branch of the deblock loop taken when the output limit is hit:
`query->saf_cond = sc_we_limited; fetch->stopped = true` (and `bytes = 0`). -/
def limit_hit (w : world) : world :=
  { set_saf_cond w sc_we_limited with fetch := { w.fetch with stopped := true } }

/-- The `else` branch of the deblock loop for the record `rec`:
`query->writer->count += data_blob(query, fetch->buf, pre_len)` and the
`switch (query->saf_cond)`.  When `data_blob` has aborted nothing more is
done. -/
def decode_record (json_loadb : List Char → Option json_t) (w : world) (rec : List Char) :
    world :=
  let r := data_blob json_loadb w rec
  if r.1.aborted then r.1
  else
    let w1 : world := { r.1 with writer := { r.1.writer with count := r.1.writer.count + r.2 } }
    match w1.query.saf_cond with
    | sc_init => w1
    | sc_begin => w1
    | sc_ongoing => w1
    | sc_missing => w1
    | sc_succeeded => { w1 with fetch := { w1.fetch with stopped := true } }
    | sc_limited => { w1 with fetch := { w1.fetch with stopped := true } }
    | sc_failed => { w1 with fetch := { w1.fetch with stopped := true } }
    | sc_we_limited => { w1 with fetch := { w1.fetch with stopped := true } }

/-- The test `writer->output_limit > 0 && writer->count >= writer->output_limit`. -/
def limit_reached (wr : writer) : Bool :=
  decide (wr.output_limit > 0 ∧ wr.count ≥ wr.output_limit)

/-- The body of the deblock loop of `writer_func` up to the `memmove`, for the
record `rec` in front of the newline; the second component is the local
`bytes`. -/
def deblock_record (json_loadb : List Char → Option json_t) (s : world × Nat)
    (rec : List Char) : world × Nat :=
  if limit_reached s.1.writer then (limit_hit s.1, 0)
  else (decode_record json_loadb s.1 rec, s.2)

/-- The loop `while ((nl = memchr(fetch->buf, '\n', fetch->len)) != NULL)` of
`writer_func`, with a bound on the number of iterations (every iteration
shortens the buffer, so `fetch->len` of them are enough, see
`deblock_leaves_no_newline`). -/
def deblock (json_loadb : List Char → Option json_t) : Nat → world × Nat → world × Nat
  | 0, s => s
  | fuel + 1, s =>
    match memchr s.1.fetch.buf '\n' with
    | none => s
    | some pre_len =>
      let post_len := (s.1.fetch.buf.length - pre_len) - 1
      let s1 := deblock_record json_loadb s (s.1.fetch.buf.take pre_len)
      if s1.1.aborted then s1
      else
        deblock json_loadb fuel
          ({ s1.1 with
              fetch := { s1.1.fetch with
                buf := (s1.1.fetch.buf.drop (pre_len + 1)).take post_len } }, s1.2)

/-- The function `writer_func` of netio.c for the chunk `ptr` (`size * nmemb`
octets): the world afterwards and the value returned. -/
def writer_func (json_loadb : List Char → Option json_t) (ptr : List Char) (w : world) :
    world × Nat :=
  let bytes := ptr.length
  let w1 : world := { w with fetch := { w.fetch with buf := w.fetch.buf ++ ptr } }
  match w1.fetch.easy with
  | some easy =>
    let w2 : world :=
      if w1.fetch.rcode = 0 then { w1 with fetch := { w1.fetch with rcode := easy.response_code } }
      else w1
    if w2.fetch.rcode ≠ HTTP_OK then (error_report easy w2, bytes)
    else deblock json_loadb w2.fetch.buf.length (w2, bytes)
  | none => deblock json_loadb w1.fetch.buf.length (w1, bytes)

/-! ## netio.c: query_done, io_drain -/

/-- The function `query_done`. -/
def query_done (w : world) : world :=
  if !w.quiet then
    let msg := w.query.saf_msg.getD ""
    if w.query.saf_cond = sc_limited then log_stderr w ("Query limited: " ++ msg)
    else if w.query.saf_cond = sc_failed then log_stderr w ("Query failed: " ++ msg)
    else if w.query.saf_cond = sc_missing then log_stderr w ("Query response_missing: " ++ msg)
    else
      match w.query.status with
      | some st => log_stderr w ("Query status: " ++ st ++ " (" ++ w.query.message.getD "" ++ ")")
      | none => w
  else w

/-- The outcome classification of `io_drain` for a `CURLMSG_DONE` with result
code `result`. -/
def classify (result : Nat) (w : world) : world :=
  if result = CURLE_COULDNT_RESOLVE_HOST then
    { log_stderr w "warning: libcurl failed since could not resolve host" with exit_code := 1 }
  else if result = CURLE_COULDNT_CONNECT then
    { log_stderr w "warning: libcurl failed since could not connect" with exit_code := 1 }
  else if result ≠ CURLE_OK ∧ w.fetch.stopped = false then
    { log_stderr w ("warning: libcurl failed with curl error " ++ toString result) with
        exit_code := 1 }
  else w

/-- The step `if (fetch->rcode == 0) curl_easy_getinfo(..., &fetch->rcode)` of
`io_drain`. -/
def drain_rcode (w : world) : world :=
  if w.fetch.rcode = 0 then
    match w.fetch.easy with
    | some easy => { w with fetch := { w.fetch with rcode := easy.response_code } }
    | none => w
  else w

/-- The step "record emptiness as status if nothing else" of `io_drain`. -/
def default_status (w : world) : world :=
  if w.writer.count = 0 ∧ w.query.status.isNone then
    query_status w status_noerror "no results found for query."
  else w

/-- The calls `fetch_done(fetch); fetch_unlink(fetch); fetch_reap(fetch)` that
end `io_drain`; the `assert` of `fetch_unlink` ends the process when the fetch
is not the one of its query. -/
def fetch_release (w : world) : world :=
  if (query_done w).linked then
    { query_done w with
        linked := false, reaped := (query_done w).reaped + 1,
        fetch := { (query_done w).fetch with easy := none, buf := [] } }
  else do_abort (query_done w)

/-- The `CURLMSG_DONE` branch of `io_drain` for the fetch of the query:
response code, classification, default status, then `fetch_done`,
`fetch_unlink` and `fetch_reap`. -/
def io_drain (result : Nat) (w : world) : world :=
  if (default_status (classify result (drain_rcode w))).aborted then
    default_status (classify result (drain_rcode w))
  else fetch_release (default_status (classify result (drain_rcode w)))

/-! ## The transfer, as libcurl drives it -/

/-- One delivery of a chunk to the write callback of a live process. -/
def deliver (json_loadb : List Char → Option json_t) (w : world) (ptr : List Char) : world :=
  if w.aborted then w else (writer_func json_loadb ptr w).1

/-- Every chunk of a response handed to `writer_func`, in order. -/
def feed (json_loadb : List Char → Option json_t) (chunks : List (List Char)) (w : world) :
    world :=
  chunks.foldl (deliver json_loadb) w

/-- The transfer as libcurl runs it: chunks are delivered in order; when the
callback returns a count other than the chunk size libcurl stops the transfer
with `CURLE_WRITE_ERROR`; otherwise the transfer ends with the result
`final`.  Gives the world and the result code of the `CURLMSG_DONE`. -/
def transfer (json_loadb : List Char → Option json_t) (final : Nat) :
    List (List Char) → world → world × Nat
  | [], w => (w, final)
  | ptr :: rest, w =>
    let r := writer_func json_loadb ptr w
    if r.1.aborted then (r.1, final)
    else if r.2 ≠ ptr.length then (r.1, CURLE_WRITE_ERROR)
    else transfer json_loadb final rest r.1

/-- A whole fetch: the transfer, then `io_drain` on its completion (unless the
process has aborted). -/
def run_fetch (json_loadb : List Char → Option json_t) (final : Nat)
    (chunks : List (List Char)) (w : world) : world :=
  let r := transfer json_loadb final chunks w
  if r.1.aborted then r.1 else io_drain r.2 r.1

/-! ## netio.c: writer_fini -/

/-- The function `writer_fini` for the writer of the query: when the fetch is
still attached to the query its buffer is dropped, with a warning when
`fetch->len` is not 0, and the fetch is reaped; then the status pair is
checked by the `assert` and query and writer are freed. -/
def writer_fini (w : world) : world :=
  let w2 : world :=
    if w.linked then
      let w1 : world :=
        if w.fetch.buf.length ≠ 0 then
          log_stderr w ("warning: stranding " ++ toString w.fetch.buf.length ++ " octets!")
        else w
      { w1 with linked := false, reaped := w1.reaped + 1,
                fetch := { w1.fetch with easy := none, buf := [] } }
    else w
  if w2.query.status.isSome = w2.query.message.isSome then w2 else do_abort w2

/-! ## dnsdbflex.c: the query descriptor, the fence, the end of main -/

/-- The enum `search_method_t` of netio.h. -/
inductive search_method_t where
  | method_none
  | method_regex
  | method_glob
  deriving DecidableEq, Repr

/-- The enum `what_to_search_t` of netio.h. -/
inductive what_to_search_t where
  | search_none
  | search_rrnames
  | search_rdata
  deriving DecidableEq, Repr

/-- The enum `what_to_return_t` of netio.h. -/
inductive what_to_return_t where
  | return_none
  | return_terse
  | return_details
  deriving DecidableEq, Repr

/-- The struct `qdesc` of netio.h; the defaults are those of `main`. -/
structure qdesc where
  search_method : search_method_t := search_method_t.method_none
  what_to_search : what_to_search_t := what_to_search_t.search_rrnames
  what_to_return : what_to_return_t := what_to_return_t.return_details
  value : Option String := none
  exclude : Option String := none
  rrtype : Option String := none
  after : Nat := 0
  before : Nat := 0
  complete : Bool := false
  query_limit : Int := -1
  output_limit : Int := -1
  offset : Int := 0
  deriving DecidableEq

/-- The struct `pdns_fence` of pdns.h; the defaults are the `= {}` of
`query_launcher`. -/
structure pdns_fence where
  first_after : Nat := 0
  first_before : Nat := 0
  last_after : Nat := 0
  last_before : Nat := 0
  deriving DecidableEq, Repr

/-- The fence `query_launcher` builds from the query descriptor. -/
def query_launcher_fence (qdp : qdesc) : pdns_fence :=
  let fence0 : pdns_fence := {}
  let fence1 : pdns_fence :=
    if qdp.after ≠ 0 then
      if qdp.complete then { fence0 with first_after := qdp.after }
      else { fence0 with last_after := qdp.after }
    else fence0
  if qdp.before ≠ 0 then
    if qdp.complete then { fence1 with last_before := qdp.before }
    else { fence1 with first_before := qdp.before }
  else fence1

/-- The step `if (qd.output_limit == -1 && qd.query_limit != -1)
qd.output_limit = qd.query_limit` of `main`. -/
def default_output_limit (qd : qdesc) : qdesc :=
  if qd.output_limit = -1 ∧ qd.query_limit ≠ -1 then { qd with output_limit := qd.query_limit }
  else qd

/-- The two time-range checks of `main`: the message `usage` is called with,
or `none` when both checks pass. -/
def time_range_check (qd : qdesc) : Option String :=
  if qd.after ≠ 0 ∧ qd.before ≠ 0 ∧ qd.after > qd.before then
    some "-A value must be before -B value (for now)"
  else if qd.complete = true ∧ qd.after = 0 ∧ qd.before = 0 then
    some "-c without -A or -B makes no sense."
  else none

/-- How `main` ends from the time-range checks on: in `usage` (message on
stderr, `my_exit(1)`, nothing launched), or after the one fetch has run. -/
inductive main_result where
  | usage (msg : String)
  | finished (w : world)

/-- The world `writer_init`, `query_launcher` and `create_fetch` set up, with
the presenter `main` has selected for `presentation`: a writer with the
output limit and count 0, a query in `sc_init` without status, an attached
fetch with an empty buffer. -/
def launch_world (qd : qdesc) (quiet : Bool) (easy : CURL) (presentation : present_e) :
    world :=
  { fetch := { easy := some easy },
    writer := { output_limit := qd.output_limit },
    quiet := quiet,
    presenter := presentation }

/-- The end of `main`, from the defaulting of the output limit on: the
time-range checks, `psys->ready()` (its result is `ready`), then
`writer_init`, `query_launcher`, `io_engine(0)` (libcurl runs the transfer of
the chunks to its end and `io_drain` handles the completion), `writer_fini`
and `my_exit(exit_code)`. -/
def main_tail (json_loadb : List Char → Option json_t) (qd : qdesc) (ready : Option String)
    (quiet : Bool) (easy : CURL) (final : Nat) (chunks : List (List Char))
    (presentation : present_e) : main_result :=
  match time_range_check (default_output_limit qd) with
  | some msg => main_result.usage msg
  | none =>
    match ready with
    | some msg => main_result.usage msg
    | none =>
      let w := run_fetch json_loadb final chunks
        (launch_world (default_output_limit qd) quiet easy presentation)
      if w.aborted then main_result.finished w
      else main_result.finished (writer_fini w)

/-- The exit status of the process: 1 through `usage` and through `my_panic`,
the global `exit_code` through the `my_exit(exit_code)` that ends `main`;
none when a signal ended the process (`abort()`, or the fault of a store
outside the buffer). -/
def exit_status (r : main_result) : Option Int :=
  match r with
  | main_result.usage _ => some 1
  | main_result.finished w =>
    if w.aborted then (if w.ended = some by_panic then some 1 else none)
    else some w.exit_code

/-- Whether a fetch was launched. -/
def launched (r : main_result) : Bool :=
  match r with
  | main_result.usage _ => false
  | main_result.finished _ => true

/-! ## pdns_dnsdb.c: dnsdb_ready, dnsdb_url; dnsdbflex.c: makepath -/

/-- Global `id_swclient` of globals.h. -/
def id_swclient : String := "dnsdbflex"

/-- Global `id_version` of globals.h. -/
def id_version : String := "1.0.5"

/-- The constant `dnsdb2_url_prefix`. -/
def dnsdb2_url_prefix : String := "/dnsdb/v2"

/-- The table `blocked_api_key_prefixes`. -/
def blocked_api_key_prefixes : List String := ["dce-"]

/-- The libc call `strstr(hay, needle) != NULL`. -/
def strstr_found : List Char → List Char → Bool
  | [], needle => needle.isEmpty
  | c :: cs, needle => needle.isPrefixOf (c :: cs) || strstr_found cs needle

/-- The libc call `strncmp(a, b, n) == 0` on strings. -/
def strncmp_eq (a b : List Char) (n : Nat) : Bool :=
  a.take n == b.take n

/-- The function `or_else` of dnsdbflex.c. -/
def or_else (p : Option String) (o : String) : String :=
  match p with
  | some s => s
  | none => o

/-- The function `api_key_blocked`.  It hands its argument to `strncmp`
without a test for NULL: for a NULL argument the call reads through a null
pointer, and no value is returned (`none`). -/
def api_key_blocked (test_api_key : Option String) : Option Bool :=
  match test_api_key with
  | none => if blocked_api_key_prefixes.isEmpty then some false else none
  | some key =>
    some (blocked_api_key_prefixes.any
      (fun block => strncmp_eq block.data key.data block.length))

/-- The static variables `api_key` and `dnsdb_base_url` of pdns_dnsdb.c. -/
structure dnsdb_conf where
  api_key : Option String := none
  dnsdb_base_url : Option String := none

/-- The function `dnsdb_setval`: the configuration afterwards and the value
returned. -/
def dnsdb_setval (st : dnsdb_conf) (key value : String) : dnsdb_conf × Option String :=
  if key = "apikey" then ({ st with api_key := some value }, none)
  else if key = "server" then ({ st with dnsdb_base_url := some value }, none)
  else (st, some "dnsdb_setval() unrecognized key")

/-- How a call of `dnsdb_ready` ends: it returns NULL or a static message, or
the process dies in the null-pointer read of `api_key_blocked`. -/
inductive ready_outcome where
  | crashed
  | returned (msg : Option String)
  deriving DecidableEq

/-- The function `dnsdb_ready`, for the configuration `st` read from the
config file, the values of the environment variables `DNSDB_API_KEY` and
`DNSDB_SERVER` and the `base_url` of the system descriptor: the configuration
afterwards and the outcome. -/
def dnsdb_ready (st : dnsdb_conf) (env_api_key env_server : Option String)
    (psys_base_url : String) : dnsdb_conf × ready_outcome :=
  let st1 : dnsdb_conf :=
    match env_api_key with
    | some value => (dnsdb_setval st "apikey" value).1
    | none => st
  let st2 : dnsdb_conf :=
    match env_server with
    | some value => (dnsdb_setval st1 "server" value).1
    | none => st1
  let base : String := or_else st2.dnsdb_base_url psys_base_url
  let base1 : String :=
    if strstr_found base.data dnsdb2_url_prefix.data then base else base ++ dnsdb2_url_prefix
  let st3 : dnsdb_conf := { st2 with dnsdb_base_url := some base1 }
  match api_key_blocked st3.api_key with
  | none => (st3, ready_outcome.crashed)
  | some true =>
    (st3, ready_outcome.returned
      (some "The type of API key given is not allowed to use the DNSDB Flex API"))
  | some false =>
    if st3.api_key.isNone then (st3, ready_outcome.returned (some "no API key given"))
    else (st3, ready_outcome.returned none)

/-- The function `makepath` of dnsdbflex.c.  `my_panic` ends the process with
its message; `main` calls `usage` when no value is given, and a NULL value
would be printed by `%s` as glibc does it. -/
def makepath (qdp : qdesc) : Except String String :=
  match qdp.search_method with
  | search_method_t.method_none => Except.error "bad search_method"
  | m =>
    let search_method_s : String :=
      if m = search_method_t.method_regex then "regex" else "glob"
    match qdp.what_to_search with
    | what_to_search_t.search_none => Except.error "bad what_to_search"
    | t =>
      let what_to_search_s : String :=
        if t = what_to_search_t.search_rrnames then "rrnames" else "rdata"
      match qdp.rrtype with
      | some rrtype =>
        Except.ok (search_method_s ++ "/" ++ what_to_search_s ++ "/" ++
          or_else qdp.value "(null)" ++ "/" ++ rrtype)
      | none =>
        Except.ok (search_method_s ++ "/" ++ what_to_search_s ++ "/" ++
          or_else qdp.value "(null)")

/-- The function `dnsdb_url` for the base URL `dnsdb_base_url` that
`dnsdb_ready` has left, with memory for every `asprintf`. -/
def dnsdb_url (dnsdb_base_url : String) (path : String) (qdp : qdesc) (fp : pdns_fence) :
    String :=
  let scheme_if_needed : String :=
    if strstr_found dnsdb_base_url.data "://".data then "" else "https://"
  let offset_str : Option String :=
    if qdp.offset > 0 then some ("&offset=" ++ toString qdp.offset) else none
  let query_limit_str : Option String :=
    if qdp.query_limit ≠ -1 then some ("&limit=" ++ toString qdp.query_limit) else none
  let first_after_str : Option String :=
    if fp.first_after ≠ 0 then some ("&time_first_after=" ++ toString fp.first_after) else none
  let first_before_str : Option String :=
    if fp.first_before ≠ 0 then some ("&time_first_before=" ++ toString fp.first_before)
    else none
  let last_after_str : Option String :=
    if fp.last_after ≠ 0 then some ("&time_last_after=" ++ toString fp.last_after) else none
  let last_before_str : Option String :=
    if fp.last_before ≠ 0 then some ("&time_last_before=" ++ toString fp.last_before) else none
  let exclude_str : Option String :=
    match qdp.exclude with
    | some e => some ("&exclude=" ++ e)
    | none => none
  scheme_if_needed ++ dnsdb_base_url ++ "/" ++ path ++ "?swclient=" ++ id_swclient ++
    "&version=" ++ id_version ++ or_else offset_str "" ++ or_else query_limit_str "" ++
    or_else first_after_str "" ++ or_else first_before_str "" ++ or_else last_after_str "" ++
    or_else last_before_str "" ++ or_else exclude_str ""

/-- The URL `query_launcher` asks `psys->url` for: the path of `makepath`, the
descriptor and the fence. -/
def query_launcher_url (dnsdb_base_url : String) (qdp : qdesc) : Except String String :=
  match makepath qdp with
  | Except.error msg => Except.error msg
  | Except.ok command =>
    Except.ok (dnsdb_url dnsdb_base_url command qdp (query_launcher_fence qdp))

/-! ## Vocabulary of the statements -/

/-- The byte stream made of the records `segs`, each followed by a newline,
and then the unterminated bytes `rest`. -/
def frame (segs : List (List Char)) (rest : List Char) : List Char :=
  match segs with
  | [] => rest
  | seg :: more => seg ++ '\n' :: frame more rest

/-- The newline-terminated segments of a byte stream, newline excluded, and
the bytes after the last newline. -/
def split_lines : List Char → List (List Char) × List Char
  | [] => ([], [])
  | c :: cs =>
    if c = '\n' then ([] :: (split_lines cs).1, (split_lines cs).2)
    else
      match (split_lines cs).1 with
      | [] => ([], c :: (split_lines cs).2)
      | l :: ls => ((c :: l) :: ls, (split_lines cs).2)

/-- The response code `writer_func` sees for the fetch is 200 (or the fetch
has no easy handle, in which case the code is not looked at). -/
def fetch_ok (f : fetch) : Bool :=
  match f.easy with
  | none => true
  | some easy => decide ((if f.rcode = 0 then easy.response_code else f.rcode) = HTTP_OK)

/-- The response code the fetch holds once `writer_func` has looked at it. -/
def seen_rcode (f : fetch) : Int :=
  match f.easy with
  | none => f.rcode
  | some easy => if f.rcode = 0 then easy.response_code else f.rcode

/-- Replace the receive buffer and the cached response code of the fetch. -/
def set_io (w : world) (b : List Char) (r : Int) : world :=
  { w with fetch := { w.fetch with buf := b, rcode := r } }

/-- The world without the receive buffer and the cached response code. -/
def obs (w : world) : world := set_io w [] 0

/-- One record of the stream, in a process that may already have aborted:
the loop body on the world and the local `bytes`. -/
def record_step (json_loadb : List Char → Option json_t) (s : world × Nat) (rec : List Char) :
    world × Nat :=
  if s.1.aborted then s else deblock_record json_loadb s rec

/-- The records `segs` taken one after the other. -/
def records (json_loadb : List Char → Option json_t) (s : world × Nat)
    (segs : List (List Char)) : world × Nat :=
  segs.foldl (record_step json_loadb) s

/-- A member that is present but is not a string. -/
def bad_string (x : Option json_t) : Prop := ∃ v, x = some v ∧ json_is_string v = false

/-- A member that is present but is not an integer. -/
def bad_integer (x : Option json_t) : Prop := ∃ v, x = some v ∧ json_is_integer v = false

/-- A member that is present but is not an object. -/
def bad_object (x : Option json_t) : Prop := ∃ v, x = some v ∧ json_is_object v = false

/-- A parsed record with a field of the wrong type: `cond` or `msg` not a
string, `obj` not an object, or inside `obj` one of rrname, rdata, raw_rdata,
rrtype not a string or one of count, time_first, time_last not an integer. -/
def wrong_typed (main : json_t) : Prop :=
  bad_string (json_object_get (some main) "cond") ∨
  bad_string (json_object_get (some main) "msg") ∨
  bad_object (json_object_get (some main) "obj") ∨
  bad_string (json_object_get (json_object_get (some main) "obj") "rrname") ∨
  bad_string (json_object_get (json_object_get (some main) "obj") "rdata") ∨
  bad_string (json_object_get (json_object_get (some main) "obj") "raw_rdata") ∨
  bad_string (json_object_get (json_object_get (some main) "obj") "rrtype") ∨
  bad_integer (json_object_get (json_object_get (some main) "obj") "count") ∨
  bad_integer (json_object_get (json_object_get (some main) "obj") "time_first") ∨
  bad_integer (json_object_get (json_object_get (some main) "obj") "time_last")

/-- The world without its diagnostic history (the note of the records handed
to `data_blob` and the lines on stderr). -/
def quiet_view (w : world) : world := { w with blobs := [], stderr := [] }

/-- The world `w` with another diagnostic history. -/
def with_history (w : world) (b : List (List Char)) (e : List String) : world :=
  { w with blobs := b, stderr := e }

/-- Two worlds with the same history, writer, protocol state, stop flag and
exit code. -/
def same_core (v w : world) : Prop :=
  v.presented = w.presented ∧ v.blobs = w.blobs ∧ v.writer = w.writer ∧
  v.query.saf_cond = w.query.saf_cond ∧ v.fetch.stopped = w.fetch.stopped ∧
  v.exit_code = w.exit_code

/-- The state the output governor leaves: cap reached, `sc_we_limited`,
fetch stopped. -/
def limit_state (w : world) : Prop :=
  limit_reached w.writer = true ∧ w.query.saf_cond = sc_we_limited ∧ w.fetch.stopped = true

/-! ## Sample inputs -/

/-- A live fetch that has not received anything yet, for a server answering
200, with the output limit `limit` (`-1`: no limit, the default of main). -/
def sample_world (limit : Int) : world :=
  { fetch := { easy := some { response_code := 200 } },
    writer := { output_limit := limit } }

/-- The line `{"cond":"begin"}`. -/
def line_begin : List Char := "\x7b\"cond\":\"begin\"\x7d".toList

/-- The line `{"cond":"succeeded"}`. -/
def line_succeeded : List Char := "\x7b\"cond\":\"succeeded\"\x7d".toList

/-- The data line for a.example.com. -/
def line_a : List Char :=
  "\x7b\"obj\":\x7b\"rrname\":\"a.example.com\",\"rrtype\":\"A\",\"count\":1,\"time_first\":1,\"time_last\":2\x7d\x7d".toList

/-- The data line for b.example.com. -/
def line_b : List Char :=
  "\x7b\"obj\":\x7b\"rrname\":\"b.example.com\",\"rrtype\":\"A\",\"count\":1,\"time_first\":1,\"time_last\":2\x7d\x7d".toList

/-- The data line for c.example.com. -/
def line_c : List Char :=
  "\x7b\"obj\":\x7b\"rrname\":\"c.example.com\",\"rrtype\":\"A\",\"count\":1,\"time_first\":1,\"time_last\":2\x7d\x7d".toList

/-- The line `{}`, a keepalive. -/
def line_empty_object : List Char := "\x7b\x7d".toList

/-- The line `{"cond":"begin","obj":{"rrname":"a.example.com"}}`. -/
def line_begin_obj : List Char :=
  "\x7b\"cond\":\"begin\",\"obj\":\x7b\"rrname\":\"a.example.com\"\x7d\x7d".toList

/-- The line `{"cond":"bogus","obj":{"rrname":"a.example.com"}}`. -/
def line_bogus_obj : List Char :=
  "\x7b\"cond\":\"bogus\",\"obj\":\x7b\"rrname\":\"a.example.com\"\x7d\x7d".toList

/-- The line `{"cond":7}`, with a cond of the wrong type. -/
def line_cond_number : List Char := "\x7b\"cond\":7\x7d".toList

/-- The value of a `{"cond": c}` line. -/
def json_cond (c : String) : json_t := json_t.object [("cond", json_t.string c)]

/-- The value of the data line for `name`. -/
def json_data (name : String) : json_t :=
  json_t.object [("obj", json_t.object [("rrname", json_t.string name),
    ("rrtype", json_t.string "A"), ("count", json_t.integer 1),
    ("time_first", json_t.integer 1), ("time_last", json_t.integer 2)])]

/-- A stand-in for `json_loadb` on the sample lines: each of them is mapped to
the value a JSON parser gives it, every other input (the empty line among
them) is rejected. -/
def sample_loadb (buf : List Char) : Option json_t :=
  if buf = line_begin then some (json_cond "begin")
  else if buf = line_succeeded then some (json_cond "succeeded")
  else if buf = line_a then some (json_data "a.example.com")
  else if buf = line_b then some (json_data "b.example.com")
  else if buf = line_c then some (json_data "c.example.com")
  else if buf = line_empty_object then some (json_t.object [])
  else if buf = line_begin_obj then
    some (json_t.object [("cond", json_t.string "begin"),
      ("obj", json_t.object [("rrname", json_t.string "a.example.com")])])
  else if buf = line_bogus_obj then
    some (json_t.object [("cond", json_t.string "bogus"),
      ("obj", json_t.object [("rrname", json_t.string "a.example.com")])])
  else if buf = line_cond_number then some (json_t.object [("cond", json_t.integer 7)])
  else none

/-- The server stream of the end-to-end run: begin, three data lines,
succeeded, each ended by a newline. -/
def sample_stream : List Char :=
  frame [line_begin, line_a, line_b, line_c, line_succeeded] []

/-- The stream cut into three chunks, in the middle of the first and of the
third line. -/
def sample_chunks : List (List Char) :=
  [sample_stream.take 7, (sample_stream.drop 7).take 200, sample_stream.drop 207]

/-- The world after one data line on a query with output limit 1: the count
has reached the limit. -/
def capped_world : world :=
  feed sample_loadb [line_a ++ ['\n']] (sample_world 1)

/-- The tuple `tuple_make` fills in for the value `main` (the zeroed tuple
when a field check fails). -/
def sample_tuple (main : json_t) : pdns_tuple :=
  match tuple_fields main with
  | Except.ok tup => tup
  | Except.error _ => {}

/-- Whether `tuple_make` made a tuple that has the cond `c` and an obj. -/
def made_with_cond_and_obj (r : tuple_result) (c : String) : Bool :=
  match r with
  | tuple_result.made tup => decide (tup.cond = some c) && tup.obj.saf_obj.isSome
  | _ => false

/-! ## Vocabulary of the statements: fences and error responses -/

/-- Modelled from the spec: the filter of the DNSDB server behind the request
parameters `time_first_after`, `time_first_before`, `time_last_after` and
`time_last_before`, which is not part of the repository.  An unset value (0)
constrains nothing; a set value is read as the comments of `query_launcher`
and the testable property of the spec word it: an observation must begin
after `first_after`, begin before `first_before`, end after `last_after` and
end before `last_before`. -/
def fence_admits (f : pdns_fence) (time_first time_last : Nat) : Bool :=
  (decide (f.first_after = 0) || decide (time_first > f.first_after)) &&
  (decide (f.first_before = 0) || decide (time_first < f.first_before)) &&
  (decide (f.last_after = 0) || decide (time_last > f.last_after)) &&
  (decide (f.last_before = 0) || decide (time_last < f.last_before))

/-- Modelled from the spec: the same filter with the two bounds of the
`complete` mode read as section 4.1 of the spec words them, "begin at or
after" `first_after` and "end at or before" `last_before`. -/
def fence_admits_inclusive (f : pdns_fence) (time_first time_last : Nat) : Bool :=
  (decide (f.first_after = 0) || decide (time_first ≥ f.first_after)) &&
  (decide (f.first_before = 0) || decide (time_first < f.first_before)) &&
  (decide (f.last_after = 0) || decide (time_last > f.last_after)) &&
  (decide (f.last_before = 0) || decide (time_last ≤ f.last_before))

/-- The fetch is live and the response code `writer_func` sees for it is not
200: the chunk is taken as the body of an error response. -/
def fetch_error (f : fetch) : Bool :=
  match f.easy with
  | none => false
  | some easy => decide ((if f.rcode = 0 then easy.response_code else f.rcode) ≠ HTTP_OK)

/-- The first line of a body: the bytes up to but excluding the first CR or
LF, the whole body when it has neither. -/
def first_line (body : List Char) : List Char :=
  body.takeWhile (fun c => c != '\r' && c != '\n')

/-- The status pair of a query is consistent: both set or both unset. -/
def pair_consistent (q : query) : Bool :=
  q.status.isNone == q.message.isNone

/-- A live fetch that has not received anything yet, for a server answering
with the code `code`, without output limit. -/
def sample_world_code (code : Int) : world :=
  { fetch := { easy := some { response_code := code } },
    writer := { output_limit := -1 } }

/-- A completed fetch that was stopped on purpose, as the output governor
leaves it, with the exit code still 0. -/
def stopped_world : world :=
  { fetch := { easy := some { response_code := 200 }, rcode := 200, stopped := true },
    query := { saf_cond := sc_we_limited },
    writer := { output_limit := 2, count := 2 } }

/-- The message `writer_func` makes of the buffered body `body` of a response
with the code `code` (netio.c, lines 239 to 253): the copy `strndup` takes
ends at the first NUL, it is cut at the first CR or LF, and a line that is
just `<html>`, in any letter case, is replaced by the status code. -/
def error_message (body : List Char) (code : Int) : String :=
  if strcasecmp_eq (first_line (body.takeWhile (fun c => c != '\x00'))) "<html>".toList then
    "HTTP Status " ++ toString code
  else String.mk (first_line (body.takeWhile (fun c => c != '\x00')))

/-- The query once an error body is reported on it: the pair is written when
the status is still unset, and left alone otherwise. -/
def captured (q : query) (body : List Char) (code : Int) : query :=
  if q.status.isNone then
    { q with status := some status_error, message := some (error_message body code) }
  else q

/-- An error body whose first line is the HTML opening tag. -/
def html_body : List Char := "<html>\r\n<body>Not Found</body>\r\n".toList

/-- A plain error body of two lines. -/
def plain_body : List Char := "Error: Bad API key\r\nsee the manual\r\n".toList

/-- The world `w` with an empty receive buffer. -/
def without_leftover (w : world) : world :=
  { w with fetch := { w.fetch with buf := [] } }

/-- The chunks of a 200 response whose last record, the data line for
a.example.com, has no terminating newline. -/
def unterminated_chunks : List (List Char) := [frame [line_begin] line_a]

/-- The world at the end of `main`, when the run got as far as the fetch. -/
def final_state (r : main_result) : Option world :=
  match r with
  | main_result.usage _ => none
  | main_result.finished w => some w

/-- The line `{"cond":"failed","msg":"boom"}`. -/
def line_failed_msg : List Char := "\x7b\"cond\":\"failed\",\"msg\":\"boom\"\x7d".toList

/-- The stand-in `sample_loadb`, which also knows the line `line_failed_msg`. -/
def failed_loadb (buf : List Char) : Option json_t :=
  if buf = line_failed_msg then
    some (json_t.object [("cond", json_t.string "failed"), ("msg", json_t.string "boom")])
  else sample_loadb buf

/-- A stream of a begin line, two data lines and a terminal record with a
message, in two chunks: the records up to the second data line, then the
terminal record. -/
def masked_chunks : List (List Char) :=
  [frame [line_begin, line_a, line_b] [], frame [line_failed_msg] []]

/-- The protocol state the `if (tup.cond != NULL)` chain of `data_blob` sets
for the cond `c`. -/
def cond_state (c : String) : saf_cond_e :=
  if c = "begin" then sc_begin
  else if c = "ongoing" then sc_ongoing
  else if c = "succeeded" then sc_succeeded
  else if c = "limited" then sc_limited
  else if c = "failed" then sc_failed
  else sc_missing

/-- The protocol state is one the server ends a stream with. -/
def terminal (c : saf_cond_e) : Bool :=
  match c with
  | sc_succeeded => true
  | sc_limited => true
  | sc_failed => true
  | _ => false

/-- The states of a run: `query_launcher` makes the query and its fetch, and a
process that has not ended goes on with a call of `writer_func`
on some chunk, with `io_drain` on the completion of the transfer with some
result, or with `writer_fini`. -/
inductive reachable (json_loadb : List Char → Option json_t) : world → Prop where
  | launch (qd : qdesc) (quiet : Bool) (easy : CURL) (presentation : present_e) :
      reachable json_loadb (launch_world qd quiet easy presentation)
  | chunk (w : world) (ptr : List Char) :
      reachable json_loadb w → w.aborted = false →
      reachable json_loadb (writer_func json_loadb ptr w).1
  | drain (w : world) (result : Nat) :
      reachable json_loadb w → w.aborted = false →
      reachable json_loadb (io_drain result w)
  | fini (w : world) :
      reachable json_loadb w → w.aborted = false →
      reachable json_loadb (writer_fini w)

/-- The request URL as the interface describes it: the scheme when the base
URL has none, the base URL, the path, the two fixed parameters, then each
optional parameter when it is meaningful, in this order. -/
def url_spec (base_url path : String) (qd : qdesc) (f : pdns_fence) : String :=
  (if List.IsInfix "://".data base_url.data then "" else "https://") ++ base_url ++ "/" ++ path ++
    "?swclient=dnsdbflex&version=1.0.5" ++
    (if qd.offset > 0 then "&offset=" ++ toString qd.offset else "") ++
    (if qd.query_limit ≠ -1 then "&limit=" ++ toString qd.query_limit else "") ++
    (if f.first_after ≠ 0 then "&time_first_after=" ++ toString f.first_after else "") ++
    (if f.first_before ≠ 0 then "&time_first_before=" ++ toString f.first_before else "") ++
    (if f.last_after ≠ 0 then "&time_last_after=" ++ toString f.last_after else "") ++
    (if f.last_before ≠ 0 then "&time_last_before=" ++ toString f.last_before else "") ++
    (match qd.exclude with
      | some e => "&exclude=" ++ e
      | none => "")

/-- The path as the interface describes it: method, target and value, and the
rrtype when one is set. -/
def path_spec (method target value : String) (rrtype : Option String) : String :=
  method ++ "/" ++ target ++ "/" ++ value ++
    (match rrtype with
      | some r => "/" ++ r
      | none => "")

/-- A descriptor as `main` leaves it for `--regex` on rrnames with an rrtype,
a query limit and a time fence. -/
def sample_qdesc : qdesc :=
  { search_method := search_method_t.method_regex, value := some "example",
    rrtype := some "A", query_limit := 10, after := 100 }

/-- The line `{"obj":{"rrtype":"A"}}`: a data record whose obj has neither
rrname nor rdata. -/
def line_bare_obj : List Char := "\x7b\"obj\":\x7b\"rrtype\":\"A\"\x7d\x7d".toList

/-- The line `{"cond":"bogus","obj":{"rrtype":"A"}}`. -/
def line_bogus_bare : List Char :=
  "\x7b\"cond\":\"bogus\",\"obj\":\x7b\"rrtype\":\"A\"\x7d\x7d".toList

/-- The value of `line_bare_obj`. -/
def json_bare_obj : json_t :=
  json_t.object [("obj", json_t.object [("rrtype", json_t.string "A")])]

/-- The value of `line_bogus_bare`. -/
def json_bogus_bare : json_t :=
  json_t.object [("cond", json_t.string "bogus"),
    ("obj", json_t.object [("rrtype", json_t.string "A")])]

/-- The stand-in `sample_loadb`, which also knows the two lines whose obj has
neither rrname nor rdata. -/
def bare_loadb (buf : List Char) : Option json_t :=
  if buf = line_bare_obj then some json_bare_obj
  else if buf = line_bogus_bare then some json_bogus_bare
  else sample_loadb buf

/-- The world `sample_world` with batch output selected (`-F`). -/
def batch_world (limit : Int) : world :=
  { sample_world limit with presenter := pres_batch }

/-! ## Lists of bytes: memchr, frame, split_lines -/

theorem memchr_eq_none {c : Char} {buf : List Char} (h : c ∉ buf) : memchr buf c = none := by
  induction buf with
  | nil => rfl
  | cons b rest ih =>
    have hb : ¬ b = c := fun e => h (by simp [e])
    have hr : c ∉ rest := fun m => h (List.mem_cons_of_mem _ m)
    simp [memchr, hb, ih hr]

theorem memchr_append {c : Char} (pre rest : List Char) (h : c ∉ pre) :
    memchr (pre ++ c :: rest) c = some pre.length := by
  induction pre with
  | nil => simp [memchr]
  | cons b pre ih =>
    have hb : ¬ b = c := fun e => h (by simp [e])
    have hr : c ∉ pre := fun m => h (List.mem_cons_of_mem _ m)
    simp [memchr, hb, ih hr]

theorem frame_cons_nil (more : List (List Char)) (rest : List Char) :
    frame ([] :: more) rest = '\n' :: frame more rest := rfl

theorem frame_cons_cons (c : Char) (l : List Char) (more : List (List Char))
    (rest : List Char) : frame ((c :: l) :: more) rest = c :: frame (l :: more) rest := rfl

theorem frame_length_ge (segs : List (List Char)) (rest : List Char) :
    segs.length ≤ (frame segs rest).length := by
  induction segs with
  | nil => simp
  | cons seg more ih => simp [frame]; omega

theorem frame_append_rest (segs : List (List Char)) (rest b : List Char) :
    frame segs rest ++ b = frame segs (rest ++ b) := by
  induction segs with
  | nil => rfl
  | cons seg more ih => simp [frame, ih]

theorem frame_frame (l1 l2 : List (List Char)) (r : List Char) :
    frame l1 (frame l2 r) = frame (l1 ++ l2) r := by
  induction l1 with
  | nil => rfl
  | cons seg more ih => simp [frame, ih]

theorem split_lines_no_newline {rest : List Char} (h : '\n' ∉ rest) :
    split_lines rest = ([], rest) := by
  induction rest with
  | nil => rfl
  | cons c cs ih =>
    have hc : ¬ c = '\n' := fun e => h (by simp [e])
    have hr : '\n' ∉ cs := fun m => h (List.mem_cons_of_mem _ m)
    simp [split_lines, hc, ih hr]

theorem split_lines_frame (segs : List (List Char)) (rest : List Char)
    (hs : ∀ x ∈ segs, '\n' ∉ x) (hr : '\n' ∉ rest) :
    split_lines (frame segs rest) = (segs, rest) := by
  induction segs with
  | nil => exact split_lines_no_newline hr
  | cons seg more ih =>
    have hmore : ∀ x ∈ more, '\n' ∉ x := fun x hx => hs x (List.mem_cons_of_mem _ hx)
    have hseg : '\n' ∉ seg := hs seg (List.mem_cons_self _ _)
    have ih1 := ih hmore
    clear hs ih
    induction seg with
    | nil => simp [frame_cons_nil, split_lines, ih1]
    | cons c l ihl =>
      have hc : ¬ c = '\n' := fun e => hseg (by simp [e])
      have hl : '\n' ∉ l := fun m => hseg (List.mem_cons_of_mem _ m)
      rw [frame_cons_cons, split_lines, if_neg hc, ihl hl]

theorem frame_split_lines (b : List Char) :
    frame (split_lines b).1 (split_lines b).2 = b := by
  induction b with
  | nil => rfl
  | cons c cs ih =>
    by_cases hc : c = '\n'
    · simp [split_lines, hc, frame_cons_nil, ih]
    · cases hsp : (split_lines cs).1 with
      | nil =>
        rw [hsp] at ih
        simp [split_lines, hc, hsp]
        simpa [frame] using ih
      | cons l ls =>
        rw [hsp] at ih
        simp [split_lines, hc, hsp, frame_cons_cons, ih]

theorem split_lines_clean (b : List Char) :
    (∀ x ∈ (split_lines b).1, '\n' ∉ x) ∧ '\n' ∉ (split_lines b).2 := by
  induction b with
  | nil => simp [split_lines]
  | cons c cs ih =>
    by_cases hc : c = '\n'
    · simp [split_lines, hc]
      exact ih
    · have hc2 : ¬ '\n' = c := fun e => hc e.symm
      cases hsp : (split_lines cs).1 with
      | nil =>
        simp [split_lines, hc, hsp, hc2]
        exact ih.2
      | cons l ls =>
        rw [hsp] at ih
        simp [split_lines, hc, hsp, hc2]
        refine ⟨⟨?_, ?_⟩, ih.2⟩
        · exact ih.1 l (List.mem_cons_self _ _)
        · intro x hx
          exact ih.1 x (List.mem_cons_of_mem _ hx)

theorem split_lines_append (b1 b2 : List Char) :
    split_lines (b1 ++ b2) =
      ((split_lines b1).1 ++ (split_lines ((split_lines b1).2 ++ b2)).1,
        (split_lines ((split_lines b1).2 ++ b2)).2) := by
  have h1 := frame_split_lines b1
  have h2 := frame_split_lines ((split_lines b1).2 ++ b2)
  have c1 := split_lines_clean b1
  have c2 := split_lines_clean ((split_lines b1).2 ++ b2)
  have e : b1 ++ b2 =
      frame ((split_lines b1).1 ++ (split_lines ((split_lines b1).2 ++ b2)).1)
        (split_lines ((split_lines b1).2 ++ b2)).2 := by
    rw [← frame_frame, h2, ← frame_append_rest, h1]
  conv => lhs; rw [e]
  apply split_lines_frame
  · intro x hx
    rcases List.mem_append.mp hx with h | h
    · exact c1.1 x h
    · exact c2.1 x h
  · exact c2.2

/-! ## The presenter -/

theorem present_of_returns (w : world) (tup : pdns_tuple) (rec : List Char)
    (h : presenter_returns w.presenter tup = true) :
    present w tup rec = { w with presented := w.presented ++ [(tup, rec)] } := by
  unfold present
  unfold presenter_returns at h
  cases hp : w.presenter <;> rw [hp] at h <;> simp only []
  · cases hr : tup.rrname with
    | some x => simp
    | none =>
      cases hd : tup.rdata with
      | some y => simp
      | none => simp [hr, hd] at h
  · cases hr : tup.rrname with
    | some x => simp
    | none =>
      cases hd : tup.rdata with
      | some y => simp
      | none => simp [hr, hd] at h

theorem present_of_panic (w : world) (tup : pdns_tuple) (rec : List Char)
    (h : presenter_returns w.presenter tup = false) :
    present w tup rec =
      my_panic { w with presented := w.presented ++ [(tup, rec)] }
        (if w.presenter = pres_batch then "present_batch"
          else "present_batch_dedup_rrtype") := by
  unfold present
  unfold presenter_returns at h
  cases hp : w.presenter <;> rw [hp] at h <;> simp only []
  · cases h
  · cases hr : tup.rrname with
    | some x => simp [hr] at h
    | none =>
      cases hd : tup.rdata with
      | some y => simp [hr, hd] at h
      | none => simp
  · cases hr : tup.rrname with
    | some x => simp [hr] at h
    | none =>
      cases hd : tup.rdata with
      | some y => simp [hr, hd] at h
      | none => simp

theorem present_cases (w : world) (tup : pdns_tuple) (rec : List Char) :
    present w tup rec = { w with presented := w.presented ++ [(tup, rec)] } ∨
    ∃ s : String, present w tup rec =
      my_panic { w with presented := w.presented ++ [(tup, rec)] } s := by
  cases h : presenter_returns w.presenter tup with
  | true => exact Or.inl (present_of_returns w tup rec h)
  | false => exact Or.inr ⟨_, present_of_panic w tup rec h⟩

theorem present_frame (w : world) (tup : pdns_tuple) (rec : List Char) :
    (present w tup rec).fetch = w.fetch ∧ (present w tup rec).writer = w.writer ∧
    (present w tup rec).query = w.query ∧ (present w tup rec).blobs = w.blobs ∧
    (present w tup rec).exit_code = w.exit_code ∧ (present w tup rec).linked = w.linked ∧
    (present w tup rec).reaped = w.reaped ∧ (present w tup rec).quiet = w.quiet ∧
    (present w tup rec).presenter = w.presenter ∧
    (present w tup rec).presented = w.presented ++ [(tup, rec)] ∧
    (presenter_returns w.presenter tup = true → (present w tup rec).aborted = w.aborted) := by
  refine ⟨?_, ?_, ?_, ?_, ?_, ?_, ?_, ?_, ?_, ?_, ?_⟩
  all_goals first
    | (intro h; rw [present_of_returns w tup rec h])
    | (rcases present_cases w tup rec with e | ⟨s, e⟩ <;> rw [e] <;> rfl)

theorem present_set_io (w : world) (tup : pdns_tuple) (rec b : List Char) (r : Int) :
    present (set_io w b r) tup rec = set_io (present w tup rec) b r := by
  cases h : presenter_returns w.presenter tup with
  | true =>
    rw [present_of_returns w tup rec h, present_of_returns (set_io w b r) tup rec h]
    rfl
  | false =>
    rw [present_of_panic w tup rec h, present_of_panic (set_io w b r) tup rec h]
    rfl

theorem cond_chain_presenter (w : world) (c : String) :
    (cond_chain w c).1.presenter = w.presenter := by
  unfold cond_chain
  split_ifs <;> rfl

theorem take_cond_presenter (w : world) (tup : pdns_tuple) :
    (take_cond w tup).1.presenter = w.presenter := by
  unfold take_cond
  cases tup.cond with
  | none => rfl
  | some c => exact cond_chain_presenter w c

theorem take_msg_presenter (w : world) (tup : pdns_tuple) :
    (take_msg w tup).presenter = w.presenter := by
  unfold take_msg
  cases tup.msg <;> rfl

theorem data_blob_tuple_presenter (w : world) (tup : pdns_tuple) (rec : List Char) :
    (data_blob_tuple w tup rec).1.presenter = w.presenter := by
  have h : (take_cond (take_msg w tup) tup).1.presenter = w.presenter :=
    (take_cond_presenter _ tup).trans (take_msg_presenter w tup)
  unfold data_blob_tuple
  simp only []
  split_ifs
  · exact h
  · exact h
  · exact (present_frame _ tup rec).2.2.2.2.2.2.2.2.1.trans h

theorem data_blob_presenter (jl : List Char → Option json_t) (w : world) (rec : List Char) :
    (data_blob jl w rec).1.presenter = w.presenter := by
  unfold data_blob
  cases tuple_make jl rec with
  | aborted => rfl
  | ouch msg => rfl
  | made tup => exact data_blob_tuple_presenter (note_blob w rec) tup rec

theorem decode_record_presenter (jl : List Char → Option json_t) (w : world)
    (rec : List Char) : (decode_record jl w rec).presenter = w.presenter := by
  have h := data_blob_presenter jl w rec
  unfold decode_record
  simp only []
  split_ifs
  · exact h
  · cases (data_blob jl w rec).1.query.saf_cond <;> exact h

theorem deblock_record_presenter (jl : List Char → Option json_t) (s : world × Nat)
    (rec : List Char) : (deblock_record jl s rec).1.presenter = s.1.presenter := by
  unfold deblock_record
  split_ifs
  · rfl
  · exact decode_record_presenter jl s.1 rec

theorem records_presenter (jl : List Char → Option json_t) (segs : List (List Char)) :
    ∀ s : world × Nat, (records jl s segs).1.presenter = s.1.presenter := by
  induction segs with
  | nil => intro s; rfl
  | cons rec more ih =>
    intro s
    have e : records jl s (rec :: more) = records jl (record_step jl s rec) more := rfl
    rw [e, ih]
    unfold record_step
    split_ifs
    · rfl
    · exact deblock_record_presenter jl s rec

/-! ## The decoder does not look at the receive buffer -/

theorem cond_chain_set_io (w : world) (c : String) (b : List Char) (r : Int) :
    cond_chain (set_io w b r) c = (set_io (cond_chain w c).1 b r, (cond_chain w c).2) := by
  unfold cond_chain
  split_ifs <;> rfl

theorem take_cond_set_io (w : world) (tup : pdns_tuple) (b : List Char) (r : Int) :
    take_cond (set_io w b r) tup = (set_io (take_cond w tup).1 b r, (take_cond w tup).2) := by
  unfold take_cond
  cases tup.cond with
  | none => rfl
  | some c => exact cond_chain_set_io w c b r

theorem take_msg_set_io (w : world) (tup : pdns_tuple) (b : List Char) (r : Int) :
    take_msg (set_io w b r) tup = set_io (take_msg w tup) b r := by
  unfold take_msg
  cases tup.msg <;> rfl

theorem data_blob_tuple_set_io (w : world) (tup : pdns_tuple) (rec b : List Char) (r : Int) :
    data_blob_tuple (set_io w b r) tup rec =
      (set_io (data_blob_tuple w tup rec).1 b r, (data_blob_tuple w tup rec).2) := by
  unfold data_blob_tuple
  rw [take_msg_set_io, take_cond_set_io]
  simp only []
  split_ifs
  · rfl
  · rfl
  · rw [present_set_io]

theorem data_blob_set_io (jl : List Char → Option json_t) (w : world) (rec b : List Char)
    (r : Int) :
    data_blob jl (set_io w b r) rec =
      (set_io (data_blob jl w rec).1 b r, (data_blob jl w rec).2) := by
  unfold data_blob
  cases tuple_make jl rec with
  | aborted => rfl
  | ouch msg => rfl
  | made tup => exact data_blob_tuple_set_io (note_blob w rec) tup rec b r

/-! ## What the decoder leaves alone -/

theorem cond_chain_frame (w : world) (c : String) :
    (cond_chain w c).1.fetch = w.fetch ∧ (cond_chain w c).1.writer = w.writer ∧
    (cond_chain w c).1.aborted = w.aborted ∧ (cond_chain w c).1.blobs = w.blobs ∧
    (cond_chain w c).1.presented = w.presented ∧
    (cond_chain w c).1.exit_code = w.exit_code ∧
    (cond_chain w c).1.query.saf_cond ≠ sc_we_limited := by
  unfold cond_chain
  split_ifs <;> simp [set_saf_cond, log_stderr]

theorem take_cond_frame (w : world) (tup : pdns_tuple) :
    (take_cond w tup).1.fetch = w.fetch ∧ (take_cond w tup).1.writer = w.writer ∧
    (take_cond w tup).1.aborted = w.aborted ∧ (take_cond w tup).1.blobs = w.blobs ∧
    (take_cond w tup).1.presented = w.presented ∧
    (take_cond w tup).1.exit_code = w.exit_code ∧
    ((take_cond w tup).1.query.saf_cond = sc_we_limited → w.query.saf_cond = sc_we_limited) := by
  unfold take_cond
  cases tup.cond with
  | none => simp
  | some c =>
    have h := cond_chain_frame w c
    exact ⟨h.1, h.2.1, h.2.2.1, h.2.2.2.1, h.2.2.2.2.1, h.2.2.2.2.2.1,
      fun e => absurd e h.2.2.2.2.2.2⟩

theorem take_msg_frame (w : world) (tup : pdns_tuple) :
    (take_msg w tup).fetch = w.fetch ∧ (take_msg w tup).writer = w.writer ∧
    (take_msg w tup).aborted = w.aborted ∧ (take_msg w tup).blobs = w.blobs ∧
    (take_msg w tup).presented = w.presented ∧
    (take_msg w tup).exit_code = w.exit_code ∧
    (take_msg w tup).query.saf_cond = w.query.saf_cond := by
  unfold take_msg
  cases tup.msg <;> simp

theorem data_blob_tuple_frame (w : world) (tup : pdns_tuple) (rec : List Char) :
    (data_blob_tuple w tup rec).1.fetch = w.fetch ∧
    (data_blob_tuple w tup rec).1.writer = w.writer ∧
    (presenter_returns w.presenter tup = true →
      (data_blob_tuple w tup rec).1.aborted = w.aborted) ∧
    (data_blob_tuple w tup rec).1.blobs = w.blobs ∧
    (data_blob_tuple w tup rec).1.exit_code = w.exit_code ∧
    ((data_blob_tuple w tup rec).1.query.saf_cond = sc_we_limited →
      w.query.saf_cond = sc_we_limited) := by
  have hc := take_cond_frame (take_msg w tup) tup
  have hm := take_msg_frame w tup
  have hpz : (take_cond (take_msg w tup) tup).1.presenter = w.presenter :=
    (take_cond_presenter _ tup).trans (take_msg_presenter w tup)
  have e : ∀ v : world, (v.query.saf_cond = sc_we_limited → w.query.saf_cond = sc_we_limited) →
      v.fetch = w.fetch → v.writer = w.writer →
      (presenter_returns w.presenter tup = true → v.aborted = w.aborted) →
      v.blobs = w.blobs → v.exit_code = w.exit_code →
      v.fetch = w.fetch ∧ v.writer = w.writer ∧
      (presenter_returns w.presenter tup = true → v.aborted = w.aborted) ∧ v.blobs = w.blobs ∧
      v.exit_code = w.exit_code ∧
      (v.query.saf_cond = sc_we_limited → w.query.saf_cond = sc_we_limited) :=
    fun v a b c d e f => ⟨b, c, d, e, f, a⟩
  have base := e (take_cond (take_msg w tup) tup).1
    (fun x => hm.2.2.2.2.2.2 ▸ hc.2.2.2.2.2.2 x)
    (hc.1.trans hm.1) (hc.2.1.trans hm.2.1) (fun _ => hc.2.2.1.trans hm.2.2.1)
    (hc.2.2.2.1.trans hm.2.2.2.1) (hc.2.2.2.2.2.1.trans hm.2.2.2.2.2.1)
  have hpf := present_frame (take_cond (take_msg w tup) tup).1 tup rec
  have withp := e (present (take_cond (take_msg w tup) tup).1 tup rec)
    (fun x => hm.2.2.2.2.2.2 ▸ hc.2.2.2.2.2.2 (by rw [← hpf.2.2.1]; exact x))
    (hpf.1.trans (hc.1.trans hm.1)) (hpf.2.1.trans (hc.2.1.trans hm.2.1))
    (fun hr => (hpf.2.2.2.2.2.2.2.2.2.2 (by rw [hpz]; exact hr)).trans
      (hc.2.2.1.trans hm.2.2.1))
    (hpf.2.2.2.1.trans (hc.2.2.2.1.trans hm.2.2.2.1))
    (hpf.2.2.2.2.1.trans (hc.2.2.2.2.2.1.trans hm.2.2.2.2.2.1))
  unfold data_blob_tuple
  simp only []
  split_ifs
  · exact base
  · exact base
  · exact withp

theorem data_blob_frame (jl : List Char → Option json_t) (w : world) (rec : List Char) :
    (data_blob jl w rec).1.fetch = w.fetch ∧
    (data_blob jl w rec).1.writer = w.writer ∧
    (data_blob jl w rec).1.blobs = w.blobs ++ [rec] ∧
    (data_blob jl w rec).1.exit_code = w.exit_code ∧
    ((data_blob jl w rec).1.query.saf_cond = sc_we_limited →
      w.query.saf_cond = sc_we_limited) := by
  unfold data_blob
  cases tuple_make jl rec with
  | aborted => simp [do_abort, log_stderr, note_blob]
  | ouch msg => simp [log_stderr, note_blob]
  | made tup =>
    have h := data_blob_tuple_frame (note_blob w rec) tup rec
    exact ⟨h.1, h.2.1, h.2.2.2.1, h.2.2.2.2.1, h.2.2.2.2.2⟩

/-! ## One iteration of the deblock loop -/

theorem decode_record_set_io (jl : List Char → Option json_t) (w : world) (rec b : List Char)
    (r : Int) : decode_record jl (set_io w b r) rec = set_io (decode_record jl w rec) b r := by
  unfold decode_record
  rw [data_blob_set_io]
  simp only []
  by_cases ha : (data_blob jl w rec).1.aborted = true
  · have ha2 : (set_io (data_blob jl w rec).1 b r).aborted = true := ha
    rw [if_pos ha, if_pos ha2]
  · have ha2 : ¬ (set_io (data_blob jl w rec).1 b r).aborted = true := ha
    rw [if_neg ha, if_neg ha2]
    have hq : (set_io (data_blob jl w rec).1 b r).query = (data_blob jl w rec).1.query := rfl
    simp only [hq]
    cases (data_blob jl w rec).1.query.saf_cond <;> rfl

theorem deblock_record_set_io (jl : List Char → Option json_t) (w : world) (n : Nat)
    (rec b : List Char) (r : Int) :
    deblock_record jl (set_io w b r, n) rec =
      (set_io (deblock_record jl (w, n) rec).1 b r, (deblock_record jl (w, n) rec).2) := by
  unfold deblock_record
  have hw : (set_io w b r).writer = w.writer := rfl
  simp only [hw]
  split_ifs
  · rfl
  · simp only [decode_record_set_io]

theorem deblock_record_fst (jl : List Char → Option json_t) (w : world) (n : Nat)
    (rec : List Char) :
    (deblock_record jl (w, n) rec).1 = (deblock_record jl (w, 0) rec).1 := by
  unfold deblock_record
  split_ifs <;> rfl

theorem deblock_record_snd (jl : List Char → Option json_t) (w : world) (n : Nat)
    (rec : List Char) :
    (deblock_record jl (w, n) rec).2 = if limit_reached w.writer then 0 else n := by
  unfold deblock_record
  split_ifs <;> rfl

theorem decode_record_frame (jl : List Char → Option json_t) (w : world) (rec : List Char) :
    (decode_record jl w rec).fetch.buf = w.fetch.buf ∧
    (decode_record jl w rec).fetch.rcode = w.fetch.rcode ∧
    (decode_record jl w rec).fetch.easy = w.fetch.easy ∧
    (decode_record jl w rec).writer.output_limit = w.writer.output_limit ∧
    (decode_record jl w rec).blobs = w.blobs ++ [rec] ∧
    (decode_record jl w rec).exit_code = w.exit_code ∧
    ((decode_record jl w rec).query.saf_cond = sc_we_limited →
      w.query.saf_cond = sc_we_limited) := by
  have h := data_blob_frame jl w rec
  unfold decode_record
  simp only []
  split_ifs with ha
  · simp [h.1, h.2.1, h.2.2.1, h.2.2.2.1]
    exact h.2.2.2.2
  · cases hc : (data_blob jl w rec).1.query.saf_cond <;>
      simp [hc, h.1, h.2.1, h.2.2.1, h.2.2.2.1]
    exact h.2.2.2.2 hc

theorem deblock_record_frame (jl : List Char → Option json_t) (s : world × Nat)
    (rec : List Char) :
    (deblock_record jl s rec).1.fetch.buf = s.1.fetch.buf ∧
    (deblock_record jl s rec).1.fetch.rcode = s.1.fetch.rcode ∧
    (deblock_record jl s rec).1.fetch.easy = s.1.fetch.easy ∧
    (deblock_record jl s rec).1.writer.output_limit = s.1.writer.output_limit ∧
    (deblock_record jl s rec).1.exit_code = s.1.exit_code := by
  unfold deblock_record
  split_ifs
  · simp [limit_hit, set_saf_cond]
  · have h := decode_record_frame jl s.1 rec
    exact ⟨h.1, h.2.1, h.2.2.1, h.2.2.2.1, h.2.2.2.2.2.1⟩

/-! ## The deblock loop runs the records of the buffer in order -/

theorem set_io_set_io (w : world) (b b2 : List Char) (r r2 : Int) :
    set_io (set_io w b r) b2 r2 = set_io w b2 r2 := rfl

theorem obs_set_io (w : world) (b : List Char) (r : Int) : obs (set_io w b r) = obs w := rfl

theorem set_io_self (w : world) : set_io w w.fetch.buf w.fetch.rcode = w := rfl

theorem obs_aborted (v w : world) (h : obs v = obs w) : v.aborted = w.aborted := by
  have e : (obs v).aborted = (obs w).aborted := by rw [h]
  exact e

theorem record_step_set_io (jl : List Char → Option json_t) (w : world) (n : Nat)
    (rec b : List Char) (r : Int) :
    record_step jl (set_io w b r, n) rec =
      (set_io (record_step jl (w, n) rec).1 b r, (record_step jl (w, n) rec).2) := by
  unfold record_step
  have ha : (set_io w b r).aborted = w.aborted := rfl
  simp only [ha]
  split_ifs
  · rfl
  · exact deblock_record_set_io jl w n rec b r

theorem records_nil (jl : List Char → Option json_t) (s : world × Nat) :
    records jl s [] = s := rfl

theorem records_cons (jl : List Char → Option json_t) (s : world × Nat) (rec : List Char)
    (more : List (List Char)) :
    records jl s (rec :: more) = records jl (record_step jl s rec) more := rfl

theorem records_append (jl : List Char → Option json_t) (s : world × Nat)
    (l1 l2 : List (List Char)) :
    records jl s (l1 ++ l2) = records jl (records jl s l1) l2 := by
  unfold records
  exact List.foldl_append _ _ _ _

theorem records_set_io (jl : List Char → Option json_t) (segs : List (List Char)) (w : world)
    (n : Nat) (b : List Char) (r : Int) :
    records jl (set_io w b r, n) segs =
      (set_io (records jl (w, n) segs).1 b r, (records jl (w, n) segs).2) := by
  induction segs generalizing w n with
  | nil => rfl
  | cons rec more ih =>
    rw [records_cons, records_cons, record_step_set_io, ih]

theorem records_aborted (jl : List Char → Option json_t) (segs : List (List Char))
    (s : world × Nat) (h : s.1.aborted = true) : records jl s segs = s := by
  induction segs with
  | nil => rfl
  | cons rec more ih =>
    rw [records_cons]
    have e : record_step jl s rec = s := by simp [record_step, h]
    rw [e, ih]

theorem records_fst (jl : List Char → Option json_t) (segs : List (List Char)) (w : world)
    (n m : Nat) : (records jl (w, n) segs).1 = (records jl (w, m) segs).1 := by
  induction segs generalizing w n m with
  | nil => rfl
  | cons rec more ih =>
    rw [records_cons, records_cons]
    have e : (record_step jl (w, n) rec).1 = (record_step jl (w, m) rec).1 := by
      unfold record_step
      by_cases ha : w.aborted = true
      · simp [ha]
      · simp only [ha]
        rw [if_neg (by simp), if_neg (by simp), deblock_record_fst jl w n, deblock_record_fst jl w m]
    have e1 : record_step jl (w, n) rec =
        ((record_step jl (w, m) rec).1, (record_step jl (w, n) rec).2) := by
      rw [← e]
    rw [e1]
    exact ih _ _ _

theorem deblock_no_newline (jl : List Char → Option json_t) (fuel : Nat) (s : world × Nat)
    (h : '\n' ∉ s.1.fetch.buf) : deblock jl fuel s = s := by
  cases fuel with
  | zero => rfl
  | succ f => simp [deblock, memchr_eq_none h]

theorem deblock_frame (jl : List Char → Option json_t) (segs : List (List Char))
    (rest : List Char) (s : world × Nat) (fuel : Nat)
    (hs : ∀ x ∈ segs, '\n' ∉ x) (hr : '\n' ∉ rest)
    (hb : s.1.fetch.buf = frame segs rest) (hf : segs.length ≤ fuel)
    (ha : s.1.aborted = false) :
    obs (deblock jl fuel s).1 = obs (records jl s segs).1 ∧
    (deblock jl fuel s).2 = (records jl s segs).2 ∧
    ((records jl s segs).1.aborted = false →
      (deblock jl fuel s).1 = set_io (records jl s segs).1 rest s.1.fetch.rcode) := by
  induction segs generalizing s fuel with
  | nil =>
    have hn : '\n' ∉ s.1.fetch.buf := by rw [hb]; exact hr
    rw [deblock_no_newline jl fuel s hn, records_nil]
    refine ⟨rfl, rfl, fun _ => ?_⟩
    have e : rest = s.1.fetch.buf := hb.symm
    rw [e]
    rfl
  | cons seg more ih =>
    have hmore : ∀ x ∈ more, '\n' ∉ x := fun x hx => hs x (List.mem_cons_of_mem _ hx)
    have hseg : '\n' ∉ seg := hs seg (List.mem_cons_self _ _)
    cases fuel with
    | zero => simp at hf
    | succ f =>
      have hf2 : more.length ≤ f := by simpa using hf
      have hbuf : s.1.fetch.buf = seg ++ '\n' :: frame more rest := hb
      have hstep : record_step jl s seg = deblock_record jl s seg := by
        simp [record_step, ha]
      have hfr := deblock_record_frame jl s seg
      rw [records_cons, hstep]
      have hunf : deblock jl (f + 1) s =
          if (deblock_record jl s seg).1.aborted = true then deblock_record jl s seg
          else deblock jl f
            (set_io (deblock_record jl s seg).1 (frame more rest)
              (deblock_record jl s seg).1.fetch.rcode, (deblock_record jl s seg).2) := by
        rw [deblock]
        simp only [hbuf, memchr_append seg (frame more rest) hseg]
        have ht : List.take seg.length (seg ++ '\n' :: frame more rest) = seg := by simp
        rw [ht]
        have hb1 : (deblock_record jl s seg).1.fetch.buf = seg ++ '\n' :: frame more rest := by
          rw [hfr.1, hbuf]
        have hd : List.take ((seg ++ '\n' :: frame more rest).length - seg.length - 1)
            (List.drop (seg.length + 1) (deblock_record jl s seg).1.fetch.buf) =
            frame more rest := by
          rw [hb1]
          have e1 : List.drop (seg.length + 1) (seg ++ '\n' :: frame more rest) =
              frame more rest := by
            rw [List.drop_append_eq_append_drop]
            simp
          rw [e1]
          apply List.take_of_length_le
          simp
        rw [hd]
        rfl
      rw [hunf]
      by_cases hab : (deblock_record jl s seg).1.aborted = true
      · rw [if_pos hab, records_aborted jl more _ hab]
        exact ⟨rfl, rfl, fun h => by rw [hab] at h; cases h⟩
      · rw [if_neg hab]
        have hab2 : (deblock_record jl s seg).1.aborted = false := by
          simpa using hab
        have ihs := ih
          (set_io (deblock_record jl s seg).1 (frame more rest)
            (deblock_record jl s seg).1.fetch.rcode, (deblock_record jl s seg).2)
          f hmore rfl hf2 hab2
        rw [records_set_io] at ihs
        simp only [obs_set_io, set_io_set_io] at ihs
        refine ⟨ihs.1, ihs.2.1, fun h => ?_⟩
        have h3 := ihs.2.2 h
        rw [h3]
        have hrc : (set_io (deblock_record jl s seg).1 (frame more rest)
            (deblock_record jl s seg).1.fetch.rcode).fetch.rcode = s.1.fetch.rcode := hfr.2.1
        rw [hrc]

/-- The bound given to `deblock` by `writer_func` is never what ends the loop:
with `fetch->len` iterations allowed, the loop of a live process ends with no
newline left in the buffer. -/
theorem deblock_leaves_no_newline (jl : List Char → Option json_t) (s : world × Nat)
    (fuel : Nat) (hf : s.1.fetch.buf.length ≤ fuel) (ha : s.1.aborted = false)
    (hr : (deblock jl fuel s).1.aborted = false) :
    '\n' ∉ (deblock jl fuel s).1.fetch.buf := by
  have hc := split_lines_clean s.1.fetch.buf
  have hfr := frame_split_lines s.1.fetch.buf
  have hlen : (split_lines s.1.fetch.buf).1.length ≤ fuel := by
    refine le_trans ?_ hf
    conv => rhs; rw [← hfr]
    exact frame_length_ge _ _
  have key := deblock_frame jl (split_lines s.1.fetch.buf).1 (split_lines s.1.fetch.buf).2
    s fuel hc.1 hc.2 hfr.symm hlen ha
  have hab : (records jl s (split_lines s.1.fetch.buf).1).1.aborted = false :=
    (obs_aborted _ _ key.1).symm.trans hr
  rw [key.2.2 hab]
  exact hc.2

/-! ## writer_func on a 200 response -/

theorem records_frame (jl : List Char → Option json_t) (segs : List (List Char))
    (s : world × Nat) :
    (records jl s segs).1.fetch.buf = s.1.fetch.buf ∧
    (records jl s segs).1.fetch.rcode = s.1.fetch.rcode ∧
    (records jl s segs).1.fetch.easy = s.1.fetch.easy ∧
    (records jl s segs).1.writer.output_limit = s.1.writer.output_limit ∧
    (records jl s segs).1.exit_code = s.1.exit_code := by
  induction segs generalizing s with
  | nil => exact ⟨rfl, rfl, rfl, rfl, rfl⟩
  | cons rec more ih =>
    rw [records_cons]
    have h := ih (record_step jl s rec)
    have h1 : (record_step jl s rec).1.fetch.buf = s.1.fetch.buf ∧
        (record_step jl s rec).1.fetch.rcode = s.1.fetch.rcode ∧
        (record_step jl s rec).1.fetch.easy = s.1.fetch.easy ∧
        (record_step jl s rec).1.writer.output_limit = s.1.writer.output_limit ∧
        (record_step jl s rec).1.exit_code = s.1.exit_code := by
      unfold record_step
      split_ifs
      · exact ⟨rfl, rfl, rfl, rfl, rfl⟩
      · exact deblock_record_frame jl s rec
    exact ⟨h.1.trans h1.1, h.2.1.trans h1.2.1, h.2.2.1.trans h1.2.2.1,
      h.2.2.2.1.trans h1.2.2.2.1, h.2.2.2.2.trans h1.2.2.2.2⟩

theorem fetch_ok_settled (f g : fetch) (h : fetch_ok f = true) (he : g.easy = f.easy)
    (hr : g.rcode = seen_rcode f) : fetch_ok g = true ∧ seen_rcode g = g.rcode := by
  unfold fetch_ok seen_rcode at *
  rw [he]
  cases hfe : f.easy with
  | none => simp
  | some easy =>
    rw [hfe] at h hr
    simp only [] at h hr
    have h2 : (if f.rcode = 0 then easy.response_code else f.rcode) = HTTP_OK := by
      simpa using h
    rw [h2] at hr
    simp [hr, HTTP_OK]

theorem writer_func_ok (jl : List Char → Option json_t) (ptr : List Char) (w : world)
    (h : fetch_ok w.fetch = true) :
    writer_func jl ptr w =
      deblock jl (w.fetch.buf ++ ptr).length
        (set_io w (w.fetch.buf ++ ptr) (seen_rcode w.fetch), ptr.length) := by
  rcases w with ⟨⟨easy, buf, rcode, stopped⟩, q, wr, li, re, ec, qu, bl, pr, se, ab, pz, en⟩
  cases easy with
  | none => rfl
  | some easy =>
    have h2 : (if rcode = 0 then easy.response_code else rcode) = HTTP_OK := by
      simpa [fetch_ok] using h
    by_cases h0 : rcode = 0
    · rw [if_pos h0] at h2
      simp [writer_func, seen_rcode, set_io, h0, h2]
    · rw [if_neg h0] at h2
      have hne : ¬ (HTTP_OK = 0) := by simp [HTTP_OK]
      simp [writer_func, seen_rcode, set_io, h2, hne]

theorem writer_func_frame (jl : List Char → Option json_t) (ptr : List Char) (w : world)
    (h : fetch_ok w.fetch = true) (ha : w.aborted = false) :
    obs (writer_func jl ptr w).1 =
      obs (records jl (w, ptr.length) (split_lines (w.fetch.buf ++ ptr)).1).1 ∧
    (writer_func jl ptr w).2 =
      (records jl (w, ptr.length) (split_lines (w.fetch.buf ++ ptr)).1).2 ∧
    ((records jl (w, ptr.length) (split_lines (w.fetch.buf ++ ptr)).1).1.aborted = false →
      (writer_func jl ptr w).1 =
        set_io (records jl (w, ptr.length) (split_lines (w.fetch.buf ++ ptr)).1).1
          (split_lines (w.fetch.buf ++ ptr)).2 (seen_rcode w.fetch)) := by
  rw [writer_func_ok jl ptr w h]
  have hc := split_lines_clean (w.fetch.buf ++ ptr)
  have hfr := frame_split_lines (w.fetch.buf ++ ptr)
  have hlen : (split_lines (w.fetch.buf ++ ptr)).1.length ≤ (w.fetch.buf ++ ptr).length := by
    conv => rhs; rw [← hfr]
    exact frame_length_ge _ _
  have key := deblock_frame jl (split_lines (w.fetch.buf ++ ptr)).1
    (split_lines (w.fetch.buf ++ ptr)).2
    (set_io w (w.fetch.buf ++ ptr) (seen_rcode w.fetch), ptr.length)
    (w.fetch.buf ++ ptr).length hc.1 hc.2 hfr.symm hlen ha
  rw [records_set_io] at key
  simp only [obs_set_io, set_io_set_io] at key
  exact ⟨key.1, key.2.1, fun hh => key.2.2 hh⟩

/-! ## A response delivered in chunks -/

theorem feed_nil (jl : List Char → Option json_t) (w : world) : feed jl [] w = w := rfl

theorem feed_cons (jl : List Char → Option json_t) (c : List Char) (cs : List (List Char))
    (w : world) : feed jl (c :: cs) w = feed jl cs (deliver jl w c) := rfl

theorem feed_aborted (jl : List Char → Option json_t) (cs : List (List Char)) (w : world)
    (h : w.aborted = true) : feed jl cs w = w := by
  induction cs with
  | nil => rfl
  | cons c cs ih =>
    rw [feed_cons]
    have e : deliver jl w c = w := by simp [deliver, h]
    rw [e, ih]

theorem records_records_fst (jl : List Char → Option json_t) (w : world) (n : Nat)
    (l1 l2 : List (List Char)) :
    (records jl (w, 0) (l1 ++ l2)).1 = (records jl ((records jl (w, n) l1).1, 0) l2).1 := by
  rw [records_append]
  have e : records jl (w, 0) l1 = ((records jl (w, n) l1).1, (records jl (w, 0) l1).2) := by
    rw [records_fst jl l1 w n 0]
  rw [e]
  exact records_fst jl l2 _ _ _

theorem feed_frame (jl : List Char → Option json_t) (cs : List (List Char)) (w : world)
    (ha : w.aborted = false) (hok : fetch_ok w.fetch = true) (hn : '\n' ∉ w.fetch.buf) :
    obs (feed jl cs w) =
      obs (records jl (w, 0) (split_lines (w.fetch.buf ++ cs.flatten)).1).1 ∧
    ((records jl (w, 0) (split_lines (w.fetch.buf ++ cs.flatten)).1).1.aborted = false →
      (feed jl cs w).fetch.buf = (split_lines (w.fetch.buf ++ cs.flatten)).2) := by
  induction cs generalizing w with
  | nil =>
    refine ⟨?_, fun _ => ?_⟩ <;>
      simp [split_lines_no_newline hn, feed_nil, records_nil]
  | cons c cs ih =>
    have wf := writer_func_frame jl c w hok ha
    have hd : deliver jl w c = (writer_func jl c w).1 := by simp [deliver, ha]
    have happ : w.fetch.buf ++ (c :: cs).flatten = (w.fetch.buf ++ c) ++ cs.flatten := by
      simp
    rw [feed_cons, hd, happ, split_lines_append]
    simp only []
    rw [records_records_fst jl w c.length]
    by_cases hab : (records jl (w, c.length) (split_lines (w.fetch.buf ++ c)).1).1.aborted = true
    · have hab2 : (writer_func jl c w).1.aborted = true :=
        (obs_aborted _ _ wf.1).trans hab
      rw [feed_aborted jl cs _ hab2, records_aborted jl _ (_, 0) hab]
      exact ⟨wf.1, fun h => by rw [hab] at h; cases h⟩
    · have hab1 : (records jl (w, c.length) (split_lines (w.fetch.buf ++ c)).1).1.aborted =
          false := by simpa using hab
      have hw := wf.2.2 hab1
      have hfr := records_frame jl (split_lines (w.fetch.buf ++ c)).1 (w, c.length)
      have hok2 := (fetch_ok_settled w.fetch (writer_func jl c w).1.fetch hok
        (by rw [hw]; exact hfr.2.2.1) (by rw [hw]; rfl)).1
      have hn2 : '\n' ∉ (writer_func jl c w).1.fetch.buf := by
        rw [hw]
        exact (split_lines_clean (w.fetch.buf ++ c)).2
      have ha2 : (writer_func jl c w).1.aborted = false := by
        rw [hw]
        exact hab1
      have ih2 := ih (writer_func jl c w).1 ha2 hok2 hn2
      have hbuf : (writer_func jl c w).1.fetch.buf = (split_lines (w.fetch.buf ++ c)).2 := by
        rw [hw]
        rfl
      rw [hbuf] at ih2
      have hrec : ∀ l : List (List Char),
          records jl ((writer_func jl c w).1, 0) l =
            (set_io (records jl ((records jl (w, c.length)
                (split_lines (w.fetch.buf ++ c)).1).1, 0) l).1
              (split_lines (w.fetch.buf ++ c)).2 (seen_rcode w.fetch),
             (records jl ((records jl (w, c.length)
                (split_lines (w.fetch.buf ++ c)).1).1, 0) l).2) := by
        intro l
        rw [hw, records_set_io]
      rw [hrec] at ih2
      simp only [obs_set_io] at ih2
      exact ⟨ih2.1, fun h => ih2.2 h⟩

/-! ## C1, C2: deblocking -/

theorem presenter_returns_json (p : present_e) (tup : pdns_tuple) (h : p = pres_json) :
    presenter_returns p tup = true := by
  rw [h]
  rfl

theorem data_blob_alive (jl : List Char → Option json_t) (w : world) (rec : List Char)
    (hp : jl rec ≠ none) (hz : w.presenter = pres_json) :
    (data_blob jl w rec).1.aborted = w.aborted := by
  unfold data_blob tuple_make
  cases hj : jl rec with
  | none => exact absurd hj hp
  | some main =>
    simp only []
    cases tuple_fields main with
    | error msg => rfl
    | ok tup =>
      exact (data_blob_tuple_frame (note_blob w rec) tup rec).2.2.1
        (presenter_returns_json _ tup hz)

theorem decode_record_alive (jl : List Char → Option json_t) (w : world) (rec : List Char)
    (hp : jl rec ≠ none) (ha : w.aborted = false) (hz : w.presenter = pres_json) :
    (decode_record jl w rec).aborted = false := by
  have h := (data_blob_alive jl w rec hp hz).trans ha
  unfold decode_record
  simp only [h]
  cases (data_blob jl w rec).1.query.saf_cond <;> simp [h]

theorem records_no_cap (jl : List Char → Option json_t) (segs : List (List Char))
    (s : world × Nat) (hcap : s.1.writer.output_limit ≤ 0) (ha : s.1.aborted = false)
    (hp : ∀ x ∈ segs, jl x ≠ none) (hz : s.1.presenter = pres_json) :
    (records jl s segs).1.blobs = s.1.blobs ++ segs ∧ (records jl s segs).1.aborted = false := by
  induction segs generalizing s with
  | nil => simp [records_nil, ha]
  | cons rec more ih =>
    have hrec : jl rec ≠ none := hp rec (List.mem_cons_self _ _)
    have hmore : ∀ x ∈ more, jl x ≠ none := fun x hx => hp x (List.mem_cons_of_mem _ hx)
    have hl : limit_reached s.1.writer = false := by
      simp only [limit_reached, decide_eq_false_iff_not]
      intro h
      omega
    have hstep : record_step jl s rec = (decode_record jl s.1 rec, s.2) := by
      simp [record_step, deblock_record, ha, hl]
    have hfr := decode_record_frame jl s.1 rec
    have h := ih (decode_record jl s.1 rec, s.2) (by rw [hfr.2.2.2.1]; exact hcap)
      (decode_record_alive jl s.1 rec hrec ha hz) hmore
      ((decode_record_presenter jl s.1 rec).trans hz)
    rw [records_cons, hstep]
    refine ⟨?_, h.2⟩
    rw [h.1, hfr.2.2.2.2.1]
    simp

/-- The deblocker on a stream the decoder gets through: on a 200 response
with no output cap and JSON output, if every newline-terminated segment of
the stream is accepted by the JSON parser, the records handed to `data_blob`
are, in order,
exactly the newline-terminated segments of the bytes received (newline
excluded), and the bytes after the last newline stay in the buffer, handed to
nobody. -/
theorem writer_func_hands_over_the_segments (jl : List Char → Option json_t)
    (cs : List (List Char)) (w : world) (segs : List (List Char)) (rest : List Char)
    (ha : w.aborted = false) (hok : fetch_ok w.fetch = true)
    (hcap : w.writer.output_limit ≤ 0) (hn : '\n' ∉ w.fetch.buf)
    (hs : ∀ x ∈ segs, '\n' ∉ x) (hr : '\n' ∉ rest)
    (hstream : w.fetch.buf ++ cs.flatten = frame segs rest)
    (hparse : ∀ x ∈ segs, jl x ≠ none) (hz : w.presenter = pres_json) :
    (feed jl cs w).blobs = w.blobs ++ segs ∧ (feed jl cs w).fetch.buf = rest ∧
      (feed jl cs w).aborted = false := by
  have h := feed_frame jl cs w ha hok hn
  rw [hstream, split_lines_frame segs rest hs hr] at h
  have hrec := records_no_cap jl segs (w, 0) hcap ha hparse hz
  have hb : (feed jl cs w).blobs = (records jl (w, 0) segs).1.blobs := by
    have e : (obs (feed jl cs w)).blobs = (obs (records jl (w, 0) segs).1).blobs := by rw [h.1]
    exact e
  exact ⟨hb.trans hrec.1, h.2 hrec.2, (obs_aborted _ _ h.1).trans hrec.2⟩

/-- C2: chunking-invariance.  Two segmentations of the same byte stream of a
200 response, fed through `writer_func` from the same state, hand the same
records to `data_blob`, forward the same records to the presenter and leave
the same `writer.count` and protocol state. -/
theorem writer_func_chunking_invariant (jl : List Char → Option json_t)
    (cs1 cs2 : List (List Char)) (w : world)
    (ha : w.aborted = false) (hok : fetch_ok w.fetch = true) (hn : '\n' ∉ w.fetch.buf)
    (h : cs1.flatten = cs2.flatten) :
    (feed jl cs1 w).blobs = (feed jl cs2 w).blobs ∧
    (feed jl cs1 w).presented = (feed jl cs2 w).presented ∧
    (feed jl cs1 w).writer.count = (feed jl cs2 w).writer.count ∧
    (feed jl cs1 w).query.saf_cond = (feed jl cs2 w).query.saf_cond := by
  have h1 := (feed_frame jl cs1 w ha hok hn).1
  have h2 := (feed_frame jl cs2 w ha hok hn).1
  rw [h] at h1
  have e : obs (feed jl cs1 w) = obs (feed jl cs2 w) := h1.trans h2.symm
  exact ⟨congrArg (fun v => v.blobs) e, congrArg (fun v => v.presented) e,
    congrArg (fun v => v.writer.count) e, congrArg (fun v => v.query.saf_cond) e⟩

/-! ## The output governor -/

theorem limit_hit_limit_hit (w : world) : limit_hit (limit_hit w) = limit_hit w := rfl

theorem limit_hit_of_limit_state (w : world) (h : limit_state w) : limit_hit w = w := by
  rcases w with ⟨⟨easy, buf, rcode, stopped⟩, ⟨st, me, sc, sm⟩, wr, li, re, ec, qu, bl, pr, se, ab, pz, en⟩
  obtain ⟨_, h2, h3⟩ := h
  simp only [] at h2 h3
  subst h2 h3
  rfl

theorem limit_state_limit_hit (w : world) (h : limit_reached w.writer = true) :
    limit_state (limit_hit w) := ⟨h, rfl, rfl⟩

theorem records_limit_reached (jl : List Char → Option json_t) (more : List (List Char))
    (w : world) (n : Nat) (rec : List Char) (ha : w.aborted = false)
    (hl : limit_reached w.writer = true) :
    records jl (w, n) (rec :: more) = (limit_hit w, 0) := by
  induction more generalizing w n rec with
  | nil => simp [records_cons, records_nil, record_step, deblock_record, ha, hl]
  | cons r2 more ih =>
    rw [records_cons]
    have e : record_step jl (w, n) rec = (limit_hit w, 0) := by
      simp [record_step, deblock_record, ha, hl]
    rw [e, ih (limit_hit w) 0 r2 ha hl, limit_hit_limit_hit]

theorem records_limit (jl : List Char → Option json_t) (segs : List (List Char))
    (s : world × Nat) (ha : s.1.aborted = false) :
    ((records jl s segs).2 = s.2 ∧
      ((records jl s segs).1.query.saf_cond = sc_we_limited →
        s.1.query.saf_cond = sc_we_limited)) ∨
    ((records jl s segs).2 = 0 ∧ segs ≠ [] ∧ limit_state (records jl s segs).1 ∧
      (records jl s segs).1.aborted = false) := by
  induction segs generalizing s with
  | nil => exact Or.inl ⟨rfl, fun h => h⟩
  | cons rec more ih =>
    by_cases hl : limit_reached s.1.writer = true
    · right
      have e : records jl s (rec :: more) = (limit_hit s.1, 0) :=
        records_limit_reached jl more s.1 s.2 rec ha hl
      rw [e]
      exact ⟨rfl, by simp, limit_state_limit_hit s.1 hl, ha⟩
    · have hstep : record_step jl s rec = (decode_record jl s.1 rec, s.2) := by
        simp [record_step, deblock_record, ha, hl]
      have hfr := decode_record_frame jl s.1 rec
      rw [records_cons, hstep]
      by_cases hab : (decode_record jl s.1 rec).aborted = true
      · left
        rw [records_aborted jl more (decode_record jl s.1 rec, s.2) hab]
        exact ⟨rfl, hfr.2.2.2.2.2.2⟩
      · have hab2 : (decode_record jl s.1 rec).aborted = false := by simpa using hab
        rcases ih (decode_record jl s.1 rec, s.2) hab2 with h | h
        · left
          exact ⟨h.1, fun e => hfr.2.2.2.2.2.2 (h.2 e)⟩
        · right
          exact ⟨h.1, by simp, h.2.2.1, h.2.2.2⟩

theorem split_lines_nonempty {b : List Char} (h : '\n' ∈ b) : (split_lines b).1 ≠ [] := by
  intro e
  have hf := frame_split_lines b
  rw [e] at hf
  have hc := (split_lines_clean b).2
  have hb : (split_lines b).2 = b := hf
  rw [hb] at hc
  exact hc h

theorem split_lines_fst_nonempty_mem {b : List Char} (h : (split_lines b).1 ≠ []) :
    '\n' ∈ b := by
  by_contra hn
  exact h (by rw [split_lines_no_newline hn])

/-- What one call of `writer_func` on a 200 response does and returns: either
it returns the chunk size and has not put the query into `sc_we_limited`, or
it returns another value, the chunk held a newline, and the world is left in
the state of the output governor. -/
theorem writer_func_return (jl : List Char → Option json_t) (c : List Char) (w : world)
    (ha : w.aborted = false) (hok : fetch_ok w.fetch = true) (hn : '\n' ∉ w.fetch.buf) :
    ((writer_func jl c w).2 = c.length ∧
      ((writer_func jl c w).1.query.saf_cond = sc_we_limited →
        w.query.saf_cond = sc_we_limited)) ∨
    ((writer_func jl c w).2 ≠ c.length ∧ (writer_func jl c w).2 = 0 ∧ '\n' ∈ c ∧
      limit_state (writer_func jl c w).1 ∧ (writer_func jl c w).1.aborted = false) := by
  have wf := writer_func_frame jl c w hok ha
  have hcond : (writer_func jl c w).1.query.saf_cond =
      (records jl (w, c.length) (split_lines (w.fetch.buf ++ c)).1).1.query.saf_cond :=
    congrArg (fun v => v.query.saf_cond) wf.1
  rcases records_limit jl (split_lines (w.fetch.buf ++ c)).1 (w, c.length) ha with h | h
  · left
    exact ⟨wf.2.1.trans h.1, fun e => h.2 (hcond ▸ e)⟩
  · have hmem : '\n' ∈ w.fetch.buf ++ c := split_lines_fst_nonempty_mem h.2.1
    have hc : '\n' ∈ c := by
      rcases List.mem_append.mp hmem with x | x
      · exact absurd x hn
      · exact x
    have hlen : c.length ≠ 0 := by
      intro e
      have : c = [] := List.length_eq_zero.mp e
      rw [this] at hc
      simp at hc
    have h0 : (writer_func jl c w).2 = 0 := wf.2.1.trans h.1
    right
    refine ⟨by rw [h0]; exact fun e => hlen e.symm, h0, hc, ?_, ?_⟩
    · rw [wf.2.2 h.2.2.2]
      exact h.2.2.1
    · rw [wf.2.2 h.2.2.2]
      exact h.2.2.2

theorem writer_func_keeps_invariant (jl : List Char → Option json_t) (c : List Char)
    (w : world) (ha : w.aborted = false) (hok : fetch_ok w.fetch = true)
    (ha2 : (writer_func jl c w).1.aborted = false) :
    fetch_ok (writer_func jl c w).1.fetch = true ∧ '\n' ∉ (writer_func jl c w).1.fetch.buf := by
  have wf := writer_func_frame jl c w hok ha
  have hab1 : (records jl (w, c.length) (split_lines (w.fetch.buf ++ c)).1).1.aborted = false :=
    (obs_aborted _ _ wf.1).symm.trans ha2
  have hw := wf.2.2 hab1
  have hfr := records_frame jl (split_lines (w.fetch.buf ++ c)).1 (w, c.length)
  refine ⟨?_, ?_⟩
  · exact (fetch_ok_settled w.fetch (writer_func jl c w).1.fetch hok
      (by rw [hw]; exact hfr.2.2.1) (by rw [hw]; rfl)).1
  · rw [hw]
    exact (split_lines_clean (w.fetch.buf ++ c)).2

theorem feed_limit_state (jl : List Char → Option json_t) (cs : List (List Char)) (w : world)
    (ha : w.aborted = false) (hok : fetch_ok w.fetch = true) (hn : '\n' ∉ w.fetch.buf)
    (hl : limit_state w) : obs (feed jl cs w) = obs w := by
  have h := (feed_frame jl cs w ha hok hn).1
  rw [h]
  cases hsp : (split_lines (w.fetch.buf ++ cs.flatten)).1 with
  | nil => rfl
  | cons rec more =>
    rw [records_limit_reached jl more w 0 rec ha hl.1, limit_hit_of_limit_state w hl]

theorem transfer_nil (jl : List Char → Option json_t) (final : Nat) (w : world) :
    transfer jl final [] w = (w, final) := rfl

theorem transfer_cons (jl : List Char → Option json_t) (final : Nat) (c : List Char)
    (cs : List (List Char)) (w : world) :
    transfer jl final (c :: cs) w =
      if (writer_func jl c w).1.aborted = true then ((writer_func jl c w).1, final)
      else if (writer_func jl c w).2 ≠ c.length then ((writer_func jl c w).1, CURLE_WRITE_ERROR)
      else transfer jl final cs (writer_func jl c w).1 := rfl

/-- The transfer as libcurl runs it leaves the same history and query state
as feeding every chunk to `writer_func`; it ends with `CURLE_WRITE_ERROR`
exactly through the output governor. -/
theorem transfer_frame (jl : List Char → Option json_t) (final : Nat) (cs : List (List Char))
    (w : world) (ha : w.aborted = false) (hok : fetch_ok w.fetch = true)
    (hn : '\n' ∉ w.fetch.buf) :
    obs (transfer jl final cs w).1 = obs (feed jl cs w) ∧
    (((transfer jl final cs w).2 = CURLE_WRITE_ERROR ∧ limit_state (transfer jl final cs w).1 ∧
        (transfer jl final cs w).1.aborted = false) ∨
      ((transfer jl final cs w).2 = final ∧
        ((transfer jl final cs w).1.query.saf_cond = sc_we_limited →
          w.query.saf_cond = sc_we_limited))) := by
  induction cs generalizing w with
  | nil => exact ⟨rfl, Or.inr ⟨rfl, fun h => h⟩⟩
  | cons c cs ih =>
    have hret := writer_func_return jl c w ha hok hn
    have hd : deliver jl w c = (writer_func jl c w).1 := by simp [deliver, ha]
    rw [transfer_cons, feed_cons, hd]
    by_cases hab : (writer_func jl c w).1.aborted = true
    · rw [if_pos hab, feed_aborted jl cs _ hab]
      refine ⟨rfl, Or.inr ⟨rfl, ?_⟩⟩
      rcases hret with h | h
      · exact h.2
      · rw [h.2.2.2.2] at hab
        cases hab
    · rw [if_neg hab]
      have hab2 : (writer_func jl c w).1.aborted = false := by simpa using hab
      have hinv := writer_func_keeps_invariant jl c w ha hok hab2
      by_cases hlen : (writer_func jl c w).2 ≠ c.length
      · rw [if_pos hlen]
        rcases hret with h | h
        · exact absurd h.1 hlen
        · exact ⟨(feed_limit_state jl cs _ hab2 hinv.1 hinv.2 h.2.2.2.1).symm,
            Or.inl ⟨rfl, h.2.2.2.1, hab2⟩⟩
      · rw [if_neg hlen]
        have h2 := ih (writer_func jl c w).1 hab2 hinv.1 hinv.2
        refine ⟨h2.1, ?_⟩
        rcases h2.2 with k | k
        · exact Or.inl k
        · rcases hret with h | h
          · exact Or.inr ⟨k.1, fun e => h.2 (k.2 e)⟩
          · exact absurd h.1 hlen

/-- Chunking-invariance for the transfer as libcurl runs it (which stops
delivering chunks once a callback has returned 0). -/
theorem transfer_chunking_invariant (jl : List Char → Option json_t) (final : Nat)
    (cs1 cs2 : List (List Char)) (w : world)
    (ha : w.aborted = false) (hok : fetch_ok w.fetch = true) (hn : '\n' ∉ w.fetch.buf)
    (h : cs1.flatten = cs2.flatten) :
    obs (transfer jl final cs1 w).1 = obs (transfer jl final cs2 w).1 := by
  have t1 := (transfer_frame jl final cs1 w ha hok hn).1
  have t2 := (transfer_frame jl final cs2 w ha hok hn).1
  have h1 := (feed_frame jl cs1 w ha hok hn).1
  have h2 := (feed_frame jl cs2 w ha hok hn).1
  rw [h] at h1
  exact (t1.trans h1).trans (t2.trans h2).symm

/-! ## io_drain -/

theorem same_core_refl (w : world) : same_core w w := ⟨rfl, rfl, rfl, rfl, rfl, rfl⟩

theorem same_core_trans {u v w : world} (h1 : same_core u v) (h2 : same_core v w) :
    same_core u w :=
  ⟨h1.1.trans h2.1, h1.2.1.trans h2.2.1, h1.2.2.1.trans h2.2.2.1,
    h1.2.2.2.1.trans h2.2.2.2.1, h1.2.2.2.2.1.trans h2.2.2.2.2.1,
    h1.2.2.2.2.2.trans h2.2.2.2.2.2⟩

theorem query_status_core (w : world) (st me : String) :
    same_core (query_status w st me) w := by
  unfold query_status
  split_ifs <;> exact ⟨rfl, rfl, rfl, rfl, rfl, rfl⟩

theorem query_done_core (w : world) : same_core (query_done w) w := by
  unfold query_done
  split_ifs
  · exact ⟨rfl, rfl, rfl, rfl, rfl, rfl⟩
  · exact ⟨rfl, rfl, rfl, rfl, rfl, rfl⟩
  · exact ⟨rfl, rfl, rfl, rfl, rfl, rfl⟩
  · cases w.query.status <;> exact ⟨rfl, rfl, rfl, rfl, rfl, rfl⟩
  · exact ⟨rfl, rfl, rfl, rfl, rfl, rfl⟩

theorem drain_rcode_core (w : world) : same_core (drain_rcode w) w := by
  unfold drain_rcode
  split_ifs
  · cases w.fetch.easy <;> exact ⟨rfl, rfl, rfl, rfl, rfl, rfl⟩
  · exact ⟨rfl, rfl, rfl, rfl, rfl, rfl⟩

theorem default_status_core (w : world) : same_core (default_status w) w := by
  unfold default_status
  split_ifs
  · exact query_status_core w _ _
  · exact same_core_refl w

theorem fetch_release_core (w : world) : same_core (fetch_release w) w := by
  have h := query_done_core w
  unfold fetch_release
  split_ifs
  · exact h
  · exact h

theorem classify_frame (result : Nat) (w : world) :
    (classify result w).presented = w.presented ∧
    (classify result w).blobs = w.blobs ∧
    (classify result w).writer = w.writer ∧
    (classify result w).query.saf_cond = w.query.saf_cond ∧
    (classify result w).fetch.stopped = w.fetch.stopped := by
  unfold classify
  split_ifs <;> exact ⟨rfl, rfl, rfl, rfl, rfl⟩

theorem classify_exit_code (result : Nat) (w : world) :
    (classify result w).exit_code =
      if result = CURLE_COULDNT_RESOLVE_HOST ∨ result = CURLE_COULDNT_CONNECT ∨
          (result ≠ CURLE_OK ∧ w.fetch.stopped = false) then 1
      else w.exit_code := by
  unfold classify
  by_cases h1 : result = CURLE_COULDNT_RESOLVE_HOST
  · rw [if_pos h1, if_pos (Or.inl h1)]
  · by_cases h2 : result = CURLE_COULDNT_CONNECT
    · rw [if_neg h1, if_pos h2, if_pos (Or.inr (Or.inl h2))]
    · by_cases h3 : result ≠ CURLE_OK ∧ w.fetch.stopped = false
      · rw [if_neg h1, if_neg h2, if_pos h3, if_pos (Or.inr (Or.inr h3))]
      · rw [if_neg h1, if_neg h2, if_neg h3, if_neg]
        rintro (h | h | h)
        · exact h1 h
        · exact h2 h
        · exact h3 h

/-- What `io_drain` leaves alone, and the exit code it sets. -/
theorem io_drain_frame (result : Nat) (w : world) :
    (io_drain result w).presented = w.presented ∧
    (io_drain result w).blobs = w.blobs ∧
    (io_drain result w).writer = w.writer ∧
    (io_drain result w).query.saf_cond = w.query.saf_cond ∧
    (io_drain result w).fetch.stopped = w.fetch.stopped ∧
    (io_drain result w).exit_code =
      (if result = CURLE_COULDNT_RESOLVE_HOST ∨ result = CURLE_COULDNT_CONNECT ∨
          (result ≠ CURLE_OK ∧ w.fetch.stopped = false) then 1
      else w.exit_code) := by
  have hr := drain_rcode_core w
  have hc := classify_frame result (drain_rcode w)
  have hx := classify_exit_code result (drain_rcode w)
  rw [hr.2.2.2.2.1, hr.2.2.2.2.2] at hx
  have hd := default_status_core (classify result (drain_rcode w))
  have hrel := fetch_release_core (default_status (classify result (drain_rcode w)))
  have base : ∀ v : world, same_core v (default_status (classify result (drain_rcode w))) →
      v.presented = w.presented ∧ v.blobs = w.blobs ∧ v.writer = w.writer ∧
      v.query.saf_cond = w.query.saf_cond ∧ v.fetch.stopped = w.fetch.stopped ∧
      v.exit_code =
        (if result = CURLE_COULDNT_RESOLVE_HOST ∨ result = CURLE_COULDNT_CONNECT ∨
            (result ≠ CURLE_OK ∧ w.fetch.stopped = false) then 1
        else w.exit_code) := by
    intro v hv
    have h := same_core_trans hv hd
    exact ⟨h.1.trans (hc.1.trans hr.1), h.2.1.trans (hc.2.1.trans hr.2.1),
      h.2.2.1.trans (hc.2.2.1.trans hr.2.2.1),
      h.2.2.2.1.trans (hc.2.2.2.1.trans hr.2.2.2.1),
      h.2.2.2.2.1.trans (hc.2.2.2.2.trans hr.2.2.2.2.1),
      h.2.2.2.2.2.trans hx⟩
  unfold io_drain
  by_cases hab : (default_status (classify result (drain_rcode w))).aborted = true
  · rw [if_pos hab]
    exact base _ (same_core_refl _)
  · rw [if_neg hab]
    exact base _ hrel

/-! ## C3, C4: the output cap -/

theorem writer_func_no_newline (jl : List Char → Option json_t) (c : List Char) (w : world)
    (ha : w.aborted = false) (hok : fetch_ok w.fetch = true) (hn : '\n' ∉ w.fetch.buf)
    (hc : '\n' ∉ c) :
    writer_func jl c w = (set_io w (w.fetch.buf ++ c) (seen_rcode w.fetch), c.length) := by
  have hb : '\n' ∉ w.fetch.buf ++ c := by
    intro h
    rcases List.mem_append.mp h with x | x
    · exact hn x
    · exact hc x
  have wf := writer_func_frame jl c w hok ha
  rw [split_lines_no_newline hb] at wf
  simp only [records_nil] at wf
  have h1 := wf.2.2 ha
  have h2 := wf.2.1
  exact Prod.ext h1 h2

theorem transfer_limit_reached (jl : List Char → Option json_t) (final : Nat)
    (cs : List (List Char)) (w : world) (ha : w.aborted = false)
    (hok : fetch_ok w.fetch = true) (hn : '\n' ∉ w.fetch.buf)
    (hl : limit_reached w.writer = true) (hnl : '\n' ∈ cs.flatten) :
    (transfer jl final cs w).2 = CURLE_WRITE_ERROR := by
  induction cs generalizing w with
  | nil => simp at hnl
  | cons c cs ih =>
    rw [transfer_cons]
    by_cases hc : '\n' ∈ c
    · have wf := writer_func_frame jl c w hok ha
      have hne := split_lines_nonempty (List.mem_append_right w.fetch.buf hc)
      cases hsp : (split_lines (w.fetch.buf ++ c)).1 with
      | nil => exact absurd hsp hne
      | cons rec more =>
        rw [hsp, records_limit_reached jl more w c.length rec ha hl] at wf
        have hab : (writer_func jl c w).1.aborted = false :=
          (obs_aborted _ _ wf.1).trans ha
        have hlen : (writer_func jl c w).2 ≠ c.length := by
          rw [wf.2.1]
          intro e
          have : c = [] := List.length_eq_zero.mp e.symm
          rw [this] at hc
          simp at hc
        simp [hab, hlen]
    · have hw := writer_func_no_newline jl c w ha hok hn hc
      have hrest : '\n' ∈ cs.flatten := by
        rw [List.flatten_cons] at hnl
        rcases List.mem_append.mp hnl with x | x
        · exact absurd x hc
        · exact x
      have hok2 := (fetch_ok_settled w.fetch
        (set_io w (w.fetch.buf ++ c) (seen_rcode w.fetch)).fetch hok rfl rfl).1
      have hn2 : '\n' ∉ (set_io w (w.fetch.buf ++ c) (seen_rcode w.fetch)).fetch.buf := by
        intro h
        rcases List.mem_append.mp h with x | x
        · exact hn x
        · exact hc x
      have h := ih (set_io w (w.fetch.buf ++ c) (seen_rcode w.fetch)) ha hok2 hn2 hl hrest
      rw [hw]
      dsimp only
      have e1 : ¬ ((set_io w (w.fetch.buf ++ c) (seen_rcode w.fetch)).aborted = true) := by
        have e : (set_io w (w.fetch.buf ++ c) (seen_rcode w.fetch)).aborted = w.aborted := rfl
        rw [e, ha]
        simp
      rw [if_neg e1, if_neg (by simp)]
      exact h

/-- C3 (amended): with an output cap L > 0, once `writer.count` has reached L
no further record of the stream is handed to `data_blob` or forwarded to the
presenter and the count stays; if at least one more newline-terminated line
of the stream arrives, the protocol state ends self-limited, the fetch is
marked stopped, the transfer ends with `CURLE_WRITE_ERROR` and `io_drain`
leaves the exit code as it was; the exit code is also left as it was when no
such line arrives and the transfer ends with `CURLE_OK`. -/
theorem output_cap_reached (jl : List Char → Option json_t) (final : Nat)
    (cs : List (List Char)) (w : world) (ha : w.aborted = false)
    (hok : fetch_ok w.fetch = true) (hn : '\n' ∉ w.fetch.buf)
    (hl : limit_reached w.writer = true) :
    (run_fetch jl final cs w).presented = w.presented ∧
    (run_fetch jl final cs w).blobs = w.blobs ∧
    (run_fetch jl final cs w).writer.count = w.writer.count ∧
    ('\n' ∈ cs.flatten →
      (run_fetch jl final cs w).query.saf_cond = sc_we_limited ∧
      (run_fetch jl final cs w).fetch.stopped = true ∧
      (transfer jl final cs w).2 = CURLE_WRITE_ERROR ∧
      (run_fetch jl final cs w).exit_code = w.exit_code) ∧
    (final = CURLE_OK → (run_fetch jl final cs w).exit_code = w.exit_code) := by
  have ht2 := (transfer_frame jl final cs w ha hok hn).2
  have ht := (transfer_frame jl final cs w ha hok hn).1
  have hf := (feed_frame jl cs w ha hok hn).1
  have hobs : obs (transfer jl final cs w).1 = obs w ∨
      obs (transfer jl final cs w).1 = obs (limit_hit w) := by
    cases hsp : (split_lines (w.fetch.buf ++ cs.flatten)).1 with
    | nil =>
      rw [hsp] at hf
      exact Or.inl (ht.trans hf)
    | cons rec more =>
      rw [hsp, records_limit_reached jl more w 0 rec ha hl] at hf
      exact Or.inr (ht.trans hf)
  have hcore : (transfer jl final cs w).1.presented = w.presented ∧
      (transfer jl final cs w).1.blobs = w.blobs ∧
      (transfer jl final cs w).1.writer.count = w.writer.count ∧
      (transfer jl final cs w).1.aborted = false ∧
      (transfer jl final cs w).1.exit_code = w.exit_code := by
    rcases hobs with h | h
    · exact ⟨congrArg (fun v => v.presented) h, congrArg (fun v => v.blobs) h,
        congrArg (fun v => v.writer.count) h, (obs_aborted _ _ h).trans ha,
        congrArg (fun v => v.exit_code) h⟩
    · exact ⟨congrArg (fun v => v.presented) h, congrArg (fun v => v.blobs) h,
        congrArg (fun v => v.writer.count) h, (obs_aborted _ _ h).trans ha,
        congrArg (fun v => v.exit_code) h⟩
  have hrun : run_fetch jl final cs w =
      io_drain (transfer jl final cs w).2 (transfer jl final cs w).1 := by
    simp [run_fetch, hcore.2.2.2.1]
  have hio := io_drain_frame (transfer jl final cs w).2 (transfer jl final cs w).1
  rw [hrun]
  refine ⟨hio.1.trans hcore.1, hio.2.1.trans hcore.2.1,
    (congrArg writer.count hio.2.2.1).trans hcore.2.2.1, fun hnl => ?_, fun hfin => ?_⟩
  swap
  · rw [hio.2.2.2.2.2, hcore.2.2.2.2]
    rcases ht2 with k | k
    · rw [k.1, k.2.1.2.2]
      simp [CURLE_WRITE_ERROR, CURLE_COULDNT_RESOLVE_HOST, CURLE_COULDNT_CONNECT]
    · rw [k.1, hfin]
      simp [CURLE_OK, CURLE_COULDNT_RESOLVE_HOST, CURLE_COULDNT_CONNECT]
  have hne := split_lines_nonempty (List.mem_append_right w.fetch.buf hnl)
  have hlim : obs (transfer jl final cs w).1 = obs (limit_hit w) := by
    cases hsp : (split_lines (w.fetch.buf ++ cs.flatten)).1 with
    | nil => exact absurd hsp hne
    | cons rec more =>
      rw [hsp, records_limit_reached jl more w 0 rec ha hl] at hf
      exact ht.trans hf
  have hcode := transfer_limit_reached jl final cs w ha hok hn hl hnl
  have hst : (transfer jl final cs w).1.fetch.stopped = true :=
    congrArg (fun v => v.fetch.stopped) hlim
  refine ⟨hio.2.2.2.1.trans (congrArg (fun v => v.query.saf_cond) hlim),
    hio.2.2.2.2.1.trans hst, hcode, ?_⟩
  rw [hio.2.2.2.2.2, hcode, hst, hcore.2.2.2.2]
  simp [CURLE_WRITE_ERROR, CURLE_COULDNT_RESOLVE_HOST, CURLE_COULDNT_CONNECT]

theorem data_blob_congr (jl jl2 : List Char → Option json_t) (w : world) (rec : List Char)
    (h : jl rec = jl2 rec) : data_blob jl w rec = data_blob jl2 w rec := by
  unfold data_blob tuple_make
  rw [h]

theorem record_step_congr (jl jl2 : List Char → Option json_t) (s : world × Nat)
    (rec : List Char) (h : jl rec = jl2 rec) :
    record_step jl s rec = record_step jl2 s rec := by
  unfold record_step deblock_record decode_record
  rw [data_blob_congr jl jl2 s.1 rec h]

/-- C4: the end-to-end run with output cap 2.  Whatever the chunking of the
stream begin, a, b, c, succeeded (one line each) on a 200 response, exactly
the records a and b are forwarded to the presenter, in this order,
`writer.count` ends at 2, the protocol state ends self-limited, the fetch is
flagged stopped, the transfer ends with `CURLE_WRITE_ERROR` and the exit code
is 0. -/
theorem end_to_end_cap_two (jl : List Char → Option json_t) (final : Nat)
    (cs : List (List Char))
    (h1 : jl line_begin = some (json_cond "begin"))
    (h2 : jl line_a = some (json_data "a.example.com"))
    (h3 : jl line_b = some (json_data "b.example.com"))
    (hcs : cs.flatten = frame [line_begin, line_a, line_b, line_c, line_succeeded] []) :
    (run_fetch jl final cs (sample_world 2)).presented.map (fun p => (p.1.rrname, p.2)) =
      [(some "a.example.com", line_a), (some "b.example.com", line_b)] ∧
    (run_fetch jl final cs (sample_world 2)).writer.count = 2 ∧
    (run_fetch jl final cs (sample_world 2)).query.saf_cond = sc_we_limited ∧
    (run_fetch jl final cs (sample_world 2)).fetch.stopped = true ∧
    (transfer jl final cs (sample_world 2)).2 = CURLE_WRITE_ERROR ∧
    (run_fetch jl final cs (sample_world 2)).exit_code = 0 := by
  have ha : (sample_world 2).aborted = false := rfl
  have hok : fetch_ok (sample_world 2).fetch = true := by decide
  have hn : '\n' ∉ (sample_world 2).fetch.buf := by simp [sample_world]
  have ht := transfer_frame jl final cs (sample_world 2) ha hok hn
  have hf := (feed_frame jl cs (sample_world 2) ha hok hn).1
  have hbuf : (sample_world 2).fetch.buf ++ cs.flatten =
      frame [line_begin, line_a, line_b, line_c, line_succeeded] [] := by
    rw [hcs]
    rfl
  have hclean : ∀ x ∈ [line_begin, line_a, line_b, line_c, line_succeeded], '\n' ∉ x := by
    decide
  rw [hbuf, split_lines_frame _ [] hclean (by simp)] at hf
  have e1 : jl line_begin = sample_loadb line_begin := by rw [h1]; rfl
  have e2 : jl line_a = sample_loadb line_a := by rw [h2]; rfl
  have e3 : jl line_b = sample_loadb line_b := by rw [h3]; rfl
  have hrec : records jl (sample_world 2, 0)
      [line_begin, line_a, line_b, line_c, line_succeeded] =
      (limit_hit (records sample_loadb (sample_world 2, 0) [line_begin, line_a, line_b]).1,
        0) := by
    rw [records_cons, records_cons, records_cons, record_step_congr jl sample_loadb _ _ e1,
      record_step_congr jl sample_loadb _ _ e2, record_step_congr jl sample_loadb _ _ e3]
    have hS : record_step sample_loadb (record_step sample_loadb
        (record_step sample_loadb (sample_world 2, 0) line_begin) line_a) line_b =
        ((records sample_loadb (sample_world 2, 0) [line_begin, line_a, line_b]).1, 0) :=
      Prod.ext rfl (by decide)
    rw [hS]
    exact records_limit_reached jl [line_succeeded] _ 0 line_c (by decide) (by decide)
  rw [hrec] at hf
  have hobs := ht.1.trans hf
  have hab : (transfer jl final cs (sample_world 2)).1.aborted = false :=
    (obs_aborted _ _ hobs).trans (by decide)
  have hcond : (transfer jl final cs (sample_world 2)).1.query.saf_cond = sc_we_limited :=
    congrArg (fun v => v.query.saf_cond) hobs
  have hcode : (transfer jl final cs (sample_world 2)).2 = CURLE_WRITE_ERROR := by
    rcases ht.2 with k | k
    · exact k.1
    · have := k.2 hcond
      cases this
  have hrun : run_fetch jl final cs (sample_world 2) =
      io_drain (transfer jl final cs (sample_world 2)).2
        (transfer jl final cs (sample_world 2)).1 := by
    simp [run_fetch, hab]
  have hio := io_drain_frame (transfer jl final cs (sample_world 2)).2
    (transfer jl final cs (sample_world 2)).1
  have hst : (transfer jl final cs (sample_world 2)).1.fetch.stopped = true :=
    congrArg (fun v => v.fetch.stopped) hobs
  have hpres : (transfer jl final cs (sample_world 2)).1.presented =
      (limit_hit (records sample_loadb (sample_world 2, 0)
        [line_begin, line_a, line_b]).1).presented :=
    congrArg (fun v => v.presented) hobs
  have hcount : (transfer jl final cs (sample_world 2)).1.writer.count = 2 :=
    (congrArg (fun v => v.writer.count) hobs).trans (by decide)
  have hexit : (transfer jl final cs (sample_world 2)).1.exit_code = 0 :=
    (congrArg (fun v => v.exit_code) hobs).trans (by decide)
  rw [hrun]
  refine ⟨?_, (congrArg writer.count hio.2.2.1).trans hcount, hio.2.2.2.1.trans hcond,
    hio.2.2.2.2.1.trans hst, hcode, ?_⟩
  · rw [hio.1, hpres]
    decide
  · rw [hio.2.2.2.2.2, hcode, hst, hexit]
    simp [CURLE_WRITE_ERROR, CURLE_COULDNT_RESOLVE_HOST, CURLE_COULDNT_CONNECT]

/-! ## tuple_make -/

theorem string_field_ok {x : Option json_t} {m : String} {v : Option String}
    (h : string_field x m = Except.ok v) :
    (x = none ∧ v = none) ∨ (∃ s, x = some (json_t.string s) ∧ v = some s) := by
  cases x with
  | none =>
    simp only [string_field] at h
    cases h
    exact Or.inl ⟨rfl, rfl⟩
  | some j =>
    cases j <;> simp [string_field, json_is_string, json_string_value] at h
    exact Or.inr ⟨_, rfl, h.symm⟩

theorem string_field_not_bad {x : Option json_t} {m : String} {v : Option String}
    (h : string_field x m = Except.ok v) : ¬ bad_string x := by
  rintro ⟨j, hj, hb⟩
  rcases string_field_ok h with ⟨e, _⟩ | ⟨s, e, _⟩
  · rw [e] at hj
    cases hj
  · rw [e] at hj
    cases hj
    simp [json_is_string] at hb

theorem integer_field_not_bad {x : Option json_t} {m : String} {v : Option Int}
    (h : integer_field x m = Except.ok v) : ¬ bad_integer x := by
  rintro ⟨j, hj, hb⟩
  subst hj
  simp [integer_field, hb] at h

theorem object_field_not_bad {x : Option json_t} {m : String} {v : Unit}
    (h : object_field x m = Except.ok v) : ¬ bad_object x := by
  rintro ⟨j, hj, hb⟩
  subst hj
  simp [object_field, hb] at h

/-- When `tuple_make` gets past every field check, no field has a wrong type,
and `tup.cond`, `tup.msg` and `tup.obj.saf_obj` are the members of the
record. -/
theorem tuple_fields_ok (main : json_t) (tup : pdns_tuple)
    (h : tuple_fields main = Except.ok tup) :
    ¬ wrong_typed main ∧
    string_field (json_object_get (some main) "cond") "cond must be a string" =
      Except.ok tup.cond ∧
    string_field (json_object_get (some main) "msg") "msg must be a string" =
      Except.ok tup.msg ∧
    tup.obj.saf_obj = json_object_get (some main) "obj" := by
  unfold tuple_fields at h
  simp only [bind, Except.bind, pure, Except.pure] at h
  split at h
  · cases h
  rename_i _ v1 h1
  split at h
  · cases h
  rename_i _ v2 h2
  split at h
  · cases h
  rename_i _ v3 h3
  split at h
  · cases h
  rename_i _ v4 h4
  split at h
  · cases h
  rename_i _ v5 h5
  split at h
  · cases h
  rename_i _ v6 h6
  split at h
  · cases h
  rename_i _ v7 h7
  split at h
  · cases h
  rename_i _ v8 h8
  split at h
  · cases h
  rename_i _ v9 h9
  split at h
  · cases h
  rename_i _ v10 h10
  cases h
  refine ⟨?_, h1, h2, rfl⟩
  rintro (b | b | b | b | b | b | b | b | b | b)
  · exact string_field_not_bad h1 b
  · exact string_field_not_bad h2 b
  · exact object_field_not_bad h3 b
  · exact string_field_not_bad h4 b
  · exact string_field_not_bad h5 b
  · exact string_field_not_bad h6 b
  · exact string_field_not_bad h7 b
  · exact integer_field_not_bad h8 b
  · exact integer_field_not_bad h9 b
  · exact integer_field_not_bad h10 b

theorem tuple_make_of_fields (jl : List Char → Option json_t) (rec : List Char)
    (main : json_t) (tup : pdns_tuple) (hj : jl rec = some main)
    (ht : tuple_fields main = Except.ok tup) :
    tuple_make jl rec = tuple_result.made tup := by
  simp [tuple_make, hj, ht]

theorem data_blob_of_fields (jl : List Char → Option json_t) (w : world) (rec : List Char)
    (main : json_t) (tup : pdns_tuple) (hj : jl rec = some main)
    (ht : tuple_fields main = Except.ok tup) :
    data_blob jl w rec = data_blob_tuple (note_blob w rec) tup rec := by
  simp [data_blob, tuple_make_of_fields jl rec main tup hj ht]

theorem tuple_cond_of_member (main : json_t) (tup : pdns_tuple)
    (ht : tuple_fields main = Except.ok tup) (c : String)
    (hc : json_object_get (some main) "cond" = some (json_t.string c)) :
    tup.cond = some c := by
  have h := (tuple_fields_ok main tup ht).2.1
  rw [hc] at h
  simp [string_field, json_is_string, json_string_value] at h
  exact h.symm

theorem tuple_cond_of_absent (main : json_t) (tup : pdns_tuple)
    (ht : tuple_fields main = Except.ok tup)
    (hc : json_object_get (some main) "cond" = none) : tup.cond = none := by
  have h := (tuple_fields_ok main tup ht).2.1
  rw [hc] at h
  simp [string_field] at h
  exact h.symm

/-! ## C5 to C8: what data_blob does with a well-formed record -/

theorem cond_chain_control (w : world) (c : String)
    (hin : c = "begin" ∨ c = "succeeded" ∨ c = "limited" ∨ c = "failed") :
    (cond_chain w c).2 = true ∧
    (cond_chain w c).1.query.saf_cond =
      (if c = "begin" then sc_begin else if c = "succeeded" then sc_succeeded
        else if c = "limited" then sc_limited else sc_failed) := by
  rcases hin with h | h | h | h <;> subst h <;> simp [cond_chain, set_saf_cond]

theorem cond_chain_data (w : world) (c : String)
    (h1 : c ≠ "begin") (h2 : c ≠ "succeeded") (h3 : c ≠ "limited") (h4 : c ≠ "failed") :
    (cond_chain w c).2 = false ∧
    ((cond_chain w c).1.query.saf_cond = if c = "ongoing" then sc_ongoing else sc_missing) := by
  unfold cond_chain
  by_cases h5 : c = "ongoing"
  · subst h5
    simp [set_saf_cond]
  · simp [h1, h2, h3, h4, h5, set_saf_cond, log_stderr]

/-- C6: a well-formed record whose cond is begin, succeeded, limited or
failed: from any prior state and whatever else the record carries,
`data_blob` sets the protocol state to the state of that name, does not call
the presenter and returns 0, and the deblocker leaves `writer.count` as it
was. -/
theorem data_blob_control_record (jl : List Char → Option json_t) (w : world)
    (rec : List Char) (main : json_t) (tup : pdns_tuple) (c : String)
    (hj : jl rec = some main) (ht : tuple_fields main = Except.ok tup)
    (hc : json_object_get (some main) "cond" = some (json_t.string c))
    (hin : c = "begin" ∨ c = "succeeded" ∨ c = "limited" ∨ c = "failed") :
    (data_blob jl w rec).1.query.saf_cond =
      (if c = "begin" then sc_begin else if c = "succeeded" then sc_succeeded
        else if c = "limited" then sc_limited else sc_failed) ∧
    (data_blob jl w rec).1.presented = w.presented ∧
    (data_blob jl w rec).2 = 0 ∧
    (decode_record jl w rec).writer.count = w.writer.count := by
  have hcond := tuple_cond_of_member main tup ht c hc
  have hch := cond_chain_control (take_msg (note_blob w rec) tup) c hin
  have hfr := cond_chain_frame (take_msg (note_blob w rec) tup) c
  have hm := take_msg_frame (note_blob w rec) tup
  have hd : data_blob jl w rec = ((cond_chain (take_msg (note_blob w rec) tup) c).1, 0) := by
    rw [data_blob_of_fields jl w rec main tup hj ht]
    simp [data_blob_tuple, take_cond, hcond, hch.1]
  have hcount : (decode_record jl w rec).writer.count = w.writer.count := by
    unfold decode_record
    rw [hd]
    simp only []
    have hwr : (cond_chain (take_msg (note_blob w rec) tup) c).1.writer = w.writer :=
      hfr.2.1.trans hm.2.1
    split_ifs
    · rw [hwr]
    · cases (cond_chain (take_msg (note_blob w rec) tup) c).1.query.saf_cond <;>
        simp [hwr]
  rw [hd]
  exact ⟨hch.2, hfr.2.2.2.2.1.trans hm.2.2.2.2.1, rfl, hcount⟩

theorem tuple_cond_member (main : json_t) (tup : pdns_tuple)
    (ht : tuple_fields main = Except.ok tup) (c : String) (hc : tup.cond = some c) :
    json_object_get (some main) "cond" = some (json_t.string c) := by
  rcases string_field_ok (tuple_fields_ok main tup ht).2.1 with ⟨_, e⟩ | ⟨s, e1, e2⟩
  · rw [hc] at e
    cases e
  · rw [hc] at e2
    cases e2
    exact e1

theorem data_blob_tuple_data (w : world) (tup : pdns_tuple) (rec : List Char)
    (hgo : (take_cond (take_msg w tup) tup).2 = false) :
    data_blob_tuple w tup rec =
      if tup.obj.saf_obj.isNone then ((take_cond (take_msg w tup) tup).1, 0)
      else (present (take_cond (take_msg w tup) tup).1 tup rec, 1) := by
  simp [data_blob_tuple, hgo]

theorem decode_record_of_data_blob (jl : List Char → Option json_t) (w : world)
    (rec : List Char) (v : world) (n : Int) (h : data_blob jl w rec = (v, n))
    (ha : v.aborted = false) :
    (decode_record jl w rec).presented = v.presented ∧
    (decode_record jl w rec).writer.count = v.writer.count + n ∧
    (decode_record jl w rec).query = v.query := by
  unfold decode_record
  rw [h]
  simp only [ha]
  cases v.query.saf_cond <;> simp

theorem data_blob_tuple_present (w : world) (tup : pdns_tuple) (rec : List Char)
    (hgo : (take_cond (take_msg w tup) tup).2 = false)
    (hso : tup.obj.saf_obj.isNone = false) :
    data_blob_tuple w tup rec = (present (take_cond (take_msg w tup) tup).1 tup rec, 1) ∧
    (data_blob_tuple w tup rec).1.presented = w.presented ++ [(tup, rec)] ∧
    (data_blob_tuple w tup rec).1.query = (take_cond (take_msg w tup) tup).1.query ∧
    (presenter_returns w.presenter tup = true →
      (data_blob_tuple w tup rec).1.aborted = w.aborted) ∧
    (presenter_returns w.presenter tup = false →
      (data_blob_tuple w tup rec).1.aborted = true ∧
      (data_blob_tuple w tup rec).1.ended = some by_panic) := by
  have hd : data_blob_tuple w tup rec =
      (present (take_cond (take_msg w tup) tup).1 tup rec, 1) := by
    rw [data_blob_tuple_data _ _ _ hgo]
    simp [hso]
  have hc := take_cond_frame (take_msg w tup) tup
  have hm := take_msg_frame w tup
  have hpz : (take_cond (take_msg w tup) tup).1.presenter = w.presenter :=
    (take_cond_presenter _ tup).trans (take_msg_presenter w tup)
  have hpf := present_frame (take_cond (take_msg w tup) tup).1 tup rec
  rw [hd]
  refine ⟨rfl, ?_, hpf.2.2.1, ?_, ?_⟩
  · show (present (take_cond (take_msg w tup) tup).1 tup rec).presented = _
    rw [hpf.2.2.2.2.2.2.2.2.2.1, hc.2.2.2.2.1, hm.2.2.2.2.1]
  · intro hr
    exact (hpf.2.2.2.2.2.2.2.2.2.2 (by rw [hpz]; exact hr)).trans (hc.2.2.1.trans hm.2.2.1)
  · intro hr
    show (present (take_cond (take_msg w tup) tup).1 tup rec).aborted = true ∧
      (present (take_cond (take_msg w tup) tup).1 tup rec).ended = some by_panic
    rw [present_of_panic _ tup rec (by rw [hpz]; exact hr)]
    exact ⟨rfl, rfl⟩

/-- A well-formed record with an obj payload whose cond, if any, is none of
begin, succeeded, limited, failed, decoded by a running process: the presenter
is called once with it; when the presenter returns the count goes up by 1,
when it ends in `my_panic` the count stays and the process has ended. -/
theorem decode_record_data (jl : List Char → Option json_t) (w : world)
    (rec : List Char) (main : json_t) (tup : pdns_tuple)
    (hj : jl rec = some main) (ht : tuple_fields main = Except.ok tup)
    (hobj : json_object_get (some main) "obj" ≠ none)
    (hcond : ∀ c, json_object_get (some main) "cond" = some (json_t.string c) →
      c ≠ "begin" ∧ c ≠ "succeeded" ∧ c ≠ "limited" ∧ c ≠ "failed")
    (ha : w.aborted = false) :
    (decode_record jl w rec).presented = w.presented ++ [(tup, rec)] ∧
    (presenter_returns w.presenter tup = true →
      (decode_record jl w rec).writer.count = w.writer.count + 1 ∧
      (decode_record jl w rec).aborted = false) ∧
    (presenter_returns w.presenter tup = false →
      (decode_record jl w rec).writer.count = w.writer.count ∧
      (decode_record jl w rec).aborted = true ∧
      (decode_record jl w rec).ended = some by_panic) := by
  have hgo : (take_cond (take_msg (note_blob w rec) tup) tup).2 = false := by
    unfold take_cond
    cases hc : tup.cond with
    | none => rfl
    | some c =>
      have hm := hcond c (tuple_cond_member main tup ht c hc)
      exact (cond_chain_data _ c hm.1 hm.2.1 hm.2.2.1 hm.2.2.2).1
  have hso : tup.obj.saf_obj.isNone = false := by
    rw [(tuple_fields_ok main tup ht).2.2.2]
    cases h : json_object_get (some main) "obj" with
    | none => exact absurd h hobj
    | some v => rfl
  have hp := data_blob_tuple_present (note_blob w rec) tup rec hgo hso
  have hdb := data_blob_of_fields jl w rec main tup hj ht
  have hw := (data_blob_frame jl w rec).2.1
  have hpres : (data_blob jl w rec).1.presented = w.presented ++ [(tup, rec)] := by
    rw [hdb]
    exact hp.2.1
  cases hr : presenter_returns w.presenter tup with
  | true =>
    have hab : (data_blob jl w rec).1.aborted = false := by
      rw [hdb]
      exact (hp.2.2.2.1 hr).trans ha
    have h2 : (data_blob jl w rec).2 = 1 := by
      rw [hdb, hp.1]
    have hdec := decode_record_of_data_blob jl w rec (data_blob jl w rec).1 1
      (by rw [← h2]) hab
    refine ⟨by rw [hdec.1]; exact hpres, fun _ => ⟨by rw [hdec.2.1, hw], ?_⟩,
      fun h => Bool.noConfusion h⟩
    unfold decode_record
    simp only [hab]
    cases (data_blob jl w rec).1.query.saf_cond <;> simp [hab]
  | false =>
    have hab : (data_blob jl w rec).1.aborted = true := by
      rw [hdb]
      exact (hp.2.2.2.2 hr).1
    have hen : (data_blob jl w rec).1.ended = some by_panic := by
      rw [hdb]
      exact (hp.2.2.2.2 hr).2
    have e : decode_record jl w rec = (data_blob jl w rec).1 := by
      simp [decode_record, hab]
    rw [e]
    exact ⟨hpres, fun h => Bool.noConfusion h, fun _ => ⟨by rw [hw], hab, hen⟩⟩

/-- C5 (amended): a well-formed record that carries an obj payload and whose
cond, if it has one, is none of begin, succeeded, limited, failed, processed
while the output cap is not reached, is forwarded to the presenter exactly
once.  When the presenter returns (JSON output always does; batch output
does for an obj with an rrname or an rdata) `writer.count` increases by
exactly 1 and the process goes on; when it does not, the process has ended in
`my_panic` inside the presenter and the count is as it was. -/
theorem data_record_forwarded_once (jl : List Char → Option json_t) (s : world × Nat)
    (rec : List Char) (main : json_t) (tup : pdns_tuple)
    (hj : jl rec = some main) (ht : tuple_fields main = Except.ok tup)
    (hobj : json_object_get (some main) "obj" ≠ none)
    (hcond : ∀ c, json_object_get (some main) "cond" = some (json_t.string c) →
      c ≠ "begin" ∧ c ≠ "succeeded" ∧ c ≠ "limited" ∧ c ≠ "failed")
    (hl : limit_reached s.1.writer = false) (ha : s.1.aborted = false) :
    (deblock_record jl s rec).1.presented = s.1.presented ++ [(tup, rec)] ∧
    (presenter_returns s.1.presenter tup = true →
      (deblock_record jl s rec).1.writer.count = s.1.writer.count + 1 ∧
      (deblock_record jl s rec).1.aborted = false) ∧
    (presenter_returns s.1.presenter tup = false →
      (deblock_record jl s rec).1.writer.count = s.1.writer.count ∧
      (deblock_record jl s rec).1.aborted = true ∧
      (deblock_record jl s rec).1.ended = some by_panic) := by
  have hstep : (deblock_record jl s rec).1 = decode_record jl s.1 rec := by
    simp [deblock_record, hl]
  rw [hstep]
  exact decode_record_data jl s.1 rec main tup hj ht hobj hcond ha

/-- C7 (amended): a well-formed record whose cond is a string other than
begin, ongoing, succeeded, limited, failed: `data_blob` sets the protocol
state to `sc_missing`; when the record has no obj payload nothing is
forwarded and 0 is returned; when it has one it is forwarded to the presenter
once, and `data_blob` returns 1 when the presenter returns (JSON output
always does; batch output does for an obj with an rrname or an rdata), while
otherwise the process has ended in `my_panic` inside the presenter. -/
theorem data_blob_unknown_cond (jl : List Char → Option json_t) (w : world)
    (rec : List Char) (main : json_t) (tup : pdns_tuple) (c : String)
    (hj : jl rec = some main) (ht : tuple_fields main = Except.ok tup)
    (hc : json_object_get (some main) "cond" = some (json_t.string c))
    (h1 : c ≠ "begin") (h2 : c ≠ "ongoing") (h3 : c ≠ "succeeded") (h4 : c ≠ "limited")
    (h5 : c ≠ "failed") :
    (data_blob jl w rec).1.query.saf_cond = sc_missing ∧
    (json_object_get (some main) "obj" = none →
      (data_blob jl w rec).1.presented = w.presented ∧ (data_blob jl w rec).2 = 0 ∧
      (data_blob jl w rec).1.aborted = w.aborted) ∧
    (json_object_get (some main) "obj" ≠ none →
      (data_blob jl w rec).1.presented = w.presented ++ [(tup, rec)] ∧
      (presenter_returns w.presenter tup = true →
        (data_blob jl w rec).2 = 1 ∧ (data_blob jl w rec).1.aborted = w.aborted) ∧
      (presenter_returns w.presenter tup = false →
        (data_blob jl w rec).1.aborted = true ∧
        (data_blob jl w rec).1.ended = some by_panic)) := by
  have hcond := tuple_cond_of_member main tup ht c hc
  have hch := cond_chain_data (take_msg (note_blob w rec) tup) c h1 h3 h4 h5
  rw [if_neg h2] at hch
  have htc : take_cond (take_msg (note_blob w rec) tup) tup =
      cond_chain (take_msg (note_blob w rec) tup) c := by
    simp [take_cond, hcond]
  have hgo : (take_cond (take_msg (note_blob w rec) tup) tup).2 = false := by
    rw [htc]
    exact hch.1
  have hfr := cond_chain_frame (take_msg (note_blob w rec) tup) c
  have hm := take_msg_frame (note_blob w rec) tup
  have hpres : (cond_chain (take_msg (note_blob w rec) tup) c).1.presented = w.presented :=
    hfr.2.2.2.2.1.trans hm.2.2.2.2.1
  have hab0 : (cond_chain (take_msg (note_blob w rec) tup) c).1.aborted = w.aborted :=
    hfr.2.2.1.trans hm.2.2.1
  have hdb := data_blob_of_fields jl w rec main tup hj ht
  have hst : (data_blob jl w rec).1.query.saf_cond = sc_missing := by
    rw [hdb]
    unfold data_blob_tuple
    simp only []
    split_ifs
    · rw [htc]; exact hch.2
    · rw [htc]; exact hch.2
    · rw [(present_frame _ tup rec).2.2.1, htc]; exact hch.2
  refine ⟨hst, ?_, ?_⟩
  · intro hobj
    have hso : tup.obj.saf_obj.isNone = true := by
      rw [(tuple_fields_ok main tup ht).2.2.2, hobj]
      rfl
    rw [hdb, data_blob_tuple_data _ _ _ hgo, if_pos hso, htc]
    exact ⟨hpres, rfl, hab0⟩
  · intro hobj
    have hso : tup.obj.saf_obj.isNone = false := by
      rw [(tuple_fields_ok main tup ht).2.2.2]
      cases h : json_object_get (some main) "obj" with
      | none => exact absurd h hobj
      | some v => rfl
    have hp := data_blob_tuple_present (note_blob w rec) tup rec hgo hso
    rw [hdb]
    refine ⟨hp.2.1, fun hr => ⟨by rw [hp.1], hp.2.2.2.1 hr⟩, fun hr => hp.2.2.2.2 hr⟩

/-- C8: a well-formed record with neither a cond nor an obj member is a
keepalive: `data_blob` leaves the protocol state as it was, does not call the
presenter and returns 0, and the deblocker leaves `writer.count` as it was. -/
theorem data_blob_keepalive (jl : List Char → Option json_t) (w : world)
    (rec : List Char) (main : json_t) (tup : pdns_tuple)
    (hj : jl rec = some main) (ht : tuple_fields main = Except.ok tup)
    (hc : json_object_get (some main) "cond" = none)
    (ho : json_object_get (some main) "obj" = none) :
    (data_blob jl w rec).1.query.saf_cond = w.query.saf_cond ∧
    (data_blob jl w rec).1.presented = w.presented ∧
    (data_blob jl w rec).2 = 0 ∧
    (decode_record jl w rec).writer.count = w.writer.count := by
  have hcond := tuple_cond_of_absent main tup ht hc
  have hm := take_msg_frame (note_blob w rec) tup
  have htc : take_cond (take_msg (note_blob w rec) tup) tup =
      (take_msg (note_blob w rec) tup, false) := by
    simp [take_cond, hcond]
  have hso : tup.obj.saf_obj.isNone = true := by
    rw [(tuple_fields_ok main tup ht).2.2.2, ho]
    rfl
  have hd : data_blob jl w rec = (take_msg (note_blob w rec) tup, 0) := by
    rw [data_blob_of_fields jl w rec main tup hj ht,
      data_blob_tuple_data _ _ _ (by rw [htc]), htc]
    simp [hso]
  have hwr : (take_msg (note_blob w rec) tup).writer = w.writer := hm.2.1
  have hcount : (decode_record jl w rec).writer.count = w.writer.count := by
    unfold decode_record
    rw [hd]
    simp only []
    split_ifs
    · rw [hwr]
    · cases (take_msg (note_blob w rec) tup).query.saf_cond <;> simp [hwr]
  rw [hd]
  exact ⟨hm.2.2.2.2.2.2, hm.2.2.2.2.1, rfl, hcount⟩

/-! ## C10: a field of the wrong type -/

theorem cond_chain_history (w : world) (c : String) (b : List (List Char)) (e : List String) :
    ∃ b2 e2, cond_chain (with_history w b e) c =
      (with_history (cond_chain w c).1 b2 e2, (cond_chain w c).2) := by
  unfold cond_chain
  split_ifs <;> exact ⟨_, _, rfl⟩

theorem take_msg_history (w : world) (tup : pdns_tuple) (b : List (List Char))
    (e : List String) :
    take_msg (with_history w b e) tup = with_history (take_msg w tup) b e := by
  unfold take_msg
  cases tup.msg <;> rfl

theorem present_history (w : world) (tup : pdns_tuple) (rec : List Char)
    (b : List (List Char)) (e : List String) :
    ∃ b2 e2, present (with_history w b e) tup rec = with_history (present w tup rec) b2 e2 := by
  cases h : presenter_returns w.presenter tup with
  | true =>
    rw [present_of_returns w tup rec h, present_of_returns (with_history w b e) tup rec h]
    exact ⟨_, _, rfl⟩
  | false =>
    rw [present_of_panic w tup rec h, present_of_panic (with_history w b e) tup rec h]
    exact ⟨_, _, rfl⟩

theorem take_cond_history (w : world) (tup : pdns_tuple) (b : List (List Char))
    (e : List String) :
    ∃ b2 e2, take_cond (with_history w b e) tup =
      (with_history (take_cond w tup).1 b2 e2, (take_cond w tup).2) := by
  unfold take_cond
  cases tup.cond with
  | none => exact ⟨_, _, rfl⟩
  | some c => exact cond_chain_history w c b e

theorem data_blob_tuple_history (w : world) (tup : pdns_tuple) (rec : List Char)
    (b : List (List Char)) (e : List String) :
    ∃ b2 e2, data_blob_tuple (with_history w b e) tup rec =
      (with_history (data_blob_tuple w tup rec).1 b2 e2, (data_blob_tuple w tup rec).2) := by
  unfold data_blob_tuple
  rw [take_msg_history]
  obtain ⟨b2, e2, h⟩ := take_cond_history (take_msg w tup) tup b e
  rw [h]
  simp only []
  split_ifs
  · exact ⟨_, _, rfl⟩
  · exact ⟨_, _, rfl⟩
  · obtain ⟨b3, e3, h3⟩ := present_history (take_cond (take_msg w tup) tup).1 tup rec b2 e2
    exact ⟨b3, e3, by rw [h3]⟩

/-- The decoder does not read the diagnostic history: with another history it
returns the same value and leaves the same world up to the history. -/
theorem data_blob_history (jl : List Char → Option json_t) (w : world) (rec : List Char)
    (b : List (List Char)) (e : List String) :
    ∃ b2 e2, data_blob jl (with_history w b e) rec =
      (with_history (data_blob jl w rec).1 b2 e2, (data_blob jl w rec).2) := by
  unfold data_blob
  cases tuple_make jl rec with
  | aborted => exact ⟨_, _, rfl⟩
  | ouch msg => exact ⟨_, _, rfl⟩
  | made tup => exact data_blob_tuple_history (note_blob w rec) tup rec (b ++ [rec]) e

/-- C10: a record that parses as JSON but has a field of the wrong type.
`tuple_make` returns a message, `data_blob` writes it to stderr and returns 0
without calling the presenter and without changing the query (protocol state,
`saf_msg`, status), the deblocker does not count the record, and `data_blob`
on any record that follows returns the same value and leaves the same world,
up to the diagnostic history, as if the bad record had not been there. -/
theorem data_blob_wrong_type (jl : List Char → Option json_t) (w : world) (rec : List Char)
    (main : json_t) (hj : jl rec = some main) (hw : wrong_typed main) :
    (∃ msg, tuple_make jl rec = tuple_result.ouch msg ∧
      data_blob jl w rec = (log_stderr (note_blob w rec) msg, 0)) ∧
    (data_blob jl w rec).2 = 0 ∧
    (data_blob jl w rec).1.presented = w.presented ∧
    (data_blob jl w rec).1.query = w.query ∧
    (data_blob jl w rec).1.aborted = w.aborted ∧
    (decode_record jl w rec).writer.count = w.writer.count ∧
    (∀ rec2, (data_blob jl (data_blob jl w rec).1 rec2).2 = (data_blob jl w rec2).2 ∧
      quiet_view (data_blob jl (data_blob jl w rec).1 rec2).1 =
        quiet_view (data_blob jl w rec2).1) := by
  have hm : ∃ msg, tuple_make jl rec = tuple_result.ouch msg := by
    cases ht : tuple_fields main with
    | error msg => exact ⟨msg, by simp [tuple_make, hj, ht]⟩
    | ok tup => exact absurd hw (tuple_fields_ok main tup ht).1
  obtain ⟨msg, hmsg⟩ := hm
  have hd : data_blob jl w rec = (log_stderr (note_blob w rec) msg, 0) := by
    simp [data_blob, hmsg]
  have hcount : (decode_record jl w rec).writer.count = w.writer.count := by
    unfold decode_record
    rw [hd]
    simp only []
    split_ifs
    · rfl
    · cases (log_stderr (note_blob w rec) msg).query.saf_cond <;>
        simp [log_stderr, note_blob]
  refine ⟨⟨msg, hmsg, hd⟩, ?_, ?_, ?_, ?_, hcount, ?_⟩
  · rw [hd]
  · rw [hd]
    rfl
  · rw [hd]
    rfl
  · rw [hd]
    rfl
  · intro rec2
    rw [hd]
    have e : log_stderr (note_blob w rec) msg =
        with_history w (w.blobs ++ [rec]) (w.stderr ++ [msg]) := rfl
    obtain ⟨b2, e2, h⟩ := data_blob_history jl w rec2 (w.blobs ++ [rec]) (w.stderr ++ [msg])
    rw [e, h]
    exact ⟨rfl, rfl⟩

/-! ## The theorems at sample inputs -/

/-- The deblocker at a sample input: two chunks that cut the second record in
two. -/
theorem writer_func_hands_over_the_segments_witness :
    (feed sample_loadb [line_begin ++ "\n\x7b".toList, "\x7d\nxy".toList]
        (sample_world (-1))).blobs = [line_begin, line_empty_object] ∧
    (feed sample_loadb [line_begin ++ "\n\x7b".toList, "\x7d\nxy".toList]
        (sample_world (-1))).fetch.buf = "xy".toList ∧
    (feed sample_loadb [line_begin ++ "\n\x7b".toList, "\x7d\nxy".toList]
        (sample_world (-1))).aborted = false :=
  writer_func_hands_over_the_segments sample_loadb
    [line_begin ++ "\n\x7b".toList, "\x7d\nxy".toList] (sample_world (-1))
    [line_begin, line_empty_object] "xy".toList rfl (by decide) (by decide) (by decide)
    (by decide) (by decide) (by decide)
    (by
      intro x hx
      simp only [List.mem_cons, List.mem_singleton, List.not_mem_nil, or_false] at hx
      rcases hx with h | h
      · rw [h, show sample_loadb line_begin = some (json_cond "begin") from rfl]
        simp
      · rw [h, show sample_loadb line_empty_object = some (json_t.object []) from rfl]
        simp)
    rfl

/-- C1, the code at the failing input: the stream of an empty line followed by
the line `{}` has the segments "" and "{}", but only the empty record is
handed to `data_blob`: the parser rejects it and the process ends in
`abort()` before the second segment is reached. -/
theorem hands_over_fails_after_malformed_line :
    "\n\x7b\x7d\n".toList = frame [[], line_empty_object] [] ∧
    (sample_world (-1)).writer.output_limit ≤ 0 ∧
    fetch_ok (sample_world (-1)).fetch = true ∧
    (feed sample_loadb ["\n\x7b\x7d\n".toList] (sample_world (-1))).blobs = [[]] ∧
    (feed sample_loadb ["\n\x7b\x7d\n".toList] (sample_world (-1))).blobs ≠
      [[], line_empty_object] ∧
    (feed sample_loadb ["\n\x7b\x7d\n".toList] (sample_world (-1))).aborted = true := by
  decide

/-- C2 at a sample input: one chunk against the same bytes cut inside the
first record. -/
theorem writer_func_chunking_invariant_witness :
    (feed sample_loadb [frame [line_begin, line_a] []] (sample_world 2)).blobs =
      (feed sample_loadb [line_begin.take 5, frame [line_begin.drop 5, line_a] []]
        (sample_world 2)).blobs ∧
    (feed sample_loadb [frame [line_begin, line_a] []] (sample_world 2)).presented =
      (feed sample_loadb [line_begin.take 5, frame [line_begin.drop 5, line_a] []]
        (sample_world 2)).presented ∧
    (feed sample_loadb [frame [line_begin, line_a] []] (sample_world 2)).writer.count =
      (feed sample_loadb [line_begin.take 5, frame [line_begin.drop 5, line_a] []]
        (sample_world 2)).writer.count ∧
    (feed sample_loadb [frame [line_begin, line_a] []] (sample_world 2)).query.saf_cond =
      (feed sample_loadb [line_begin.take 5, frame [line_begin.drop 5, line_a] []]
        (sample_world 2)).query.saf_cond :=
  writer_func_chunking_invariant sample_loadb [frame [line_begin, line_a] []]
    [line_begin.take 5, frame [line_begin.drop 5, line_a] []] (sample_world 2)
    rfl (by decide) (by decide) (by decide)

/-- C3 at a sample input: the count has reached the limit 1, one more line
arrives. -/
theorem output_cap_reached_witness :
    (run_fetch sample_loadb CURLE_OK [line_b ++ ['\n']] capped_world).presented =
      capped_world.presented ∧
    (run_fetch sample_loadb CURLE_OK [line_b ++ ['\n']] capped_world).writer.count =
      capped_world.writer.count ∧
    (run_fetch sample_loadb CURLE_OK [line_b ++ ['\n']] capped_world).query.saf_cond =
      sc_we_limited ∧
    (run_fetch sample_loadb CURLE_OK [line_b ++ ['\n']] capped_world).exit_code =
      capped_world.exit_code :=
  have h := output_cap_reached sample_loadb CURLE_OK [line_b ++ ['\n']] capped_world
    (by decide) (by decide) (by decide) (by decide)
  ⟨h.1, h.2.2.1, (h.2.2.2.1 (by decide)).1, (h.2.2.2.1 (by decide)).2.2.2⟩

/-- C3 as stated fails: with output limit 1 and a stream that ends after its
first data line, `writer.count` has reached the limit, but the protocol state
at the end of the stream is `sc_init`, not self-limited, and the fetch is not
stopped. -/
theorem cap_reached_without_further_line :
    (run_fetch sample_loadb CURLE_OK [line_a ++ ['\n']] (sample_world 1)).writer.output_limit
      = 1 ∧
    (run_fetch sample_loadb CURLE_OK [line_a ++ ['\n']] (sample_world 1)).writer.count = 1 ∧
    (run_fetch sample_loadb CURLE_OK [line_a ++ ['\n']] (sample_world 1)).query.saf_cond =
      sc_init ∧
    (run_fetch sample_loadb CURLE_OK [line_a ++ ['\n']] (sample_world 1)).query.saf_cond ≠
      sc_we_limited ∧
    (run_fetch sample_loadb CURLE_OK [line_a ++ ['\n']] (sample_world 1)).fetch.stopped =
      false := by
  decide

set_option maxRecDepth 1000000 in
/-- C4 at a sample input: the stream in three chunks. -/
theorem end_to_end_cap_two_witness :
    (run_fetch sample_loadb CURLE_OK sample_chunks (sample_world 2)).presented.map
        (fun p => (p.1.rrname, p.2)) =
      [(some "a.example.com", line_a), (some "b.example.com", line_b)] ∧
    (run_fetch sample_loadb CURLE_OK sample_chunks (sample_world 2)).writer.count = 2 ∧
    (run_fetch sample_loadb CURLE_OK sample_chunks (sample_world 2)).query.saf_cond =
      sc_we_limited ∧
    (run_fetch sample_loadb CURLE_OK sample_chunks (sample_world 2)).fetch.stopped = true ∧
    (transfer sample_loadb CURLE_OK sample_chunks (sample_world 2)).2 = CURLE_WRITE_ERROR ∧
    (run_fetch sample_loadb CURLE_OK sample_chunks (sample_world 2)).exit_code = 0 :=
  end_to_end_cap_two sample_loadb CURLE_OK sample_chunks rfl rfl rfl (by decide)

/-- C5 as stated fails: the record `{"cond":"begin","obj":{...}}` carries an
obj payload and its cond is none of succeeded, limited, failed, the cap is not
reached, yet nothing is forwarded and `writer.count` stays 0.  And with batch
output the data record `{"obj":{"rrtype":"A"}}`, whose obj has neither rrname
nor rdata, is forwarded, but the process ends in `my_panic` inside the
presenter and the count stays 0. -/
theorem begin_record_with_obj_is_not_forwarded :
    made_with_cond_and_obj (tuple_make sample_loadb line_begin_obj) "begin" = true ∧
    limit_reached (sample_world (-1)).writer = false ∧
    (deblock_record sample_loadb (sample_world (-1), 0) line_begin_obj).1.presented.length
      = 0 ∧
    (deblock_record sample_loadb (sample_world (-1), 0) line_begin_obj).1.writer.count = 0 ∧
    (deblock_record sample_loadb (sample_world (-1), 0) line_begin_obj).1.query.saf_cond =
      sc_begin ∧
    (deblock_record bare_loadb (batch_world (-1), 0) line_bare_obj).1.presented.map
      (fun p => p.2) = [line_bare_obj] ∧
    (deblock_record bare_loadb (batch_world (-1), 0) line_bare_obj).1.writer.count = 0 ∧
    (deblock_record bare_loadb (batch_world (-1), 0) line_bare_obj).1.ended =
      some by_panic := by
  decide

/-- C5 (amended) at sample inputs: the data line for a.example.com with JSON
output, and the data line without rrname and rdata with batch output. -/
theorem data_record_forwarded_once_witness :
    (deblock_record sample_loadb (sample_world (-1), 0) line_a).1.presented =
      (sample_world (-1)).presented ++
        [(sample_tuple (json_data "a.example.com"), line_a)] ∧
    (deblock_record sample_loadb (sample_world (-1), 0) line_a).1.writer.count =
      (sample_world (-1)).writer.count + 1 ∧
    (deblock_record sample_loadb (sample_world (-1), 0) line_a).1.aborted = false ∧
    (deblock_record bare_loadb (batch_world (-1), 0) line_bare_obj).1.writer.count =
      (batch_world (-1)).writer.count ∧
    (deblock_record bare_loadb (batch_world (-1), 0) line_bare_obj).1.ended =
      some by_panic :=
  have h := data_record_forwarded_once sample_loadb (sample_world (-1), 0) line_a
    (json_data "a.example.com") (sample_tuple (json_data "a.example.com")) rfl rfl
    (by
      rw [show json_object_get (some (json_data "a.example.com")) "obj" = some _ from rfl]
      simp)
    (by
      intro c h
      rw [show json_object_get (some (json_data "a.example.com")) "cond" = none from rfl] at h
      cases h)
    (by decide) rfl
  have g := data_record_forwarded_once bare_loadb (batch_world (-1), 0) line_bare_obj
    json_bare_obj (sample_tuple json_bare_obj) rfl rfl
    (by
      rw [show json_object_get (some json_bare_obj) "obj" = some _ from rfl]
      simp)
    (by
      intro c h
      rw [show json_object_get (some json_bare_obj) "cond" = none from rfl] at h
      cases h)
    (by decide) rfl
  ⟨h.1, (h.2.1 (by decide)).1, (h.2.1 (by decide)).2, (g.2.2 (by decide)).1,
    (g.2.2 (by decide)).2.2⟩

/-- C6 at a sample input: a begin record that also carries an obj. -/
theorem data_blob_control_record_witness :
    (data_blob sample_loadb (sample_world (-1)) line_begin_obj).1.query.saf_cond =
      (if "begin" = "begin" then sc_begin else if "begin" = "succeeded" then sc_succeeded
        else if "begin" = "limited" then sc_limited else sc_failed) ∧
    (data_blob sample_loadb (sample_world (-1)) line_begin_obj).1.presented =
      (sample_world (-1)).presented ∧
    (data_blob sample_loadb (sample_world (-1)) line_begin_obj).2 = 0 ∧
    (decode_record sample_loadb (sample_world (-1)) line_begin_obj).writer.count =
      (sample_world (-1)).writer.count :=
  data_blob_control_record sample_loadb (sample_world (-1)) line_begin_obj
    (json_t.object [("cond", json_t.string "begin"),
      ("obj", json_t.object [("rrname", json_t.string "a.example.com")])])
    (sample_tuple (json_t.object [("cond", json_t.string "begin"),
      ("obj", json_t.object [("rrname", json_t.string "a.example.com")])]))
    "begin" rfl rfl rfl (Or.inl rfl)

/-- C7 as stated fails: the record `{"cond":"bogus","obj":{...}}` puts the
query into `sc_missing`, and its obj payload is forwarded to the presenter and
counted.  And with batch output the record
`{"cond":"bogus","obj":{"rrtype":"A"}}`, whose obj has neither rrname nor
rdata, is forwarded, but the process ends in `my_panic` inside the presenter
and the count stays 0. -/
theorem unknown_cond_record_is_forwarded :
    made_with_cond_and_obj (tuple_make sample_loadb line_bogus_obj) "bogus" = true ∧
    (data_blob sample_loadb (sample_world (-1)) line_bogus_obj).1.query.saf_cond =
      sc_missing ∧
    (data_blob sample_loadb (sample_world (-1)) line_bogus_obj).1.presented.length = 1 ∧
    (data_blob sample_loadb (sample_world (-1)) line_bogus_obj).1.presented.map
      (fun p => p.2) = [line_bogus_obj] ∧
    (data_blob sample_loadb (sample_world (-1)) line_bogus_obj).2 = 1 ∧
    (deblock_record sample_loadb (sample_world (-1), 0) line_bogus_obj).1.writer.count = 1 ∧
    (data_blob bare_loadb (batch_world (-1)) line_bogus_bare).1.presented.map
      (fun p => p.2) = [line_bogus_bare] ∧
    (data_blob bare_loadb (batch_world (-1)) line_bogus_bare).1.ended = some by_panic ∧
    (deblock_record bare_loadb (batch_world (-1), 0) line_bogus_bare).1.writer.count = 0 := by
  decide

/-- C7 (amended) at sample inputs: the record `{"cond":"bogus","obj":{...}}`
with JSON output, and the record whose obj has neither rrname nor rdata with
batch output. -/
theorem data_blob_unknown_cond_witness :
    (data_blob sample_loadb (sample_world (-1)) line_bogus_obj).1.query.saf_cond =
      sc_missing ∧
    (data_blob sample_loadb (sample_world (-1)) line_bogus_obj).1.presented =
      (sample_world (-1)).presented ++
        [(sample_tuple (json_t.object [("cond", json_t.string "bogus"),
          ("obj", json_t.object [("rrname", json_t.string "a.example.com")])]),
          line_bogus_obj)] ∧
    (data_blob sample_loadb (sample_world (-1)) line_bogus_obj).2 = 1 ∧
    (data_blob bare_loadb (batch_world (-1)) line_bogus_bare).1.ended = some by_panic :=
  have h := data_blob_unknown_cond sample_loadb (sample_world (-1)) line_bogus_obj
    (json_t.object [("cond", json_t.string "bogus"),
      ("obj", json_t.object [("rrname", json_t.string "a.example.com")])])
    (sample_tuple (json_t.object [("cond", json_t.string "bogus"),
      ("obj", json_t.object [("rrname", json_t.string "a.example.com")])]))
    "bogus" rfl rfl rfl (by decide) (by decide) (by decide) (by decide) (by decide)
  have ho : json_object_get (some (json_t.object [("cond", json_t.string "bogus"),
      ("obj", json_t.object [("rrname", json_t.string "a.example.com")])])) "obj" ≠ none := by
    rw [show json_object_get (some (json_t.object [("cond", json_t.string "bogus"),
      ("obj", json_t.object [("rrname", json_t.string "a.example.com")])])) "obj" = some _
      from rfl]
    simp
  have g := data_blob_unknown_cond bare_loadb (batch_world (-1)) line_bogus_bare
    json_bogus_bare (sample_tuple json_bogus_bare)
    "bogus" rfl rfl rfl (by decide) (by decide) (by decide) (by decide) (by decide)
  have go : json_object_get (some json_bogus_bare) "obj" ≠ none := by
    rw [show json_object_get (some json_bogus_bare) "obj" = some _ from rfl]
    simp
  ⟨h.1, (h.2.2 ho).1, ((h.2.2 ho).2.1 (by decide)).1, ((g.2.2 go).2.2 (by decide)).2⟩

/-- C8 at a sample input: the line `{}`. -/
theorem data_blob_keepalive_witness :
    (data_blob sample_loadb (sample_world (-1)) line_empty_object).1.query.saf_cond =
      (sample_world (-1)).query.saf_cond ∧
    (data_blob sample_loadb (sample_world (-1)) line_empty_object).1.presented =
      (sample_world (-1)).presented ∧
    (data_blob sample_loadb (sample_world (-1)) line_empty_object).2 = 0 ∧
    (decode_record sample_loadb (sample_world (-1)) line_empty_object).writer.count =
      (sample_world (-1)).writer.count :=
  data_blob_keepalive sample_loadb (sample_world (-1)) line_empty_object (json_t.object [])
    (sample_tuple (json_t.object [])) rfl rfl rfl rfl

/-- The path of `tuple_make` for a record the JSON parser rejects, in
general: `data_blob` does not return, the process ends in `abort()`. -/
theorem data_blob_aborts_on_malformed_json (jl : List Char → Option json_t) (w : world)
    (rec : List Char) (h : jl rec = none) :
    tuple_make jl rec = tuple_result.aborted ∧ (data_blob jl w rec).1.aborted = true := by
  have ht : tuple_make jl rec = tuple_result.aborted := by simp [tuple_make, h]
  exact ⟨ht, by simp [data_blob, ht, do_abort]⟩

/-- C9, the code at the failing input: an empty line followed by the data
line for a.example.com.  The empty record is rejected by the parser,
`tuple_make` runs into `abort()`: the process is gone, `data_blob` does not
return 0, and the data line that follows is neither decoded nor forwarded. -/
theorem malformed_line_aborts_the_process :
    (sample_loadb []).isNone = true ∧
    (data_blob sample_loadb (sample_world (-1)) []).1.aborted = true ∧
    (feed sample_loadb [frame [[], line_a] []] (sample_world (-1))).aborted = true ∧
    (feed sample_loadb [frame [[], line_a] []] (sample_world (-1))).blobs = [[]] ∧
    (feed sample_loadb [frame [[], line_a] []] (sample_world (-1))).presented.length = 0 ∧
    (feed sample_loadb [frame [line_a] []] (sample_world (-1))).presented.length = 1 := by
  decide

/-- C10 at a sample input: the record `{"cond":7}`, followed by the data line
for a.example.com. -/
theorem data_blob_wrong_type_witness :
    (data_blob sample_loadb (sample_world (-1)) line_cond_number).2 = 0 ∧
    (data_blob sample_loadb (sample_world (-1)) line_cond_number).1.presented =
      (sample_world (-1)).presented ∧
    (data_blob sample_loadb (sample_world (-1)) line_cond_number).1.query =
      (sample_world (-1)).query ∧
    (decode_record sample_loadb (sample_world (-1)) line_cond_number).writer.count =
      (sample_world (-1)).writer.count ∧
    (data_blob sample_loadb
      (data_blob sample_loadb (sample_world (-1)) line_cond_number).1 line_a).2 =
      (data_blob sample_loadb (sample_world (-1)) line_a).2 :=
  have h := data_blob_wrong_type sample_loadb (sample_world (-1)) line_cond_number
    (json_t.object [("cond", json_t.integer 7)]) rfl (Or.inl ⟨_, rfl, rfl⟩)
  ⟨h.2.1, h.2.2.1, h.2.2.2.1, h.2.2.2.2.2.1, (h.2.2.2.2.2.2 line_a).1⟩


/-! ## C11 to C13: the fence and the time-range checks -/

/-- C11: the fence `query_launcher` builds.  With `complete` set, `after`
goes to `first_after` and `before` to `last_before`, the other two values
stay 0; without it, `after` goes to `last_after` and `before` to
`first_before`, the other two stay 0 (an unset bound is 0 and leaves 0). -/
theorem fence_mapping (qd : qdesc) :
    if qd.complete = true then
      (query_launcher_fence qd).first_after = qd.after ∧
      (query_launcher_fence qd).last_before = qd.before ∧
      (query_launcher_fence qd).first_before = 0 ∧
      (query_launcher_fence qd).last_after = 0
    else
      (query_launcher_fence qd).last_after = qd.after ∧
      (query_launcher_fence qd).first_before = qd.before ∧
      (query_launcher_fence qd).first_after = 0 ∧
      (query_launcher_fence qd).last_before = 0 := by
  unfold query_launcher_fence
  by_cases hc : qd.complete = true <;> by_cases ha : qd.after = 0 <;>
    by_cases hb : qd.before = 0 <;> simp [hc, ha, hb]

/-- The fence as one value. -/
theorem fence_mapping_eq (qd : qdesc) :
    query_launcher_fence qd =
      if qd.complete = true then { first_after := qd.after, last_before := qd.before }
      else { last_after := qd.after, first_before := qd.before } := by
  unfold query_launcher_fence
  by_cases hc : qd.complete = true <;> by_cases ha : qd.after = 0 <;>
    by_cases hb : qd.before = 0 <;> simp [hc, ha, hb]

/-- C12: fence semantics.  For T > 0 and an observation that ends after T but
begins at or before T, the fence built for after = T without `complete` (and
no `before`) admits the observation, and the fence built for after = T with
`complete` excludes it, whatever `before` is. -/
theorem fence_semantics (qd1 qd2 : qdesc) (T time_first time_last : Nat)
    (hT : 0 < T) (hl : time_last > T) (hf : time_first ≤ T)
    (h1 : qd1.after = T ∧ qd1.before = 0 ∧ qd1.complete = false)
    (h2 : qd2.after = T ∧ qd2.complete = true) :
    fence_admits (query_launcher_fence qd1) time_first time_last = true ∧
    fence_admits (query_launcher_fence qd2) time_first time_last = false := by
  have hT0 : T ≠ 0 := by omega
  constructor
  · rw [fence_mapping_eq, h1.1, h1.2.1, h1.2.2]
    simp [fence_admits, hl]
  · rw [fence_mapping_eq, h2.1, h2.2]
    simp [fence_admits, hT0]
    intro h
    omega

/-- C12 at a sample input: T = 100, an observation from 50 to 150. -/
theorem fence_semantics_witness :
    fence_admits (query_launcher_fence { after := 100 }) 50 150 = true ∧
    fence_admits (query_launcher_fence { after := 100, complete := true }) 50 150 = false :=
  fence_semantics { after := 100 } { after := 100, complete := true } 100 50 150
    (by decide) (by decide) (by decide) ⟨rfl, rfl, rfl⟩ ⟨rfl, rfl⟩

/-- With the bounds of the `complete` mode read as "at or after" and "at or
before", an observation that begins exactly at T is admitted by the fence for
after = T with `complete`: the two wordings of the spec differ on it. -/
theorem fence_inclusive_admits_boundary (qd : qdesc) (T time_last : Nat)
    (h : qd.after = T ∧ qd.before = 0 ∧ qd.complete = true) :
    fence_admits_inclusive (query_launcher_fence qd) T time_last = true := by
  rw [fence_mapping_eq, h.1, h.2.1, h.2.2]
  simp [fence_admits_inclusive]

theorem time_range_check_default (qd : qdesc) :
    time_range_check (default_output_limit qd) = time_range_check qd := by
  unfold default_output_limit
  split_ifs <;> rfl

/-- C13: the time-range checks of `main`.  The run ends in `usage` (exit
status 1, nothing launched) when both bounds are given with after > before,
and when `complete` is set with neither bound given; every other descriptor
passes the two checks, in particular one with after = before, and a fetch is
launched when the system is ready. -/
theorem time_range_validation (jl : List Char → Option json_t) (qd : qdesc)
    (ready : Option String) (quiet : Bool) (easy : CURL) (final : Nat)
    (chunks : List (List Char)) (presentation : present_e) :
    ((qd.after ≠ 0 ∧ qd.before ≠ 0 ∧ qd.after > qd.before) ∨
        (qd.complete = true ∧ qd.after = 0 ∧ qd.before = 0) →
      exit_status (main_tail jl qd ready quiet easy final chunks presentation) = some 1 ∧
      launched (main_tail jl qd ready quiet easy final chunks presentation) = false) ∧
    (¬ ((qd.after ≠ 0 ∧ qd.before ≠ 0 ∧ qd.after > qd.before) ∨
        (qd.complete = true ∧ qd.after = 0 ∧ qd.before = 0)) →
      time_range_check qd = none ∧
      (ready = none → launched (main_tail jl qd ready quiet easy final chunks presentation) = true)) ∧
    (qd.after = qd.before → qd.after ≠ 0 → time_range_check qd = none) := by
  refine ⟨?_, ?_, ?_⟩
  · intro h
    have hc : ∃ msg, time_range_check qd = some msg := by
      unfold time_range_check
      rcases h with h | h
      · exact ⟨_, by rw [if_pos h]⟩
      · by_cases h1 : qd.after ≠ 0 ∧ qd.before ≠ 0 ∧ qd.after > qd.before
        · exact ⟨_, by rw [if_pos h1]⟩
        · exact ⟨_, by rw [if_neg h1, if_pos h]⟩
    obtain ⟨msg, hm⟩ := hc
    have e : main_tail jl qd ready quiet easy final chunks presentation = main_result.usage msg := by
      simp [main_tail, time_range_check_default, hm]
    rw [e]
    exact ⟨rfl, rfl⟩
  · intro h
    have h1 : ¬ (qd.after ≠ 0 ∧ qd.before ≠ 0 ∧ qd.after > qd.before) := fun x => h (Or.inl x)
    have h2 : ¬ (qd.complete = true ∧ qd.after = 0 ∧ qd.before = 0) := fun x => h (Or.inr x)
    have hn : time_range_check qd = none := by
      unfold time_range_check
      rw [if_neg h1, if_neg h2]
    refine ⟨hn, fun hr => ?_⟩
    subst hr
    simp only [main_tail, time_range_check_default, hn]
    split_ifs <;> rfl
  · intro he h0
    unfold time_range_check
    have h1 : ¬ (qd.after ≠ 0 ∧ qd.before ≠ 0 ∧ qd.after > qd.before) := by
      rintro ⟨_, _, h⟩
      omega
    have h2 : ¬ (qd.complete = true ∧ qd.after = 0 ∧ qd.before = 0) := by
      rintro ⟨_, h, _⟩
      exact h0 h
    rw [if_neg h1, if_neg h2]

/-- C13 at sample inputs: after 200 and before 100 is rejected, `complete`
alone is rejected, after = before = 100 passes and launches. -/
theorem time_range_validation_witness :
    exit_status (main_tail sample_loadb { after := 200, before := 100 } none false
      { response_code := 200 } CURLE_OK [] pres_json) = some 1 ∧
    launched (main_tail sample_loadb { after := 200, before := 100 } none false
      { response_code := 200 } CURLE_OK [] pres_json) = false ∧
    exit_status (main_tail sample_loadb { complete := true } none false
      { response_code := 200 } CURLE_OK [] pres_json) = some 1 ∧
    time_range_check { after := 100, before := 100 } = none ∧
    launched (main_tail sample_loadb { after := 100, before := 100 } none false
      { response_code := 200 } CURLE_OK [] pres_json) = true :=
  ⟨((time_range_validation sample_loadb { after := 200, before := 100 } none false
      { response_code := 200 } CURLE_OK [] pres_json).1 (Or.inl (by decide))).1,
   ((time_range_validation sample_loadb { after := 200, before := 100 } none false
      { response_code := 200 } CURLE_OK [] pres_json).1 (Or.inl (by decide))).2,
   ((time_range_validation sample_loadb { complete := true } none false
      { response_code := 200 } CURLE_OK [] pres_json).1 (Or.inr (by decide))).1,
   (time_range_validation sample_loadb { after := 100, before := 100 } none false
      { response_code := 200 } CURLE_OK [] pres_json).2.2 rfl (by decide),
   ((time_range_validation sample_loadb { after := 100, before := 100 } none false
      { response_code := 200 } CURLE_OK [] pres_json).2.1 (by decide)).2 rfl⟩


/-! ## C14, C19: io_drain on a completed transfer -/

/-- C14 (amended): a completed fetch whose stopped flag is set is not
classified as a transport error for any result code other than the
host-resolution and the connection failure: `io_drain` leaves `exit_code` as
it was. -/
theorem stopped_fetch_is_no_transport_error (result : Nat) (w : world)
    (hs : w.fetch.stopped = true) (h6 : result ≠ CURLE_COULDNT_RESOLVE_HOST)
    (h7 : result ≠ CURLE_COULDNT_CONNECT) :
    (io_drain result w).exit_code = w.exit_code := by
  rw [(io_drain_frame result w).2.2.2.2.2, if_neg]
  rintro (h | h | h)
  · exact h6 h
  · exact h7 h
  · rw [hs] at h
    cases h.2

/-- C14 (amended) at a sample input: the stopped fetch of the output governor
with the result `CURLE_WRITE_ERROR`. -/
theorem stopped_fetch_is_no_transport_error_witness :
    (io_drain CURLE_WRITE_ERROR stopped_world).exit_code = stopped_world.exit_code :=
  stopped_fetch_is_no_transport_error CURLE_WRITE_ERROR stopped_world rfl (by decide)
    (by decide)

/-- C14 as stated fails: for the result codes of a host-resolution and of a
connection failure `io_drain` sets `exit_code` to 1 although the fetch is
flagged stopped. -/
theorem stopped_fetch_with_resolve_failure :
    stopped_world.fetch.stopped = true ∧ stopped_world.exit_code = 0 ∧
    (io_drain CURLE_COULDNT_RESOLVE_HOST stopped_world).exit_code = 1 ∧
    (io_drain CURLE_COULDNT_CONNECT stopped_world).exit_code = 1 := by
  decide

theorem drain_rcode_query (w : world) :
    (drain_rcode w).query = w.query ∧ (drain_rcode w).writer = w.writer ∧
    (drain_rcode w).aborted = w.aborted ∧ (drain_rcode w).linked = w.linked ∧
    (drain_rcode w).stderr = w.stderr := by
  unfold drain_rcode
  split_ifs
  · cases w.fetch.easy <;> exact ⟨rfl, rfl, rfl, rfl, rfl⟩
  · exact ⟨rfl, rfl, rfl, rfl, rfl⟩

theorem classify_query (result : Nat) (w : world) :
    (classify result w).query = w.query ∧ (classify result w).writer = w.writer ∧
    (classify result w).aborted = w.aborted ∧ (classify result w).linked = w.linked := by
  unfold classify
  split_ifs <;> exact ⟨rfl, rfl, rfl, rfl⟩

theorem query_done_query (w : world) :
    (query_done w).query = w.query ∧ (query_done w).aborted = w.aborted ∧
    (query_done w).linked = w.linked ∧ (query_done w).fetch = w.fetch ∧
    (query_done w).reaped = w.reaped := by
  unfold query_done
  split_ifs
  · exact ⟨rfl, rfl, rfl, rfl, rfl⟩
  · exact ⟨rfl, rfl, rfl, rfl, rfl⟩
  · exact ⟨rfl, rfl, rfl, rfl, rfl⟩
  · cases w.query.status <;> exact ⟨rfl, rfl, rfl, rfl, rfl⟩
  · exact ⟨rfl, rfl, rfl, rfl, rfl⟩

theorem fetch_release_query (w : world) : (fetch_release w).query = w.query := by
  have h := (query_done_query w).1
  unfold fetch_release
  split_ifs
  · exact h
  · exact h

theorem io_drain_query (result : Nat) (w : world) :
    (io_drain result w).query = (default_status (classify result (drain_rcode w))).query := by
  unfold io_drain
  split_ifs
  · rfl
  · exact fetch_release_query _

/-- C19: the default status on completion.  When `io_drain` handles a
completed transfer with `writer.count` 0 and the status pair of the query
unset, the pair becomes ("NOERROR", "no results found for query."); when the
count is not 0 or a status is already set, the pair is left as it was. -/
theorem default_status_on_completion (result : Nat) (w : world) :
    (w.writer.count = 0 → w.query.status = none → w.query.message = none →
      (io_drain result w).query.status = some status_noerror ∧
      (io_drain result w).query.message = some "no results found for query.") ∧
    (w.writer.count ≠ 0 ∨ w.query.status ≠ none →
      (io_drain result w).query.status = w.query.status ∧
      (io_drain result w).query.message = w.query.message) := by
  have hq : (classify result (drain_rcode w)).query = w.query :=
    (classify_query result _).1.trans (drain_rcode_query w).1
  have hw : (classify result (drain_rcode w)).writer = w.writer :=
    (classify_query result _).2.1.trans (drain_rcode_query w).2.1
  rw [io_drain_query]
  unfold default_status
  rw [hq, hw]
  constructor
  · intro hc hs hm
    have hcond : w.writer.count = 0 ∧ w.query.status.isNone = true := ⟨hc, by rw [hs]; rfl⟩
    rw [if_pos hcond]
    unfold query_status
    rw [hq, hs, hm]
    simp
  · intro h
    have hcond : ¬ (w.writer.count = 0 ∧ w.query.status.isNone = true) := by
      rintro ⟨hc, hs⟩
      rcases h with h | h
      · exact h hc
      · cases hst : w.query.status with
        | none => exact h hst
        | some x => rw [hst] at hs; cases hs
    rw [if_neg hcond, hq]
    exact ⟨rfl, rfl⟩

/-- C19 at sample inputs: a fetch that produced nothing gets the default
status, the fetch of the output governor (count 2) gets none. -/
theorem default_status_on_completion_witness :
    (io_drain CURLE_OK (sample_world (-1))).query.status = some status_noerror ∧
    (io_drain CURLE_OK (sample_world (-1))).query.message =
      some "no results found for query." ∧
    (io_drain CURLE_WRITE_ERROR stopped_world).query.status = stopped_world.query.status ∧
    (io_drain CURLE_WRITE_ERROR stopped_world).query.message =
      stopped_world.query.message :=
  ⟨((default_status_on_completion CURLE_OK (sample_world (-1))).1 rfl rfl rfl).1,
   ((default_status_on_completion CURLE_OK (sample_world (-1))).1 rfl rfl rfl).2,
   ((default_status_on_completion CURLE_WRITE_ERROR stopped_world).2
      (Or.inl (by decide))).1,
   ((default_status_on_completion CURLE_WRITE_ERROR stopped_world).2
      (Or.inl (by decide))).2⟩


/-! ## The decoder leaves the status pair alone -/

theorem cond_chain_pair (w : world) (c : String) :
    (cond_chain w c).1.query.status = w.query.status ∧
    (cond_chain w c).1.query.message = w.query.message := by
  unfold cond_chain
  split_ifs <;> exact ⟨rfl, rfl⟩

theorem take_cond_pair (w : world) (tup : pdns_tuple) :
    (take_cond w tup).1.query.status = w.query.status ∧
    (take_cond w tup).1.query.message = w.query.message := by
  unfold take_cond
  cases tup.cond with
  | none => exact ⟨rfl, rfl⟩
  | some c => exact cond_chain_pair w c

theorem take_msg_pair (w : world) (tup : pdns_tuple) :
    (take_msg w tup).query.status = w.query.status ∧
    (take_msg w tup).query.message = w.query.message := by
  unfold take_msg
  cases tup.msg <;> exact ⟨rfl, rfl⟩

theorem data_blob_tuple_pair (w : world) (tup : pdns_tuple) (rec : List Char) :
    (data_blob_tuple w tup rec).1.query.status = w.query.status ∧
    (data_blob_tuple w tup rec).1.query.message = w.query.message := by
  have hc := take_cond_pair (take_msg w tup) tup
  have hm := take_msg_pair w tup
  have base : (take_cond (take_msg w tup) tup).1.query.status = w.query.status ∧
      (take_cond (take_msg w tup) tup).1.query.message = w.query.message :=
    ⟨hc.1.trans hm.1, hc.2.trans hm.2⟩
  have hq := (present_frame (take_cond (take_msg w tup) tup).1 tup rec).2.2.1
  unfold data_blob_tuple
  simp only []
  split_ifs
  · exact base
  · exact base
  · exact ⟨(congrArg (fun q => q.status) hq).trans base.1,
      (congrArg (fun q => q.message) hq).trans base.2⟩

theorem data_blob_pair (jl : List Char → Option json_t) (w : world) (rec : List Char) :
    (data_blob jl w rec).1.query.status = w.query.status ∧
    (data_blob jl w rec).1.query.message = w.query.message := by
  unfold data_blob
  cases tuple_make jl rec with
  | aborted => exact ⟨rfl, rfl⟩
  | ouch msg => exact ⟨rfl, rfl⟩
  | made tup => exact data_blob_tuple_pair (note_blob w rec) tup rec

theorem decode_record_pair (jl : List Char → Option json_t) (w : world) (rec : List Char) :
    (decode_record jl w rec).query.status = w.query.status ∧
    (decode_record jl w rec).query.message = w.query.message := by
  have h := data_blob_pair jl w rec
  unfold decode_record
  simp only []
  split_ifs
  · exact h
  · cases (data_blob jl w rec).1.query.saf_cond <;> exact h

theorem record_step_pair (jl : List Char → Option json_t) (s : world × Nat)
    (rec : List Char) :
    (record_step jl s rec).1.query.status = s.1.query.status ∧
    (record_step jl s rec).1.query.message = s.1.query.message := by
  unfold record_step deblock_record
  split_ifs
  · exact ⟨rfl, rfl⟩
  · exact ⟨rfl, rfl⟩
  · exact decode_record_pair jl s.1 rec

theorem records_pair (jl : List Char → Option json_t) (segs : List (List Char))
    (s : world × Nat) :
    (records jl s segs).1.query.status = s.1.query.status ∧
    (records jl s segs).1.query.message = s.1.query.message := by
  induction segs generalizing s with
  | nil => exact ⟨rfl, rfl⟩
  | cons rec more ih =>
    rw [records_cons]
    have h := ih (record_step jl s rec)
    have h1 := record_step_pair jl s rec
    exact ⟨h.1.trans h1.1, h.2.trans h1.2⟩

/-- On a 200 response the transfer leaves the status pair of the query as it
was. -/
theorem transfer_pair (jl : List Char → Option json_t) (final : Nat) (cs : List (List Char))
    (w : world) (ha : w.aborted = false) (hok : fetch_ok w.fetch = true)
    (hn : '\n' ∉ w.fetch.buf) :
    (transfer jl final cs w).1.query.status = w.query.status ∧
    (transfer jl final cs w).1.query.message = w.query.message := by
  have ht := (transfer_frame jl final cs w ha hok hn).1
  have hf := (feed_frame jl cs w ha hok hn).1
  have e := ht.trans hf
  have hr := records_pair jl (split_lines (w.fetch.buf ++ cs.flatten)).1 (w, 0)
  exact ⟨(congrArg (fun v => v.query.status) e).trans hr.1,
    (congrArg (fun v => v.query.message) e).trans hr.2⟩


/-! ## C15: the exit status -/

theorem query_status_pair_consistent (w : world) (st me : String) :
    pair_consistent (query_status w st me).query = true ∨
    (query_status w st me).query = w.query := by
  unfold query_status
  split_ifs
  · exact Or.inl rfl
  · exact Or.inr rfl

theorem default_status_pair_consistent (w : world) (h : pair_consistent w.query = true) :
    pair_consistent (default_status w).query = true := by
  unfold default_status
  split_ifs
  · rcases query_status_pair_consistent w status_noerror "no results found for query."
      with k | k
    · exact k
    · rw [k]
      exact h
  · exact h

theorem io_drain_pair_consistent (result : Nat) (w : world)
    (h : pair_consistent w.query = true) : pair_consistent (io_drain result w).query = true := by
  rw [io_drain_query]
  apply default_status_pair_consistent
  rw [(classify_query result _).1, (drain_rcode_query w).1]
  exact h

theorem writer_fini_frame (w : world) :
    (writer_fini w).exit_code = w.exit_code ∧ (writer_fini w).query = w.query ∧
    (pair_consistent w.query = true → (writer_fini w).aborted = w.aborted) := by
  have hcon : pair_consistent w.query = true →
      w.query.status.isSome = w.query.message.isSome := by
    intro hp
    unfold pair_consistent at hp
    cases hs : w.query.status <;> cases hm : w.query.message <;>
      simp [hs, hm] at hp ⊢
  unfold writer_fini
  dsimp only
  split_ifs with h1 h2 h3 h4 h5
  · exact ⟨rfl, rfl, fun _ => rfl⟩
  · exact ⟨rfl, rfl, fun hp => absurd (hcon hp) h3⟩
  · exact ⟨rfl, rfl, fun _ => rfl⟩
  · exact ⟨rfl, rfl, fun hp => absurd (hcon hp) h4⟩
  · exact ⟨rfl, rfl, fun _ => rfl⟩
  · exact ⟨rfl, rfl, fun hp => absurd (hcon hp) h5⟩

/-- C15: the exit status.  `io_drain` sets `exit_code` to 1 for a
host-resolution failure, for a connection failure and for any other result
but `CURLE_OK` on a fetch that is not flagged stopped, and leaves it as it was
otherwise.  A run on a 200 response that gets to the end of `main`, whose
transfer ends with `CURLE_OK` or is stopped on purpose, exits with status 0,
whatever protocol state the query ends in (self-limited, limited, failed
among them). -/
theorem exit_status_rule (result : Nat) (v : world) (jl : List Char → Option json_t)
    (qd : qdesc) (quiet : Bool) (easy : CURL) (final : Nat) (chunks : List (List Char))
    (presentation : present_e)
    (hcheck : time_range_check qd = none) (hcode : easy.response_code = 200)
    (hrun : (run_fetch jl final chunks
      (launch_world (default_output_limit qd) quiet easy presentation)).aborted = false)
    (hres : final = CURLE_OK ∨
      ((transfer jl final chunks
          (launch_world (default_output_limit qd) quiet easy presentation)).1.fetch.stopped
            = true ∧
        final ≠ CURLE_COULDNT_RESOLVE_HOST ∧ final ≠ CURLE_COULDNT_CONNECT)) :
    (io_drain result v).exit_code =
      (if result = CURLE_COULDNT_RESOLVE_HOST ∨ result = CURLE_COULDNT_CONNECT ∨
          (result ≠ CURLE_OK ∧ v.fetch.stopped = false) then 1
      else v.exit_code) ∧
    exit_status (main_tail jl qd none quiet easy final chunks presentation) = some 0 := by
  refine ⟨(io_drain_frame result v).2.2.2.2.2, ?_⟩
  have ha : (launch_world (default_output_limit qd) quiet easy presentation).aborted = false := rfl
  have hok : fetch_ok (launch_world (default_output_limit qd) quiet easy presentation).fetch = true := by
    simp [fetch_ok, launch_world, hcode, HTTP_OK]
  have hn : '\n' ∉ (launch_world (default_output_limit qd) quiet easy presentation).fetch.buf := by
    simp [launch_world]
  have ht := transfer_frame jl final chunks _ ha hok hn
  have hf := (feed_frame jl chunks _ ha hok hn).1
  have hp := transfer_pair jl final chunks _ ha hok hn
  have hT : (transfer jl final chunks
      (launch_world (default_output_limit qd) quiet easy presentation)).1.aborted = false := by
    by_contra hx
    have hx2 : (transfer jl final chunks
        (launch_world (default_output_limit qd) quiet easy presentation)).1.aborted = true := by
      simpa using hx
    have e : run_fetch jl final chunks (launch_world (default_output_limit qd) quiet easy presentation) =
        (transfer jl final chunks (launch_world (default_output_limit qd) quiet easy presentation)).1 := by
      simp [run_fetch, hx2]
    rw [e, hx2] at hrun
    cases hrun
  have hrf : run_fetch jl final chunks (launch_world (default_output_limit qd) quiet easy presentation) =
      io_drain (transfer jl final chunks (launch_world (default_output_limit qd) quiet easy presentation)).2
        (transfer jl final chunks (launch_world (default_output_limit qd) quiet easy presentation)).1 := by
    simp [run_fetch, hT]
  have hex0 : (transfer jl final chunks
      (launch_world (default_output_limit qd) quiet easy presentation)).1.exit_code = 0 := by
    have e := ht.1.trans hf
    have e2 : (transfer jl final chunks
        (launch_world (default_output_limit qd) quiet easy presentation)).1.exit_code =
        (records jl (launch_world (default_output_limit qd) quiet easy presentation, 0) _).1.exit_code :=
      congrArg (fun x => x.exit_code) e
    rw [e2, (records_frame jl _ _).2.2.2.2]
    rfl
  have hcons : pair_consistent (transfer jl final chunks
      (launch_world (default_output_limit qd) quiet easy presentation)).1.query = true := by
    unfold pair_consistent
    rw [hp.1, hp.2]
    rfl
  have hexit : (run_fetch jl final chunks
      (launch_world (default_output_limit qd) quiet easy presentation)).exit_code = 0 := by
    rw [hrf, (io_drain_frame _ _).2.2.2.2.2, hex0, if_neg]
    rintro (h | h | h)
    · rcases ht.2 with k | k
      · rw [k.1] at h
        revert h
        decide
      · rw [k.1] at h
        rcases hres with r | r
        · rw [r] at h
          revert h
          decide
        · exact r.2.1 h
    · rcases ht.2 with k | k
      · rw [k.1] at h
        revert h
        decide
      · rw [k.1] at h
        rcases hres with r | r
        · rw [r] at h
          revert h
          decide
        · exact r.2.2 h
    · rcases ht.2 with k | k
      · rw [k.2.1.2.2] at h
        cases h.2
      · rw [k.1] at h
        rcases hres with r | r
        · exact h.1 r
        · rw [r.1] at h
          cases h.2
  have hcons2 : pair_consistent (run_fetch jl final chunks
      (launch_world (default_output_limit qd) quiet easy presentation)).query = true := by
    rw [hrf]
    exact io_drain_pair_consistent _ _ hcons
  have hwf := writer_fini_frame (run_fetch jl final chunks
    (launch_world (default_output_limit qd) quiet easy presentation))
  have hmain : main_tail jl qd none quiet easy final chunks presentation =
      main_result.finished (writer_fini (run_fetch jl final chunks
        (launch_world (default_output_limit qd) quiet easy presentation))) := by
    simp [main_tail, time_range_check_default, hcheck, hrun]
  rw [hmain]
  unfold exit_status
  simp only [hwf.2.2 hcons2, hrun, hwf.1, hexit]
  rfl

set_option maxRecDepth 1000000 in
/-- C15 at a sample input: the run with output limit 2 that ends
self-limited.  The last three conjuncts are a run the rule does not cover:
with the batch presenter the stream begin, an obj with neither rrname nor
rdata, succeeded does not get to the end of `main`, the presenter ends the
process in `my_panic` with exit status 1; with the JSON presenter the same
stream ends with exit status 0. -/
theorem exit_status_rule_witness :
    (io_drain CURLE_WRITE_ERROR stopped_world).exit_code =
      (if CURLE_WRITE_ERROR = CURLE_COULDNT_RESOLVE_HOST ∨
          CURLE_WRITE_ERROR = CURLE_COULDNT_CONNECT ∨
          (CURLE_WRITE_ERROR ≠ CURLE_OK ∧ stopped_world.fetch.stopped = false) then 1
      else stopped_world.exit_code) ∧
    exit_status (main_tail sample_loadb { output_limit := 2 } none false
      { response_code := 200 } CURLE_OK sample_chunks pres_json) = some 0 ∧
    (final_state (main_tail sample_loadb { output_limit := 2 } none false
      { response_code := 200 } CURLE_OK sample_chunks pres_json)).map
        (fun w => w.query.saf_cond) = some sc_we_limited ∧
    (run_fetch bare_loadb CURLE_OK [frame [line_begin, line_bare_obj, line_succeeded] []]
      (launch_world (default_output_limit { }) false { response_code := 200 }
        pres_batch)).aborted = true ∧
    exit_status (main_tail bare_loadb { } none false { response_code := 200 } CURLE_OK
      [frame [line_begin, line_bare_obj, line_succeeded] []] pres_batch) = some 1 ∧
    exit_status (main_tail bare_loadb { } none false { response_code := 200 } CURLE_OK
      [frame [line_begin, line_bare_obj, line_succeeded] []] pres_json) = some 0 :=
  ⟨(exit_status_rule CURLE_WRITE_ERROR stopped_world sample_loadb { output_limit := 2 } false
      { response_code := 200 } CURLE_OK sample_chunks pres_json rfl rfl (by decide)
      (Or.inl rfl)).1,
    (exit_status_rule CURLE_WRITE_ERROR stopped_world sample_loadb { output_limit := 2 } false
      { response_code := 200 } CURLE_OK sample_chunks pres_json rfl rfl (by decide)
      (Or.inl rfl)).2,
    by decide, by decide, by decide, by decide⟩


/-! ## The error path of writer_func -/

theorem writer_func_error (jl : List Char → Option json_t) (ptr : List Char) (w : world)
    (easy : CURL) (he : w.fetch.easy = some easy) (h : fetch_error w.fetch = true) :
    writer_func jl ptr w =
      (error_report easy (set_io w (w.fetch.buf ++ ptr) (seen_rcode w.fetch)), ptr.length) := by
  rcases w with ⟨⟨easy0, buf, rcode, stopped⟩, q, wr, li, re, ec, qu, bl, pr, se, ab, pz, en⟩
  cases he
  have h2 : ¬ (if rcode = 0 then easy.response_code else rcode) = HTTP_OK := by
    simpa [fetch_error] using h
  by_cases h0 : rcode = 0
  · rw [if_pos h0] at h2
    simp [writer_func, seen_rcode, set_io, h0, h2]
  · rw [if_neg h0] at h2
    simp [writer_func, seen_rcode, set_io, h0, h2]

theorem error_report_any (easy : CURL) (w : world) (ha : w.aborted = false)
    (hp : pair_consistent w.query = true) :
    (error_report easy w).query = captured w.query w.fetch.buf w.fetch.rcode ∧
    (error_report easy w).writer = w.writer ∧
    (error_report easy w).blobs = w.blobs ∧
    (error_report easy w).presented = w.presented ∧
    (error_report easy w).linked = w.linked ∧
    (error_report easy w).reaped = w.reaped ∧
    (error_report easy w).exit_code = w.exit_code ∧
    (error_report easy w).quiet = w.quiet ∧
    (error_report easy w).presenter = w.presenter ∧
    (w.fetch.buf ≠ [] → (error_report easy w).ended = w.ended) ∧
    (w.fetch.buf = [] → (error_report easy w).aborted = true ∧
      (error_report easy w).ended = some by_store) := by
  rcases w with ⟨⟨easy0, buf, rcode, stopped⟩, ⟨st, me, sc, sm⟩, wr, li, re, ec, qu, bl, pr, se,
    ab, pz, en⟩
  cases ha
  cases buf <;> cases st <;> cases me <;> cases qu <;>
    simp [pair_consistent] at hp <;>
    simp [error_report, query_status, captured, error_message, first_line, log_stderr,
      dnsdb_status]

theorem error_report_spec (easy : CURL) (w : world) (ha : w.aborted = false)
    (hp : pair_consistent w.query = true) (hb : w.fetch.buf ≠ []) :
    (error_report easy w).aborted = false ∧
    (error_report easy w).fetch =
      { w.fetch with buf := [] } ∧
    (error_report easy w).query = captured w.query w.fetch.buf w.fetch.rcode ∧
    (error_report easy w).writer = w.writer ∧
    (error_report easy w).blobs = w.blobs ∧
    (error_report easy w).presented = w.presented ∧
    (error_report easy w).linked = w.linked ∧
    (error_report easy w).reaped = w.reaped ∧
    (error_report easy w).exit_code = w.exit_code ∧
    (error_report easy w).quiet = w.quiet := by
  rcases w with ⟨⟨easy0, buf, rcode, stopped⟩, ⟨st, me, sc, sm⟩, wr, li, re, ec, qu, bl, pr, se,
    ab, pz, en⟩
  cases ha
  cases buf with
  | nil => exact absurd rfl hb
  | cons c cs =>
    cases st <;> cases me <;> cases qu <;>
      simp [pair_consistent] at hp <;>
      simp [error_report, query_status, captured, error_message, first_line, log_stderr,
        dnsdb_status]


theorem captured_status (q : query) (body : List Char) (code : Int) :
    (captured q body code).status ≠ none := by
  unfold captured
  cases h : q.status with
  | none => simp
  | some s => simp [h]

theorem captured_of_status (q : query) (body : List Char) (code : Int)
    (h : q.status ≠ none) : captured q body code = q := by
  unfold captured
  cases hs : q.status with
  | none => exact absurd hs h
  | some s => simp

theorem captured_pair_consistent (q : query) (body : List Char) (code : Int)
    (h : pair_consistent q = true) : pair_consistent (captured q body code) = true := by
  unfold captured
  cases hs : q.status with
  | none => simp [pair_consistent]
  | some s => simpa using h

theorem fetch_error_seen (f : fetch) (b : List Char) (h : fetch_error f = true) :
    fetch_error { f with buf := b, rcode := seen_rcode f } = true := by
  rcases f with ⟨easy, buf, rcode, stopped⟩
  cases easy with
  | none => simp [fetch_error] at h
  | some easy =>
    have h2 : ¬ (if rcode = 0 then easy.response_code else rcode) = HTTP_OK := by
      simpa [fetch_error] using h
    by_cases h0 : rcode = 0
    · rw [if_pos h0] at h2
      by_cases h1 : easy.response_code = 0
      · simp [fetch_error, seen_rcode, h0, h1, HTTP_OK]
      · simp [fetch_error, seen_rcode, h0, h1, h2]
    · rw [if_neg h0] at h2
      simp [fetch_error, seen_rcode, h0, h2]

/-- One call of `writer_func` on an error response, for every chunk: what
is written and what is left alone; the call returns unless the buffer and
the chunk are both empty. -/
theorem writer_func_error_any (jl : List Char → Option json_t) (ptr : List Char) (w : world)
    (ha : w.aborted = false) (he : fetch_error w.fetch = true)
    (hp : pair_consistent w.query = true) :
    (writer_func jl ptr w).2 = ptr.length ∧
    (writer_func jl ptr w).1.query =
      captured w.query (w.fetch.buf ++ ptr) (seen_rcode w.fetch) ∧
    pair_consistent (writer_func jl ptr w).1.query = true ∧
    (writer_func jl ptr w).1.blobs = w.blobs ∧
    (writer_func jl ptr w).1.presented = w.presented ∧
    (writer_func jl ptr w).1.writer = w.writer ∧
    (writer_func jl ptr w).1.linked = w.linked ∧
    (writer_func jl ptr w).1.exit_code = w.exit_code ∧
    (writer_func jl ptr w).1.presenter = w.presenter ∧
    (w.fetch.buf ++ ptr ≠ [] → (writer_func jl ptr w).1.ended = w.ended) ∧
    (w.fetch.buf ++ ptr = [] → (writer_func jl ptr w).1.aborted = true ∧
      (writer_func jl ptr w).1.ended = some by_store) := by
  cases hq : w.fetch.easy with
  | none => simp [fetch_error, hq] at he
  | some easy =>
    rw [writer_func_error jl ptr w easy hq he]
    have hs := error_report_any easy (set_io w (w.fetch.buf ++ ptr) (seen_rcode w.fetch)) ha hp
    refine ⟨rfl, hs.1, ?_, hs.2.2.1, hs.2.2.2.1, hs.2.1, hs.2.2.2.2.1, hs.2.2.2.2.2.2.1,
      hs.2.2.2.2.2.2.2.2.1, hs.2.2.2.2.2.2.2.2.2.1, hs.2.2.2.2.2.2.2.2.2.2⟩
    dsimp only
    rw [hs.1]
    exact captured_pair_consistent _ _ _ hp

/-- One call of `writer_func` on an error response, when the buffer and the
chunk are not both empty. -/
theorem writer_func_error_step (jl : List Char → Option json_t) (ptr : List Char) (w : world)
    (ha : w.aborted = false) (he : fetch_error w.fetch = true)
    (hp : pair_consistent w.query = true) (hne : w.fetch.buf ++ ptr ≠ []) :
    (writer_func jl ptr w).2 = ptr.length ∧
    (writer_func jl ptr w).1.aborted = false ∧
    fetch_error (writer_func jl ptr w).1.fetch = true ∧
    pair_consistent (writer_func jl ptr w).1.query = true ∧
    (writer_func jl ptr w).1.fetch.buf = [] ∧
    (writer_func jl ptr w).1.query =
      captured w.query (w.fetch.buf ++ ptr) (seen_rcode w.fetch) ∧
    (writer_func jl ptr w).1.blobs = w.blobs ∧
    (writer_func jl ptr w).1.presented = w.presented ∧
    (writer_func jl ptr w).1.writer = w.writer ∧
    (writer_func jl ptr w).1.linked = w.linked ∧
    (writer_func jl ptr w).1.exit_code = w.exit_code ∧
    (writer_func jl ptr w).1.fetch.stopped = w.fetch.stopped := by
  cases hq : w.fetch.easy with
  | none => simp [fetch_error, hq] at he
  | some easy =>
    rw [writer_func_error jl ptr w easy hq he]
    have hs := error_report_spec easy (set_io w (w.fetch.buf ++ ptr) (seen_rcode w.fetch)) ha hp
      hne
    refine ⟨rfl, hs.1, ?_, ?_, ?_, hs.2.2.1, hs.2.2.2.2.1, hs.2.2.2.2.2.1, hs.2.2.2.1,
      hs.2.2.2.2.2.2.1, hs.2.2.2.2.2.2.2.2.1, ?_⟩
    · dsimp only
      rw [hs.2.1]
      exact fetch_error_seen w.fetch [] he
    · dsimp only
      rw [hs.2.2.1]
      exact captured_pair_consistent _ _ _ hp
    · dsimp only
      rw [hs.2.1]
    · dsimp only
      rw [hs.2.1]
      rfl

/-- Every chunk of an error response, in order, when no chunk is empty. -/
theorem feed_error (jl : List Char → Option json_t) (final : Nat) (chunks : List (List Char)) :
    ∀ w : world, w.aborted = false → fetch_error w.fetch = true →
      pair_consistent w.query = true → (∀ c ∈ chunks, c ≠ []) →
      (feed jl chunks w).aborted = false ∧
      fetch_error (feed jl chunks w).fetch = true ∧
      pair_consistent (feed jl chunks w).query = true ∧
      (feed jl chunks w).blobs = w.blobs ∧
      (feed jl chunks w).presented = w.presented ∧
      (feed jl chunks w).writer = w.writer ∧
      (feed jl chunks w).linked = w.linked ∧
      (feed jl chunks w).exit_code = w.exit_code ∧
      (feed jl chunks w).fetch.stopped = w.fetch.stopped ∧
      (w.query.status ≠ none → (feed jl chunks w).query = w.query) ∧
      (chunks ≠ [] → (feed jl chunks w).fetch.buf = []) ∧
      transfer jl final chunks w = (feed jl chunks w, final) := by
  induction chunks with
  | nil =>
    intro w ha he hp _
    exact ⟨ha, he, hp, rfl, rfl, rfl, rfl, rfl, rfl, fun _ => rfl, fun h => absurd rfl h, rfl⟩
  | cons ptr rest ih =>
    intro w ha he hp hc
    have hptr : ptr ≠ [] := hc ptr (List.mem_cons_self _ _)
    have hne : w.fetch.buf ++ ptr ≠ [] := by
      intro h
      exact hptr (List.append_eq_nil.mp h).2
    have hs := writer_func_error_step jl ptr w ha he hp hne
    have e : feed jl (ptr :: rest) w = feed jl rest (writer_func jl ptr w).1 := by
      simp [feed, deliver, ha]
    have ht : transfer jl final (ptr :: rest) w =
        transfer jl final rest (writer_func jl ptr w).1 := by
      simp [transfer, hs.1, hs.2.1]
    have hi := ih (writer_func jl ptr w).1 hs.2.1 hs.2.2.1 hs.2.2.2.1
      (fun c hm => hc c (List.mem_cons_of_mem _ hm))
    rw [e, ht]
    refine ⟨hi.1, hi.2.1, hi.2.2.1, hi.2.2.2.1.trans hs.2.2.2.2.2.2.1,
      hi.2.2.2.2.1.trans hs.2.2.2.2.2.2.2.1, hi.2.2.2.2.2.1.trans hs.2.2.2.2.2.2.2.2.1,
      hi.2.2.2.2.2.2.1.trans hs.2.2.2.2.2.2.2.2.2.1,
      hi.2.2.2.2.2.2.2.1.trans hs.2.2.2.2.2.2.2.2.2.2.1,
      hi.2.2.2.2.2.2.2.2.1.trans hs.2.2.2.2.2.2.2.2.2.2.2, ?_, ?_, hi.2.2.2.2.2.2.2.2.2.2.2⟩
    · intro hst
      have h1 : (writer_func jl ptr w).1.query = w.query := by
        rw [hs.2.2.2.2.2.1]
        exact captured_of_status _ _ _ hst
      rw [hi.2.2.2.2.2.2.2.2.2.1 (by rw [h1]; exact hst), h1]
    · intro _
      cases rest with
      | nil => exact hs.2.2.2.2.1
      | cons p r => exact hi.2.2.2.2.2.2.2.2.2.2.1 (by simp)

/-! ## C16: an error response is captured once -/

/-- Capture-once for chunks that carry octets.  For a live fetch whose
response code is not 200, on a process that has not ended and a query whose
status pair is consistent: after every sequence of non-empty chunks
`first :: rest` the status and the message of the query are the ones the
call on `first` left, and a status is recorded by then; a call on a query
that has a status leaves the query as it is; every call on a non-empty
chunk, after any non-empty chunks, returns the full chunk size, leaves the
receive buffer with length 0, hands no record to `data_blob` and calls no
presenter; and the transfer runs through all the chunks. -/
theorem error_chunks_captured_once (jl : List Char → Option json_t) (final : Nat)
    (first : List Char) (rest : List (List Char)) (w : world)
    (ha : w.aborted = false) (he : fetch_error w.fetch = true)
    (hp : pair_consistent w.query = true)
    (hc : ∀ c ∈ first :: rest, c ≠ []) :
    (feed jl (first :: rest) w).query.status = (writer_func jl first w).1.query.status ∧
    (feed jl (first :: rest) w).query.message = (writer_func jl first w).1.query.message ∧
    (writer_func jl first w).1.query.status ≠ none ∧
    (writer_func jl first w).1.query.message ≠ none ∧
    (∀ (chunks : List (List Char)) (ptr : List Char), (∀ c ∈ chunks, c ≠ []) →
      (feed jl chunks w).query.status ≠ none →
        (writer_func jl ptr (feed jl chunks w)).1.query = (feed jl chunks w).query) ∧
    (∀ (chunks : List (List Char)) (ptr : List Char), (∀ c ∈ chunks, c ≠ []) → ptr ≠ [] →
      (writer_func jl ptr (feed jl chunks w)).2 = ptr.length ∧
      (writer_func jl ptr (feed jl chunks w)).1.fetch.buf.length = 0 ∧
      (writer_func jl ptr (feed jl chunks w)).1.blobs = w.blobs ∧
      (writer_func jl ptr (feed jl chunks w)).1.presented = w.presented ∧
      (writer_func jl ptr (feed jl chunks w)).1.aborted = false) ∧
    transfer jl final (first :: rest) w = (feed jl (first :: rest) w, final) := by
  have hfirst : first ≠ [] := hc first (List.mem_cons_self _ _)
  have hrest : ∀ c ∈ rest, c ≠ [] := fun c hm => hc c (List.mem_cons_of_mem _ hm)
  have hne : ∀ (v : world) (p : List Char), p ≠ [] → v.fetch.buf ++ p ≠ [] := by
    intro v p h0 h
    exact h0 (List.append_eq_nil.mp h).2
  have hs := writer_func_error_step jl first w ha he hp (hne w first hfirst)
  have e : feed jl (first :: rest) w = feed jl rest (writer_func jl first w).1 := by
    simp [feed, deliver, ha]
  have hst : (writer_func jl first w).1.query.status ≠ none := by
    rw [hs.2.2.2.2.2.1]
    exact captured_status _ _ _
  have hme : (writer_func jl first w).1.query.message ≠ none := by
    intro hm
    have hc := hs.2.2.2.1
    unfold pair_consistent at hc
    rw [hm] at hc
    cases hx : (writer_func jl first w).1.query.status with
    | none => exact hst hx
    | some s => simp [hx] at hc
  have hi := feed_error jl final rest (writer_func jl first w).1 hs.2.1 hs.2.2.1 hs.2.2.2.1
    hrest
  have hq := hi.2.2.2.2.2.2.2.2.2.1 hst
  refine ⟨?_, ?_, hst, hme, ?_, ?_,
    (feed_error jl final (first :: rest) w ha he hp hc).2.2.2.2.2.2.2.2.2.2.2⟩
  · rw [e, hq]
  · rw [e, hq]
  · intro chunks ptr hch hset
    have hf := feed_error jl final chunks w ha he hp hch
    have h1 := writer_func_error_any jl ptr (feed jl chunks w) hf.1 hf.2.1 hf.2.2.1
    rw [h1.2.1]
    exact captured_of_status _ _ _ hset
  · intro chunks ptr hch hptr
    have hf := feed_error jl final chunks w ha he hp hch
    have h1 := writer_func_error_step jl ptr (feed jl chunks w) hf.1 hf.2.1 hf.2.2.1
      (hne _ ptr hptr)
    refine ⟨h1.1, ?_, h1.2.2.2.2.2.2.1.trans hf.2.2.2.1,
      h1.2.2.2.2.2.2.2.1.trans hf.2.2.2.2.1, h1.2.1⟩
    rw [h1.2.2.2.2.1]
    rfl

/-- Capture-once at a sample input: a 403 response in two chunks; the message
of the first chunk stays. -/
theorem error_chunks_captured_once_sample :
    (feed sample_loadb [plain_body, html_body] (sample_world_code 403)).query.status =
      (writer_func sample_loadb plain_body (sample_world_code 403)).1.query.status ∧
    (feed sample_loadb [plain_body, html_body] (sample_world_code 403)).query.message =
      (writer_func sample_loadb plain_body (sample_world_code 403)).1.query.message ∧
    (feed sample_loadb [plain_body, html_body] (sample_world_code 403)).query.message =
      some "Error: Bad API key" :=
  ⟨(error_chunks_captured_once sample_loadb CURLE_OK plain_body [html_body]
      (sample_world_code 403) rfl (by decide) (by decide) (by decide)).1,
    (error_chunks_captured_once sample_loadb CURLE_OK plain_body [html_body]
      (sample_world_code 403) rfl (by decide) (by decide) (by decide)).2.1,
    by decide⟩

/-- C17 as stated fails: a response with the code 203, which is a 2xx code,
is taken for an error body by `writer_func`, whose test is
`fetch->rcode != HTTP_OK` with `HTTP_OK` 200: the chunk holding the data line
for a.example.com is not decoded, no presenter is called, the status "ERROR"
is recorded with the line as its message, and the bytes are dropped; the same
chunk of a 200 response is decoded and its record is presented. -/
theorem response_203_is_reported_as_error :
    (writer_func sample_loadb (frame [line_a] []) (sample_world_code 203)).1.blobs = [] ∧
    (writer_func sample_loadb (frame [line_a] []) (sample_world_code 203)).1.presented.length
      = 0 ∧
    (writer_func sample_loadb (frame [line_a] []) (sample_world_code 203)).1.query.status
      = some "ERROR" ∧
    (writer_func sample_loadb (frame [line_a] []) (sample_world_code 203)).1.query.message
      = some (String.mk line_a) ∧
    (writer_func sample_loadb (frame [line_a] []) (sample_world_code 203)).1.fetch.buf = [] ∧
    (writer_func sample_loadb (frame [line_a] []) (sample_world_code 200)).1.blobs = [line_a] ∧
    (writer_func sample_loadb (frame [line_a] []) (sample_world_code 200)).1.presented.map
      Prod.snd = [line_a] ∧
    (writer_func sample_loadb (frame [line_a] []) (sample_world_code 200)).1.query.status
      = none := by
  decide


/-- C17, as the code has it: `writer_func` takes a chunk for an error body
exactly when the response code is not 200.  For a live fetch on a process that has not ended
and a query whose status pair is consistent, with `seen_rcode w.fetch` the
response code as `writer_func` sees it (`fetch->rcode` if it is set, else
the code of the handle).  If the code is not 200: a status is recorded
afterwards (the pair `captured` gives), no record is handed to `data_blob`,
no presenter is called, the writer is left as it was, the full chunk size is
returned and, buffer and chunk not both empty, the call returns with the
buffer emptied.  If the code is 200: the call is the deblock loop, the world
is the one the newline-terminated segments of the appended buffer leave when
they are decoded in order, the status pair is left as it was, and when
decoding returns the bytes after the last newline stay in the buffer. -/
theorem error_body_iff_not_200 (jl : List Char → Option json_t) (ptr : List Char) (w : world)
    (easy : CURL) (hq : w.fetch.easy = some easy) (ha : w.aborted = false)
    (hp : pair_consistent w.query = true) :
    (seen_rcode w.fetch ≠ HTTP_OK →
      (writer_func jl ptr w).1.query.status ≠ none ∧
      (writer_func jl ptr w).1.query =
        captured w.query (w.fetch.buf ++ ptr) (seen_rcode w.fetch) ∧
      (writer_func jl ptr w).1.blobs = w.blobs ∧
      (writer_func jl ptr w).1.presented = w.presented ∧
      (writer_func jl ptr w).1.writer = w.writer ∧
      (writer_func jl ptr w).2 = ptr.length ∧
      (w.fetch.buf ++ ptr ≠ [] →
        (writer_func jl ptr w).1.fetch.buf = [] ∧ (writer_func jl ptr w).1.aborted = false)) ∧
    (seen_rcode w.fetch = HTTP_OK →
      obs (writer_func jl ptr w).1 =
        obs (records jl (w, ptr.length) (split_lines (w.fetch.buf ++ ptr)).1).1 ∧
      (writer_func jl ptr w).1.query.status = w.query.status ∧
      (writer_func jl ptr w).1.query.message = w.query.message ∧
      ((records jl (w, ptr.length) (split_lines (w.fetch.buf ++ ptr)).1).1.aborted = false →
        (writer_func jl ptr w).1.fetch.buf = (split_lines (w.fetch.buf ++ ptr)).2)) := by
  have hcode : seen_rcode w.fetch =
      (if w.fetch.rcode = 0 then easy.response_code else w.fetch.rcode) := by
    simp [seen_rcode, hq]
  constructor
  · intro hne
    have he : fetch_error w.fetch = true := by
      rw [hcode] at hne
      simp [fetch_error, hq, hne]
    have hs := writer_func_error_any jl ptr w ha he hp
    refine ⟨?_, hs.2.1, hs.2.2.2.1, hs.2.2.2.2.1, hs.2.2.2.2.2.1, hs.1, ?_⟩
    · rw [hs.2.1]
      exact captured_status _ _ _
    · intro hb
      have h1 := writer_func_error_step jl ptr w ha he hp hb
      exact ⟨h1.2.2.2.2.1, h1.2.1⟩
  · intro heq
    have hok : fetch_ok w.fetch = true := by
      rw [hcode] at heq
      simp [fetch_ok, hq, heq]
    have hf := writer_func_frame jl ptr w hok ha
    have hr := records_pair jl (split_lines (w.fetch.buf ++ ptr)).1 (w, ptr.length)
    refine ⟨hf.1, ?_, ?_, ?_⟩
    · exact (congrArg (fun v => v.query.status) hf.1).trans hr.1
    · exact (congrArg (fun v => v.query.message) hf.1).trans hr.2
    · intro hal
      rw [hf.2.2 hal]
      rfl

set_option maxRecDepth 1000000 in
/-- C17 at a sample input: the chunk with the data line for a.example.com, on
a response with the code 203 and on one with the code 200. -/
theorem error_body_iff_not_200_witness :
    (writer_func sample_loadb (frame [line_a] []) (sample_world_code 203)).1.query.status
      ≠ none ∧
    (writer_func sample_loadb (frame [line_a] []) (sample_world_code 203)).1.blobs = [] ∧
    (writer_func sample_loadb (frame [line_a] []) (sample_world_code 200)).1.query.status
      = none ∧
    (writer_func sample_loadb (frame [line_a] []) (sample_world_code 200)).1.fetch.buf = [] :=
  ⟨((error_body_iff_not_200 sample_loadb (frame [line_a] []) (sample_world_code 203)
      { response_code := 203 } rfl rfl (by decide)).1 (by decide)).1,
    ((error_body_iff_not_200 sample_loadb (frame [line_a] []) (sample_world_code 203)
      { response_code := 203 } rfl rfl (by decide)).1 (by decide)).2.2.1,
    ((error_body_iff_not_200 sample_loadb (frame [line_a] []) (sample_world_code 200)
      { response_code := 200 } rfl rfl (by decide)).2 (by decide)).2.1,
    ((error_body_iff_not_200 sample_loadb (frame [line_a] []) (sample_world_code 200)
      { response_code := 200 } rfl rfl (by decide)).2 (by decide)).2.2.2 (by decide)⟩

/-! ## C18: the message of an error response -/

theorem first_line_takeWhile_nul (body : List Char) (h : '\x00' ∉ first_line body) :
    first_line (body.takeWhile (fun c => c != '\x00')) = first_line body := by
  induction body with
  | nil => rfl
  | cons c cs ih =>
    by_cases hc : c = '\x00'
    · exfalso
      apply h
      rw [hc]
      have e0 : first_line ('\x00' :: cs) = '\x00' :: first_line cs := by
        simp [first_line, List.takeWhile_cons]
      rw [e0]
      exact List.mem_cons_self _ _
    · by_cases hp : (c != '\r' && c != '\n') = true
      · have hm : '\x00' ∉ first_line cs := by
          intro hx
          apply h
          simp only [first_line, List.takeWhile_cons, hp, if_true]
          exact List.mem_cons_of_mem _ hx
        have e1 : (c :: cs).takeWhile (fun c => c != '\x00') =
            c :: cs.takeWhile (fun c => c != '\x00') := by
          simp [List.takeWhile_cons, hc]
        rw [e1]
        simp only [first_line, List.takeWhile_cons, hp, if_true]
        congr 1
        exact ih hm
      · have e1 : (c :: cs).takeWhile (fun c => c != '\x00') =
            c :: cs.takeWhile (fun c => c != '\x00') := by
          simp [List.takeWhile_cons, hc]
        rw [e1]
        simp only [first_line, List.takeWhile_cons, hp]
        rfl

/-- C18, the input that separates code and claim: the first line of the body
of this 404 response is `<html>`, and the message recorded is
"HTTP Status 404". -/
theorem html_error_body_message :
    first_line html_body = "<html>".toList ∧
    (writer_func sample_loadb html_body (sample_world_code 404)).1.query.status
      = some "ERROR" ∧
    (writer_func sample_loadb html_body (sample_world_code 404)).1.query.message
      = some "HTTP Status 404" := by
  decide

/-- C18, as the code has it: for an error response on a query with no status
yet, `writer_func` records the status "ERROR" and the message
`error_message`: the buffered body up to its first NUL, cut at the first CR or
LF, or "HTTP Status" with the code when that line is `<html>` in any letter
case.  When the first line of the body holds no NUL and is not `<html>`, the
message is the first line of the body. -/
theorem error_message_recorded (jl : List Char → Option json_t) (ptr : List Char) (w : world)
    (ha : w.aborted = false) (he : fetch_error w.fetch = true)
    (hs : w.query.status = none) (hm : w.query.message = none) :
    (writer_func jl ptr w).1.query.status = some status_error ∧
    (writer_func jl ptr w).1.query.message =
      some (error_message (w.fetch.buf ++ ptr) (seen_rcode w.fetch)) ∧
    ('\x00' ∉ first_line (w.fetch.buf ++ ptr) →
      strcasecmp_eq (first_line (w.fetch.buf ++ ptr)) "<html>".toList = false →
      (writer_func jl ptr w).1.query.message =
        some (String.mk (first_line (w.fetch.buf ++ ptr)))) := by
  have hp : pair_consistent w.query = true := by
    simp [pair_consistent, hs, hm]
  have hq := (writer_func_error_any jl ptr w ha he hp).2.1
  have e : captured w.query (w.fetch.buf ++ ptr) (seen_rcode w.fetch) =
      { w.query with status := some status_error,
                     message := some (error_message (w.fetch.buf ++ ptr)
                       (seen_rcode w.fetch)) } := by
    simp [captured, hs]
  rw [hq, e]
  refine ⟨rfl, rfl, ?_⟩
  intro hn hh
  dsimp only
  unfold error_message
  rw [first_line_takeWhile_nul _ hn, hh]
  rfl

/-- C18 at a sample input: a 403 response with a plain body of two lines. -/
theorem error_message_recorded_witness :
    (writer_func sample_loadb plain_body (sample_world_code 403)).1.query.status
      = some status_error ∧
    (writer_func sample_loadb plain_body (sample_world_code 403)).1.query.message =
      some (error_message ((sample_world_code 403).fetch.buf ++ plain_body)
        (seen_rcode (sample_world_code 403).fetch)) ∧
    ('\x00' ∉ first_line ((sample_world_code 403).fetch.buf ++ plain_body) →
      strcasecmp_eq (first_line ((sample_world_code 403).fetch.buf ++ plain_body))
        "<html>".toList = false →
      (writer_func sample_loadb plain_body (sample_world_code 403)).1.query.message =
        some (String.mk (first_line ((sample_world_code 403).fetch.buf ++ plain_body)))) :=
  error_message_recorded sample_loadb plain_body (sample_world_code 403) rfl (by decide) rfl rfl


/-! ## C20: leftover bytes at the end of the stream -/

theorem query_status_without_leftover (w : world) (st me : String) :
    query_status (without_leftover w) st me = without_leftover (query_status w st me) := by
  unfold query_status
  by_cases h : w.query.status.isNone = w.query.message.isNone ∧ w.query.status.isNone
  · rw [if_pos h, if_pos (by exact h)]
    rfl
  · rw [if_neg h, if_neg (by exact h)]
    rfl

theorem drain_rcode_without_leftover (w : world) :
    drain_rcode (without_leftover w) = without_leftover (drain_rcode w) := by
  rcases w with ⟨⟨easy, buf, rcode, stopped⟩, q, wr, li, re, ec, qu, bl, pr, se, ab, pz, en⟩
  by_cases h : rcode = 0
  · cases easy <;> simp [drain_rcode, without_leftover, h]
  · simp [drain_rcode, without_leftover, h]

theorem classify_without_leftover (result : Nat) (w : world) :
    classify result (without_leftover w) = without_leftover (classify result w) := by
  unfold classify
  by_cases h1 : result = CURLE_COULDNT_RESOLVE_HOST
  · rw [if_pos h1, if_pos h1]
    rfl
  · rw [if_neg h1, if_neg h1]
    by_cases h2 : result = CURLE_COULDNT_CONNECT
    · rw [if_pos h2, if_pos h2]
      rfl
    · rw [if_neg h2, if_neg h2]
      by_cases h3 : result ≠ CURLE_OK ∧ w.fetch.stopped = false
      · rw [if_pos h3, if_pos (by exact h3)]
        rfl
      · rw [if_neg h3, if_neg (by exact h3)]

theorem default_status_without_leftover (w : world) :
    default_status (without_leftover w) = without_leftover (default_status w) := by
  unfold default_status
  by_cases h : w.writer.count = 0 ∧ w.query.status.isNone
  · rw [if_pos h, if_pos (by exact h)]
    exact query_status_without_leftover w _ _
  · rw [if_neg h, if_neg (by exact h)]

theorem query_done_without_leftover (w : world) :
    query_done (without_leftover w) = without_leftover (query_done w) := by
  unfold query_done
  cases hq : w.quiet
  · have hq2 : (without_leftover w).quiet = false := hq
    simp only [hq2, Bool.not_false, if_true]
    have e1 : (without_leftover w).query = w.query := rfl
    rw [e1]
    split_ifs
    · rfl
    · rfl
    · rfl
    · cases w.query.status <;> rfl
  · have hq2 : (without_leftover w).quiet = true := hq
    simp only [hq2]
    rfl

theorem fetch_release_without_leftover (w : world) :
    fetch_release (without_leftover w) = without_leftover (fetch_release w) := by
  unfold fetch_release
  rw [query_done_without_leftover]
  by_cases h : (query_done w).linked = true
  · rw [if_pos h, if_pos (by exact h)]
    rfl
  · rw [if_neg h, if_neg (by exact h)]
    rfl

theorem io_drain_without_leftover (result : Nat) (w : world) :
    io_drain result (without_leftover w) = without_leftover (io_drain result w) := by
  unfold io_drain
  rw [drain_rcode_without_leftover, classify_without_leftover, default_status_without_leftover]
  by_cases h : (default_status (classify result (drain_rcode w))).aborted = true
  · rw [if_pos h, if_pos (by exact h)]
  · rw [if_neg h, if_neg (by exact h)]
    exact fetch_release_without_leftover _

theorem io_drain_released (result : Nat) (w : world)
    (hd : (io_drain result w).aborted = false) :
    (io_drain result w).linked = false ∧ (io_drain result w).fetch.buf = [] := by
  unfold io_drain at hd ⊢
  by_cases h : (default_status (classify result (drain_rcode w))).aborted = true
  · rw [if_pos h] at hd
    rw [h] at hd
    cases hd
  · rw [if_neg h] at hd ⊢
    unfold fetch_release at hd ⊢
    by_cases hl : (query_done (default_status (classify result (drain_rcode w)))).linked = true
    · rw [if_pos hl]
      exact ⟨rfl, rfl⟩
    · rw [if_neg hl] at hd
      cases hd


theorem writer_fini_unlinked (w : world) (hl : w.linked = false) :
    (writer_fini w).stderr = w.stderr ∧ (writer_fini w).fetch = w.fetch ∧
    (writer_fini w).presented = w.presented ∧ (writer_fini w).blobs = w.blobs := by
  unfold writer_fini
  simp only [hl, Bool.false_eq_true, if_false]
  split_ifs
  · exact ⟨rfl, rfl, rfl, rfl⟩
  · exact ⟨rfl, rfl, rfl, rfl⟩

theorem writer_fini_linked (w : world) (hl : w.linked = true) (hb : w.fetch.buf.length ≠ 0) :
    (writer_fini w).stderr =
      w.stderr ++ ["warning: stranding " ++ toString w.fetch.buf.length ++ " octets!"] ∧
    (writer_fini w).fetch.buf = [] ∧
    (writer_fini w).presented = w.presented ∧ (writer_fini w).blobs = w.blobs := by
  unfold writer_fini
  simp only [hl, hb, if_true]
  split_ifs
  · exact ⟨rfl, rfl, rfl, rfl⟩
  · exact ⟨rfl, rfl, rfl, rfl⟩

set_option maxRecDepth 1000000 in
/-- C20, the input that separates code and claim: a 200 response whose last
record, the data line for a.example.com, has no terminating newline.  At the
end of the transfer the line is the leftover of the receive buffer; after
`io_engine(0)` and `writer_fini` the buffer is empty, the line was neither
decoded nor presented, and the only line on stderr is the status line of the
query: no warning tells of stranded octets. -/
theorem leftover_is_dropped_without_warning :
    (transfer sample_loadb CURLE_OK unterminated_chunks
      (launch_world (default_output_limit { }) false { response_code := 200 } pres_json)).1.fetch.buf
      = line_a ∧
    (final_state (main_tail sample_loadb { } none false { response_code := 200 } CURLE_OK
      unterminated_chunks pres_json)).map (fun w => w.aborted) = some false ∧
    (final_state (main_tail sample_loadb { } none false { response_code := 200 } CURLE_OK
      unterminated_chunks pres_json)).map (fun w => w.fetch.buf) = some [] ∧
    (final_state (main_tail sample_loadb { } none false { response_code := 200 } CURLE_OK
      unterminated_chunks pres_json)).map (fun w => w.presented.length) = some 0 ∧
    (final_state (main_tail sample_loadb { } none false { response_code := 200 } CURLE_OK
      unterminated_chunks pres_json)).map (fun w => w.blobs) = some [line_begin] ∧
    (final_state (main_tail sample_loadb { } none false { response_code := 200 } CURLE_OK
      unterminated_chunks pres_json)).map (fun w => w.stderr) =
      some ["Query status: NOERROR (no results found for query.)"] := by
  decide

/-- C20, as the code has it.  When `io_drain` has handled the completion of
the fetch (the process still running), the fetch is detached from its query
and its receive buffer is gone, whatever was left in it: what `io_drain`
writes to stderr is what it writes with an empty buffer, and the
`writer_fini` that follows writes nothing to stderr, decodes nothing and
presents nothing.  The warning `stranding N octets` is what `writer_fini`
writes for a fetch that is still attached to its query with N, not 0, octets
in its buffer, which it then drops. -/
theorem stranded_data (result : Nat) (w : world)
    (hd : (io_drain result w).aborted = false) :
    (io_drain result w).fetch.buf = [] ∧
    (io_drain result w).stderr = (io_drain result (without_leftover w)).stderr ∧
    (writer_fini (io_drain result w)).stderr = (io_drain result w).stderr ∧
    (writer_fini (io_drain result w)).fetch.buf = [] ∧
    (writer_fini (io_drain result w)).presented = w.presented ∧
    (writer_fini (io_drain result w)).blobs = w.blobs ∧
    (∀ v : world, v.linked = true → v.fetch.buf.length ≠ 0 →
      (writer_fini v).stderr =
        v.stderr ++ ["warning: stranding " ++ toString v.fetch.buf.length ++ " octets!"] ∧
      (writer_fini v).fetch.buf = [] ∧
      (writer_fini v).presented = v.presented ∧ (writer_fini v).blobs = v.blobs) := by
  have hr := io_drain_released result w hd
  have hu := writer_fini_unlinked (io_drain result w) hr.1
  have hf := io_drain_frame result w
  refine ⟨hr.2, ?_, hu.1, ?_, hu.2.2.1.trans hf.1, hu.2.2.2.trans hf.2.1, ?_⟩
  · rw [io_drain_without_leftover]
    rfl
  · rw [hu.2.1]
    exact hr.2
  · intro v hl hb
    exact writer_fini_linked v hl hb

set_option maxRecDepth 1000000 in
/-- C20 at a sample input: the completion of the transfer that left the data
line for a.example.com in the buffer. -/
theorem stranded_data_witness :
    (io_drain CURLE_OK (transfer sample_loadb CURLE_OK unterminated_chunks
      (sample_world (-1))).1).fetch.buf = [] ∧
    (writer_fini (io_drain CURLE_OK (transfer sample_loadb CURLE_OK unterminated_chunks
      (sample_world (-1))).1)).stderr =
      (io_drain CURLE_OK (transfer sample_loadb CURLE_OK unterminated_chunks
        (sample_world (-1))).1).stderr ∧
    (writer_fini { sample_world (-1) with linked := true, fetch := { buf := line_a } }).stderr =
      ["warning: stranding 86 octets!"] :=
  ⟨(stranded_data CURLE_OK (transfer sample_loadb CURLE_OK unterminated_chunks
      (sample_world (-1))).1 (by decide)).1,
    (stranded_data CURLE_OK (transfer sample_loadb CURLE_OK unterminated_chunks
      (sample_world (-1))).1 (by decide)).2.2.1,
    by decide⟩


/-! ## C30: the deblock loop is total -/

theorem memchr_some {c : Char} : ∀ (buf : List Char) (k : Nat), memchr buf c = some k →
    k < buf.length ∧ c ∉ buf.take k ∧ buf = buf.take k ++ c :: buf.drop (k + 1) := by
  intro buf
  induction buf with
  | nil => intro k h; simp [memchr] at h
  | cons b rest ih =>
    intro k h
    by_cases hb : b = c
    · have hk : k = 0 := by
        simp [memchr, hb] at h
        exact h.symm
      subst hk
      subst hb
      simp
    · simp only [memchr, if_neg hb] at h
      cases hm : memchr rest c with
      | none => rw [hm] at h; simp at h
      | some j =>
        rw [hm] at h
        have hk : k = j + 1 := by
          simp at h
          exact h.symm
        subst hk
        have hj := ih j hm
        refine ⟨by simp; exact hj.1, ?_, ?_⟩
        · simp only [List.take_succ_cons, List.mem_cons, not_or]
          exact ⟨fun e => hb e.symm, hj.2.1⟩
        · simp only [List.take_succ_cons, List.drop_succ_cons, List.cons_append]
          congr 1
          exact hj.2.2

theorem memchr_none_iff {c : Char} (buf : List Char) : memchr buf c = none ↔ c ∉ buf := by
  constructor
  · intro h hm
    induction buf with
    | nil => simp at hm
    | cons b rest ih =>
      by_cases hb : b = c
      · simp [memchr, hb] at h
      · simp only [memchr, if_neg hb] at h
        cases hr : memchr rest c with
        | none =>
          rcases List.mem_cons.mp hm with e | e
          · exact hb e.symm
          · exact ih hr e
        | some j => rw [hr] at h; simp at h
  · exact memchr_eq_none

theorem count_after_newline (buf : List Char) (k : Nat) (h : memchr buf '\n' = some k) :
    ((buf.drop (k + 1)).take (buf.length - k - 1)).count '\n' + 1 = buf.count '\n' ∧
    ((buf.drop (k + 1)).take (buf.length - k - 1)) = buf.drop (k + 1) := by
  have hm := memchr_some buf k h
  have ht : (buf.drop (k + 1)).take (buf.length - k - 1) = buf.drop (k + 1) := by
    apply List.take_of_length_le
    simp
    omega
  refine ⟨?_, ht⟩
  rw [ht]
  conv => rhs; rw [hm.2.2]
  rw [List.count_append, List.count_cons_self, List.count_eq_zero_of_not_mem hm.2.1]
  omega

theorem deblock_count (jl : List Char → Option json_t) : ∀ (fuel : Nat) (s : world × Nat),
    (deblock jl fuel s).1.aborted = false →
    (deblock jl fuel s).1.fetch.buf.count '\n' = s.1.fetch.buf.count '\n' - fuel := by
  intro fuel
  induction fuel with
  | zero => intro s _; rfl
  | succ f ih =>
    intro s hr
    cases hm : memchr s.1.fetch.buf '\n' with
    | none =>
      have hn : '\n' ∉ s.1.fetch.buf := (memchr_none_iff _).mp hm
      rw [deblock_no_newline jl _ s hn, List.count_eq_zero_of_not_mem hn]
      omega
    | some k =>
      have hfr := deblock_record_frame jl s (s.1.fetch.buf.take k)
      have hc := count_after_newline s.1.fetch.buf k hm
      have hunf : deblock jl (f + 1) s =
          if (deblock_record jl s (s.1.fetch.buf.take k)).1.aborted = true then
            deblock_record jl s (s.1.fetch.buf.take k)
          else deblock jl f
            ({ (deblock_record jl s (s.1.fetch.buf.take k)).1 with
                fetch := { (deblock_record jl s (s.1.fetch.buf.take k)).1.fetch with
                  buf := ((deblock_record jl s (s.1.fetch.buf.take k)).1.fetch.buf.drop
                    (k + 1)).take (s.1.fetch.buf.length - k - 1) } },
              (deblock_record jl s (s.1.fetch.buf.take k)).2) := by
        rw [deblock]
        simp only [hm]
      rw [hunf] at hr ⊢
      by_cases hab : (deblock_record jl s (s.1.fetch.buf.take k)).1.aborted = true
      · rw [if_pos hab] at hr
        rw [hab] at hr
        cases hr
      · rw [if_neg hab] at hr ⊢
        rw [ih _ hr]
        dsimp only
        rw [hfr.1]
        omega


theorem deblock_succ (jl : List Char → Option json_t) (f : Nat) (s : world × Nat) (k : Nat)
    (hm : memchr s.1.fetch.buf '\n' = some k) :
    deblock jl (f + 1) s =
      if (deblock_record jl s (s.1.fetch.buf.take k)).1.aborted = true then
        deblock_record jl s (s.1.fetch.buf.take k)
      else deblock jl f
        ({ (deblock_record jl s (s.1.fetch.buf.take k)).1 with
            fetch := { (deblock_record jl s (s.1.fetch.buf.take k)).1.fetch with
              buf := ((deblock_record jl s (s.1.fetch.buf.take k)).1.fetch.buf.drop
                (k + 1)).take (s.1.fetch.buf.length - k - 1) } },
          (deblock_record jl s (s.1.fetch.buf.take k)).2) := by
  rw [deblock]
  simp only [hm]

theorem deblock_fuel_succ (jl : List Char → Option json_t) : ∀ (fuel : Nat) (s : world × Nat),
    s.1.fetch.buf.count '\n' ≤ fuel → deblock jl (fuel + 1) s = deblock jl fuel s := by
  intro fuel
  induction fuel with
  | zero =>
    intro s h
    have hn : '\n' ∉ s.1.fetch.buf := by
      intro hm
      have := List.count_pos_iff.mpr hm
      omega
    rw [deblock_no_newline jl _ s hn, deblock_no_newline jl _ s hn]
  | succ f ih =>
    intro s h
    cases hm : memchr s.1.fetch.buf '\n' with
    | none =>
      have hn : '\n' ∉ s.1.fetch.buf := (memchr_none_iff _).mp hm
      rw [deblock_no_newline jl _ s hn, deblock_no_newline jl _ s hn]
    | some k =>
      have hfr := deblock_record_frame jl s (s.1.fetch.buf.take k)
      have hc := count_after_newline s.1.fetch.buf k hm
      rw [deblock_succ jl (f + 1) s k hm, deblock_succ jl f s k hm]
      by_cases hab : (deblock_record jl s (s.1.fetch.buf.take k)).1.aborted = true
      · rw [if_pos hab, if_pos hab]
      · rw [if_neg hab, if_neg hab]
        apply ih
        dsimp only
        rw [hfr.1]
        omega

theorem deblock_fuel (jl : List Char → Option json_t) (s : world × Nat) (fuel : Nat)
    (h : s.1.fetch.buf.count '\n' ≤ fuel) :
    deblock jl fuel s = deblock jl (s.1.fetch.buf.count '\n') s := by
  induction fuel with
  | zero =>
    have e : s.1.fetch.buf.count '\n' = 0 := by omega
    rw [e]
  | succ f ih =>
    by_cases hf : s.1.fetch.buf.count '\n' ≤ f
    · rw [deblock_fuel_succ jl f s hf]
      exact ih hf
    · have e : s.1.fetch.buf.count '\n' = f + 1 := by omega
      rw [e]

/-- C30: the deblock loop of `writer_func` is total.  In every iteration the
newline is found at an offset `pre_len` below `len`, so `post_len`, which is
`len - pre_len - 1`, does not underflow and is below `len`, and the buffer the
`memmove` leaves holds `post_len` octets and one newline less.  After `fuel`
iterations of a process that has not ended in `abort()` the buffer holds
`fuel` newlines less; with as many iterations as there are newlines in the
buffer the loop has ended: no newline is left, and allowing more iterations,
`fetch->len` of them in `writer_func`, changes nothing. -/
theorem deblock_loop_total (jl : List Char → Option json_t) (s : world × Nat) :
    (∀ pre_len : Nat, memchr s.1.fetch.buf '\n' = some pre_len →
      pre_len < s.1.fetch.buf.length ∧
      pre_len + 1 + (s.1.fetch.buf.length - pre_len - 1) = s.1.fetch.buf.length ∧
      s.1.fetch.buf.length - pre_len - 1 < s.1.fetch.buf.length ∧
      ((s.1.fetch.buf.drop (pre_len + 1)).take (s.1.fetch.buf.length - pre_len - 1)).length =
        s.1.fetch.buf.length - pre_len - 1 ∧
      ((s.1.fetch.buf.drop (pre_len + 1)).take (s.1.fetch.buf.length - pre_len - 1)).count '\n'
        + 1 = s.1.fetch.buf.count '\n') ∧
    (∀ fuel : Nat, (deblock jl fuel s).1.aborted = false →
      (deblock jl fuel s).1.fetch.buf.count '\n' = s.1.fetch.buf.count '\n' - fuel) ∧
    ((deblock jl (s.1.fetch.buf.count '\n') s).1.aborted = false →
      '\n' ∉ (deblock jl (s.1.fetch.buf.count '\n') s).1.fetch.buf) ∧
    (∀ fuel : Nat, s.1.fetch.buf.count '\n' ≤ fuel →
      deblock jl fuel s = deblock jl (s.1.fetch.buf.count '\n') s) ∧
    s.1.fetch.buf.count '\n' ≤ s.1.fetch.buf.length := by
  refine ⟨?_, fun fuel h => deblock_count jl fuel s h, ?_, fun fuel h => deblock_fuel jl s fuel h,
    List.count_le_length _ _⟩
  · intro k hm
    have h1 := memchr_some s.1.fetch.buf k hm
    have h2 := count_after_newline s.1.fetch.buf k hm
    refine ⟨h1.1, by omega, by omega, ?_, h2.1⟩
    rw [h2.2]
    simp
    omega
  · intro h
    have hc := deblock_count jl _ s h
    intro hm
    have := List.count_pos_iff.mpr hm
    omega

set_option maxRecDepth 1000000 in
/-- C30 at a sample input: a buffer of two lines and an unterminated rest. -/
theorem deblock_loop_total_witness :
    (deblock sample_loadb 1
      (set_io (sample_world (-1)) (frame [line_begin, line_a] line_b) 200, 7)).1.fetch.buf.count
        '\n' =
      (set_io (sample_world (-1)) (frame [line_begin, line_a] line_b) 200).fetch.buf.count '\n'
        - 1 ∧
    '\n' ∉ (deblock sample_loadb
      ((set_io (sample_world (-1)) (frame [line_begin, line_a] line_b) 200).fetch.buf.count '\n')
      (set_io (sample_world (-1)) (frame [line_begin, line_a] line_b) 200, 7)).1.fetch.buf :=
  ⟨(deblock_loop_total sample_loadb
      (set_io (sample_world (-1)) (frame [line_begin, line_a] line_b) 200, 7)).2.1 1
      (by decide),
    (deblock_loop_total sample_loadb
      (set_io (sample_world (-1)) (frame [line_begin, line_a] line_b) 200, 7)).2.2.1
      (by decide)⟩


/-! ## Frame lemmas that hold for every response code -/

theorem fetch_ok_or_error (f : fetch) : fetch_ok f = true ∨ fetch_error f = true := by
  unfold fetch_ok fetch_error
  cases f.easy with
  | none => exact Or.inl rfl
  | some easy =>
    by_cases h : (if f.rcode = 0 then easy.response_code else f.rcode) = HTTP_OK
    · left
      simp [h]
    · right
      simp [h]

theorem deblock_induct (jl : List Char → Option json_t) (P : world → Prop)
    (hstep : ∀ (s : world × Nat) (rec : List Char), P s.1 → P (deblock_record jl s rec).1)
    (hbuf : ∀ (w : world) (b : List Char), P w → P { w with fetch := { w.fetch with buf := b } }) :
    ∀ (fuel : Nat) (s : world × Nat), P s.1 → P (deblock jl fuel s).1 := by
  intro fuel
  induction fuel with
  | zero => intro s h; exact h
  | succ f ih =>
    intro s h
    cases hm : memchr s.1.fetch.buf '\n' with
    | none =>
      rw [deblock_no_newline jl _ s ((memchr_none_iff _).mp hm)]
      exact h
    | some k =>
      rw [deblock_succ jl f s k hm]
      by_cases hab : (deblock_record jl s (s.1.fetch.buf.take k)).1.aborted = true
      · rw [if_pos hab]
        exact hstep s _ h
      · rw [if_neg hab]
        apply ih
        exact hbuf _ _ (hstep s _ h)

theorem cond_chain_links (w : world) (c : String) :
    (cond_chain w c).1.linked = w.linked ∧ (cond_chain w c).1.reaped = w.reaped ∧
    (cond_chain w c).1.quiet = w.quiet := by
  unfold cond_chain
  split_ifs <;> exact ⟨rfl, rfl, rfl⟩

theorem take_cond_links (w : world) (tup : pdns_tuple) :
    (take_cond w tup).1.linked = w.linked ∧ (take_cond w tup).1.reaped = w.reaped ∧
    (take_cond w tup).1.quiet = w.quiet := by
  unfold take_cond
  cases tup.cond with
  | none => exact ⟨rfl, rfl, rfl⟩
  | some c => exact cond_chain_links w c

theorem take_msg_links (w : world) (tup : pdns_tuple) :
    (take_msg w tup).linked = w.linked ∧ (take_msg w tup).reaped = w.reaped ∧
    (take_msg w tup).quiet = w.quiet := by
  unfold take_msg
  cases tup.msg <;> exact ⟨rfl, rfl, rfl⟩

theorem data_blob_tuple_links (w : world) (tup : pdns_tuple) (rec : List Char) :
    (data_blob_tuple w tup rec).1.linked = w.linked ∧
    (data_blob_tuple w tup rec).1.reaped = w.reaped ∧
    (data_blob_tuple w tup rec).1.quiet = w.quiet ∧
    ((data_blob_tuple w tup rec).2 = 0 ∨ (data_blob_tuple w tup rec).2 = 1) := by
  have h1 := take_msg_links w tup
  have h2 := take_cond_links (take_msg w tup) tup
  have h : (take_cond (take_msg w tup) tup).1.linked = w.linked ∧
      (take_cond (take_msg w tup) tup).1.reaped = w.reaped ∧
      (take_cond (take_msg w tup) tup).1.quiet = w.quiet :=
    ⟨h2.1.trans h1.1, h2.2.1.trans h1.2.1, h2.2.2.trans h1.2.2⟩
  unfold data_blob_tuple
  simp only []
  split_ifs
  · exact ⟨h.1, h.2.1, h.2.2, Or.inl rfl⟩
  · exact ⟨h.1, h.2.1, h.2.2, Or.inl rfl⟩
  · have hf := present_frame (take_cond (take_msg w tup) tup).1 tup rec
    exact ⟨hf.2.2.2.2.2.1.trans h.1, hf.2.2.2.2.2.2.1.trans h.2.1,
      hf.2.2.2.2.2.2.2.1.trans h.2.2, Or.inr rfl⟩

theorem data_blob_links (jl : List Char → Option json_t) (w : world) (rec : List Char) :
    (data_blob jl w rec).1.linked = w.linked ∧ (data_blob jl w rec).1.reaped = w.reaped ∧
    (data_blob jl w rec).1.quiet = w.quiet ∧
    ((data_blob jl w rec).2 = 0 ∨ (data_blob jl w rec).2 = 1) := by
  unfold data_blob
  cases tuple_make jl rec with
  | aborted => exact ⟨rfl, rfl, rfl, Or.inl rfl⟩
  | ouch msg => exact ⟨rfl, rfl, rfl, Or.inl rfl⟩
  | made tup => exact data_blob_tuple_links (note_blob w rec) tup rec

theorem decode_record_links (jl : List Char → Option json_t) (w : world) (rec : List Char) :
    (decode_record jl w rec).linked = w.linked ∧ (decode_record jl w rec).reaped = w.reaped ∧
    (decode_record jl w rec).quiet = w.quiet ∧
    ((decode_record jl w rec).writer.count = w.writer.count ∨
      (decode_record jl w rec).writer.count = w.writer.count + 1) := by
  have h := data_blob_links jl w rec
  have hw := (data_blob_frame jl w rec).2.1
  have hcount : (data_blob jl w rec).1.writer.count + (data_blob jl w rec).2 = w.writer.count ∨
      (data_blob jl w rec).1.writer.count + (data_blob jl w rec).2 = w.writer.count + 1 := by
    rw [hw]
    rcases h.2.2.2 with e | e
    · left
      rw [e]
      simp
    · right
      rw [e]
  unfold decode_record
  simp only []
  split_ifs
  · refine ⟨h.1, h.2.1, h.2.2.1, Or.inl ?_⟩
    rw [hw]
  · cases (data_blob jl w rec).1.query.saf_cond <;> exact ⟨h.1, h.2.1, h.2.2.1, hcount⟩

theorem deblock_record_links (jl : List Char → Option json_t) (s : world × Nat)
    (rec : List Char) :
    (deblock_record jl s rec).1.linked = s.1.linked ∧
    (deblock_record jl s rec).1.reaped = s.1.reaped ∧
    (deblock_record jl s rec).1.quiet = s.1.quiet ∧
    ((deblock_record jl s rec).1.writer.count = s.1.writer.count ∨
      (limit_reached s.1.writer = false ∧
        (deblock_record jl s rec).1.writer.count = s.1.writer.count + 1)) := by
  unfold deblock_record
  by_cases h : limit_reached s.1.writer = true
  · rw [if_pos h]
    exact ⟨rfl, rfl, rfl, Or.inl rfl⟩
  · rw [if_neg h]
    have hd := decode_record_links jl s.1 rec
    refine ⟨hd.1, hd.2.1, hd.2.2.1, ?_⟩
    rcases hd.2.2.2 with e | e
    · exact Or.inl e
    · exact Or.inr ⟨by simpa using h, e⟩

theorem deblock_record_pair (jl : List Char → Option json_t) (s : world × Nat)
    (rec : List Char) :
    (deblock_record jl s rec).1.query.status = s.1.query.status ∧
    (deblock_record jl s rec).1.query.message = s.1.query.message := by
  unfold deblock_record
  split_ifs
  · exact ⟨rfl, rfl⟩
  · exact decode_record_pair jl s.1 rec

theorem deblock_links (jl : List Char → Option json_t) (fuel : Nat) (s : world × Nat) :
    (deblock jl fuel s).1.linked = s.1.linked ∧ (deblock jl fuel s).1.reaped = s.1.reaped ∧
    (deblock jl fuel s).1.query.status = s.1.query.status ∧
    (deblock jl fuel s).1.query.message = s.1.query.message ∧
    (deblock jl fuel s).1.writer.output_limit = s.1.writer.output_limit := by
  apply deblock_induct jl (fun v => v.linked = s.1.linked ∧ v.reaped = s.1.reaped ∧
    v.query.status = s.1.query.status ∧ v.query.message = s.1.query.message ∧
    v.writer.output_limit = s.1.writer.output_limit)
  · intro t rec h
    have h1 := deblock_record_links jl t rec
    have h2 := deblock_record_pair jl t rec
    have h3 := deblock_record_frame jl t rec
    exact ⟨h1.1.trans h.1, h1.2.1.trans h.2.1, h2.1.trans h.2.2.1, h2.2.trans h.2.2.2.1,
      h3.2.2.2.1.trans h.2.2.2.2⟩
  · intro v b h
    exact h
  · exact ⟨rfl, rfl, rfl, rfl, rfl⟩

theorem error_report_frame (easy : CURL) (w : world) :
    (error_report easy w).writer = w.writer ∧ (error_report easy w).linked = w.linked ∧
    (error_report easy w).reaped = w.reaped ∧ (error_report easy w).blobs = w.blobs ∧
    (error_report easy w).presented = w.presented ∧
    ((error_report easy w).aborted = false → (error_report easy w).fetch.buf = []) := by
  rcases w with ⟨⟨easy0, buf, rcode, stopped⟩, ⟨st, me, sc, sm⟩, wr, li, re, ec, qu, bl, pr, se,
    ab, pz, en⟩
  cases buf <;> cases st <;> cases me <;> cases qu <;> cases ab <;>
    simp [error_report, query_status, log_stderr, dnsdb_status]


/-! ## C22: the produced-count stays within the cap -/

theorem deblock_record_cap (jl : List Char → Option json_t) (L : Int) (hL : 0 < L)
    (s : world × Nat) (rec : List Char)
    (h : s.1.writer.output_limit = L ∧ 0 ≤ s.1.writer.count ∧ s.1.writer.count ≤ L) :
    (deblock_record jl s rec).1.writer.output_limit = L ∧
    0 ≤ (deblock_record jl s rec).1.writer.count ∧
    (deblock_record jl s rec).1.writer.count ≤ L := by
  have h1 := (deblock_record_links jl s rec).2.2.2
  have h2 := (deblock_record_frame jl s rec).2.2.2.1
  refine ⟨h2.trans h.1, ?_, ?_⟩
  · rcases h1 with e | e
    · rw [e]
      exact h.2.1
    · rw [e.2]
      omega
  · rcases h1 with e | e
    · rw [e]
      exact h.2.2
    · rw [e.2]
      have hl := e.1
      unfold limit_reached at hl
      simp only [decide_eq_false_iff_not, not_and, not_le, ge_iff_le, gt_iff_lt] at hl
      have := hl (by rw [h.1]; exact hL)
      rw [h.1] at this
      omega

theorem writer_func_cap (jl : List Char → Option json_t) (L : Int) (hL : 0 < L)
    (ptr : List Char) (w : world)
    (h : w.writer.output_limit = L ∧ 0 ≤ w.writer.count ∧ w.writer.count ≤ L) :
    (writer_func jl ptr w).1.writer.output_limit = L ∧
    0 ≤ (writer_func jl ptr w).1.writer.count ∧
    (writer_func jl ptr w).1.writer.count ≤ L := by
  rcases fetch_ok_or_error w.fetch with hok | he
  · rw [writer_func_ok jl ptr w hok]
    apply deblock_induct jl (fun v => v.writer.output_limit = L ∧ 0 ≤ v.writer.count ∧
      v.writer.count ≤ L)
    · intro s rec hs
      exact deblock_record_cap jl L hL s rec hs
    · intro v b hv
      exact hv
    · exact h
  · cases hq : w.fetch.easy with
    | none => simp [fetch_error, hq] at he
    | some easy =>
      rw [writer_func_error jl ptr w easy hq he]
      dsimp only
      rw [(error_report_frame easy _).1]
      exact h

theorem feed_cap (jl : List Char → Option json_t) (L : Int) (hL : 0 < L)
    (chunks : List (List Char)) : ∀ w : world,
    (w.writer.output_limit = L ∧ 0 ≤ w.writer.count ∧ w.writer.count ≤ L) →
    (feed jl chunks w).writer.output_limit = L ∧ 0 ≤ (feed jl chunks w).writer.count ∧
    (feed jl chunks w).writer.count ≤ L := by
  induction chunks with
  | nil => intro w h; exact h
  | cons ptr rest ih =>
    intro w h
    rw [feed_cons]
    apply ih
    unfold deliver
    split_ifs
    · exact h
    · exact writer_func_cap jl L hL ptr w h

/-- C22: the cap bound.  With an output limit L > 0 and `writer.count` 0 at
the start, after any number of calls of `writer_func`, on any chunks,
`writer.count` is at most L + 1; it is in fact never above L, since the limit
is tested before each record.  Each pass of the loop body changes the count by
0 or by 1, and by 1 only while the limit is not reached. -/
theorem cap_bound (jl : List Char → Option json_t) (L : Int) (hL : 0 < L)
    (chunks : List (List Char)) (w : world)
    (hlim : w.writer.output_limit = L) (hc : w.writer.count = 0) :
    (feed jl chunks w).writer.count ≤ L + 1 ∧
    (feed jl chunks w).writer.count ≤ L ∧
    0 ≤ (feed jl chunks w).writer.count ∧
    (∀ (s : world × Nat) (rec : List Char),
      (deblock_record jl s rec).1.writer.count = s.1.writer.count ∨
      (limit_reached s.1.writer = false ∧
        (deblock_record jl s rec).1.writer.count = s.1.writer.count + 1)) := by
  have h := feed_cap jl L hL chunks w ⟨hlim, by rw [hc], by rw [hc]; omega⟩
  refine ⟨by have := h.2.2; omega, h.2.2, h.2.1, ?_⟩
  intro s rec
  exact (deblock_record_links jl s rec).2.2.2

set_option maxRecDepth 1000000 in
/-- C22 at a sample input: the sample stream against the limit 2. -/
theorem cap_bound_witness :
    (feed sample_loadb sample_chunks (sample_world 2)).writer.count ≤ 2 + 1 ∧
    (feed sample_loadb sample_chunks (sample_world 2)).writer.count = 2 :=
  ⟨(cap_bound sample_loadb 2 (by decide) sample_chunks (sample_world 2) rfl rfl).1,
    by decide⟩


/-! ## C23: the receive buffer after writer_func -/

theorem split_lines_after_last (pre post : List Char) (h : '\n' ∉ post) :
    (split_lines (pre ++ '\n' :: post)).2 = post := by
  rw [split_lines_append]
  have hc := (split_lines_clean pre).2
  have e : (split_lines pre).2 ++ '\n' :: post = frame [(split_lines pre).2] post := rfl
  dsimp only
  rw [e, split_lines_frame [(split_lines pre).2] post (by simpa using hc) h]

/-- C23: the buffer invariant.  When `writer_func` returns, on any response
code, limit and chunk, the receive buffer of the fetch holds no newline.  On
a 200 response, from a buffer without newline, the buffer after the chunks
`cs` is the part of the bytes received so far (the buffer at the start, then
the chunks) after their last newline, and all of them when there is none. -/
theorem buffer_invariant (jl : List Char → Option json_t) (ptr : List Char) (w : world)
    (cs : List (List Char)) (ha : w.aborted = false) :
    ((writer_func jl ptr w).1.aborted = false → '\n' ∉ (writer_func jl ptr w).1.fetch.buf) ∧
    (fetch_ok w.fetch = true → '\n' ∉ w.fetch.buf → (feed jl cs w).aborted = false →
      (∀ pre post : List Char, w.fetch.buf ++ cs.flatten = pre ++ '\n' :: post →
        '\n' ∉ post → (feed jl cs w).fetch.buf = post) ∧
      ('\n' ∉ w.fetch.buf ++ cs.flatten → (feed jl cs w).fetch.buf = w.fetch.buf ++ cs.flatten))
    := by
  constructor
  · intro hr
    rcases fetch_ok_or_error w.fetch with hok | he
    · exact (writer_func_keeps_invariant jl ptr w ha hok hr).2
    · cases hq : w.fetch.easy with
      | none => simp [fetch_error, hq] at he
      | some easy =>
        rw [writer_func_error jl ptr w easy hq he] at hr ⊢
        dsimp only at hr ⊢
        rw [(error_report_frame easy _).2.2.2.2.2 hr]
        simp
  · intro hok hn hfa
    have hf := feed_frame jl cs w ha hok hn
    have hab : (records jl (w, 0) (split_lines (w.fetch.buf ++ cs.flatten)).1).1.aborted
        = false := (obs_aborted _ _ hf.1).symm.trans hfa
    have hb := hf.2 hab
    constructor
    · intro pre post e hp
      rw [hb, e]
      exact split_lines_after_last pre post hp
    · intro hno
      rw [hb, split_lines_no_newline hno]

set_option maxRecDepth 1000000 in
/-- C23 at a sample input: a begin line and a data line cut in the middle. -/
theorem buffer_invariant_witness :
    '\n' ∉ (writer_func sample_loadb (frame [line_begin] (line_a.take 9))
      (sample_world (-1))).1.fetch.buf ∧
    (feed sample_loadb [frame [line_begin] (line_a.take 9)] (sample_world (-1))).fetch.buf
      = line_a.take 9 :=
  ⟨(buffer_invariant sample_loadb (frame [line_begin] (line_a.take 9)) (sample_world (-1))
      [frame [line_begin] (line_a.take 9)] rfl).1 (by decide),
    ((buffer_invariant sample_loadb (frame [line_begin] (line_a.take 9)) (sample_world (-1))
      [frame [line_begin] (line_a.take 9)] rfl).2 (by decide) (by decide) (by decide)).1
      line_begin (line_a.take 9) (by decide) (by decide)⟩


/-! ## C25: the step of the output governor -/

set_option maxRecDepth 1000000 in
/-- C25, the input that separates code and claim: with the limit 1 and
`writer.count` 0 at the call, a chunk of two data lines.  The call is not one
with the count at the limit, and yet it returns 0, not the chunk size: the
first line brings the count to 1 and the second one meets the limit. -/
theorem cap_reached_within_one_call :
    fetch_ok (sample_world 1).fetch = true ∧
    (sample_world 1).writer.count = 0 ∧
    limit_reached (sample_world 1).writer = false ∧
    (frame [line_a, line_b] []).length = 174 ∧
    (writer_func sample_loadb (frame [line_a, line_b] []) (sample_world 1)).2 = 0 ∧
    (writer_func sample_loadb (frame [line_a, line_b] []) (sample_world 1)).1.writer.count = 1 ∧
    (writer_func sample_loadb (frame [line_a, line_b] []) (sample_world 1)).1.aborted = false := by
  decide

/-- C25, as the code has it.  On a 200 response: a call of `writer_func` that
starts with the limit reached and has a newline in the buffer once the chunk
is appended hands no record to `data_blob` or the presenter, leaves the query
in `sc_we_limited` and the fetch stopped, and returns 0.  The same holds for
the count, the state, the flag and the value returned when the limit is
reached by the records decoded earlier in the call and another terminated
line follows them.  Every call returns the chunk size or 0, and 0 (with a
non-empty chunk) only with a newline in the buffer, the limit reached, the
query in `sc_we_limited` and the fetch stopped; without a newline in the
buffer, and on an error response, the chunk size is returned. -/
theorem output_governor_step (jl : List Char → Option json_t) (ptr : List Char) (w : world)
    (ha : w.aborted = false) :
    (fetch_ok w.fetch = true → limit_reached w.writer = true → '\n' ∈ w.fetch.buf ++ ptr →
      (writer_func jl ptr w).1.blobs = w.blobs ∧
      (writer_func jl ptr w).1.presented = w.presented ∧
      (writer_func jl ptr w).1.writer = w.writer ∧
      (writer_func jl ptr w).1.query.saf_cond = sc_we_limited ∧
      (writer_func jl ptr w).1.fetch.stopped = true ∧
      (writer_func jl ptr w).2 = 0) ∧
    (fetch_ok w.fetch = true → ∀ (segs1 more : List (List Char)) (rec : List Char),
      (split_lines (w.fetch.buf ++ ptr)).1 = segs1 ++ rec :: more →
      (records jl (w, ptr.length) segs1).1.aborted = false →
      limit_reached (records jl (w, ptr.length) segs1).1.writer = true →
      (writer_func jl ptr w).1.writer = (records jl (w, ptr.length) segs1).1.writer ∧
      (writer_func jl ptr w).1.blobs = (records jl (w, ptr.length) segs1).1.blobs ∧
      (writer_func jl ptr w).1.query.saf_cond = sc_we_limited ∧
      (writer_func jl ptr w).1.fetch.stopped = true ∧
      (writer_func jl ptr w).2 = 0) ∧
    (fetch_ok w.fetch = true →
      (writer_func jl ptr w).2 = ptr.length ∨
      ((writer_func jl ptr w).2 = 0 ∧ '\n' ∈ w.fetch.buf ++ ptr ∧
        limit_state (writer_func jl ptr w).1)) ∧
    (fetch_ok w.fetch = true → '\n' ∉ w.fetch.buf ++ ptr →
      (writer_func jl ptr w).2 = ptr.length) ∧
    (fetch_error w.fetch = true → (writer_func jl ptr w).2 = ptr.length) := by
  have mid : fetch_ok w.fetch = true → ∀ (segs1 more : List (List Char)) (rec : List Char),
      (split_lines (w.fetch.buf ++ ptr)).1 = segs1 ++ rec :: more →
      (records jl (w, ptr.length) segs1).1.aborted = false →
      limit_reached (records jl (w, ptr.length) segs1).1.writer = true →
      (writer_func jl ptr w).1 =
        set_io (limit_hit (records jl (w, ptr.length) segs1).1)
          (split_lines (w.fetch.buf ++ ptr)).2 (seen_rcode w.fetch) ∧
      (writer_func jl ptr w).2 = 0 := by
    intro hok segs1 more rec hsp hal hlr
    have wf := writer_func_frame jl ptr w hok ha
    have hrec : records jl (w, ptr.length) (split_lines (w.fetch.buf ++ ptr)).1 =
        (limit_hit (records jl (w, ptr.length) segs1).1, 0) := by
      rw [hsp, records_append]
      exact records_limit_reached jl more _ _ rec hal hlr
    rw [hrec] at wf
    exact ⟨wf.2.2 hal, wf.2.1⟩
  refine ⟨?_, ?_, ?_, ?_, ?_⟩
  · intro hok hl hnl
    have hne := split_lines_nonempty hnl
    cases hsp : (split_lines (w.fetch.buf ++ ptr)).1 with
    | nil => exact absurd hsp hne
    | cons rec more =>
      have h := mid hok [] more rec hsp ha hl
      rw [h.1]
      exact ⟨rfl, rfl, rfl, rfl, rfl, h.2⟩
  · intro hok segs1 more rec hsp hal hlr
    have h := mid hok segs1 more rec hsp hal hlr
    rw [h.1]
    exact ⟨rfl, rfl, rfl, rfl, h.2⟩
  · intro hok
    have wf := writer_func_frame jl ptr w hok ha
    rcases records_limit jl (split_lines (w.fetch.buf ++ ptr)).1 (w, ptr.length) ha with h | h
    · exact Or.inl (wf.2.1.trans h.1)
    · right
      refine ⟨wf.2.1.trans h.1, split_lines_fst_nonempty_mem h.2.1, ?_⟩
      rw [wf.2.2 h.2.2.2]
      exact h.2.2.1
  · intro hok hno
    have wf := writer_func_frame jl ptr w hok ha
    rw [wf.2.1, split_lines_no_newline hno]
    rfl
  · intro he
    cases hq : w.fetch.easy with
    | none => simp [fetch_error, hq] at he
    | some easy => rw [writer_func_error jl ptr w easy hq he]

set_option maxRecDepth 1000000 in
/-- C25 at a sample input: the world the output governor has stopped, and
one more line. -/
theorem output_governor_step_witness :
    (writer_func sample_loadb (frame [line_c] []) stopped_world).1.blobs = stopped_world.blobs ∧
    (writer_func sample_loadb (frame [line_c] []) stopped_world).1.query.saf_cond
      = sc_we_limited ∧
    (writer_func sample_loadb (frame [line_c] []) stopped_world).1.fetch.stopped = true ∧
    (writer_func sample_loadb (frame [line_c] []) stopped_world).2 = 0 :=
  ⟨((output_governor_step sample_loadb (frame [line_c] []) stopped_world rfl).1
      (by decide) (by decide) (by decide)).1,
    ((output_governor_step sample_loadb (frame [line_c] []) stopped_world rfl).1
      (by decide) (by decide) (by decide)).2.2.2.1,
    ((output_governor_step sample_loadb (frame [line_c] []) stopped_world rfl).1
      (by decide) (by decide) (by decide)).2.2.2.2.1,
    ((output_governor_step sample_loadb (frame [line_c] []) stopped_world rfl).1
      (by decide) (by decide) (by decide)).2.2.2.2.2⟩


/-! ## C28: the limit test comes before the decoder -/

theorem feed_append (jl : List Char → Option json_t) (cs1 cs2 : List (List Char)) (w : world) :
    feed jl (cs1 ++ cs2) w = feed jl cs2 (feed jl cs1 w) := by
  unfold feed
  exact List.foldl_append _ _ _ _

theorem feed_keeps_invariant (jl : List Char → Option json_t) (cs : List (List Char)) :
    ∀ w : world, w.aborted = false → fetch_ok w.fetch = true → '\n' ∉ w.fetch.buf →
      (feed jl cs w).aborted = false →
      fetch_ok (feed jl cs w).fetch = true ∧ '\n' ∉ (feed jl cs w).fetch.buf := by
  induction cs with
  | nil => intro w _ hok hn _; exact ⟨hok, hn⟩
  | cons c rest ih =>
    intro w ha hok hn hr
    rw [feed_cons] at hr ⊢
    have e : deliver jl w c = (writer_func jl c w).1 := by simp [deliver, ha]
    rw [e] at hr ⊢
    have ha2 : (writer_func jl c w).1.aborted = false := by
      by_contra hx
      have hx2 : (writer_func jl c w).1.aborted = true := by simpa using hx
      rw [feed_aborted jl rest _ hx2, hx2] at hr
      cases hr
    have hk := writer_func_keeps_invariant jl c w ha hok ha2
    exact ih _ ha2 hk.1 hk.2 hr

/-- C28: the limit test masks control records.  With an output limit L > 0
and `writer.count` at L or above, the loop body of `writer_func` discards
every line without decoding it, whatever it holds, and leaves the query in
`sc_we_limited` and the fetch stopped.  So when the chunks `cs1` of a 200
response have brought the count to the limit, whatever chunks `cs2` follow:
no further record is handed to `data_blob` or the presenter, count and
`saf_msg` stay as `cs1` left them, and with a newline in `cs2` the query ends
in `sc_we_limited`, not in a state a record of `cs2` names. -/
theorem cap_masks_control_records (jl : List Char → Option json_t)
    (cs1 cs2 : List (List Char)) (w : world)
    (ha : w.aborted = false) (hok : fetch_ok w.fetch = true) (hn : '\n' ∉ w.fetch.buf)
    (hv : (feed jl cs1 w).aborted = false)
    (hl : limit_reached (feed jl cs1 w).writer = true) :
    (∀ (rec : List Char) (n : Nat),
      deblock_record jl (feed jl cs1 w, n) rec = (limit_hit (feed jl cs1 w), 0) ∧
      (limit_hit (feed jl cs1 w)).blobs = (feed jl cs1 w).blobs ∧
      (limit_hit (feed jl cs1 w)).query.saf_msg = (feed jl cs1 w).query.saf_msg ∧
      (limit_hit (feed jl cs1 w)).query.saf_cond = sc_we_limited) ∧
    (feed jl (cs1 ++ cs2) w).blobs = (feed jl cs1 w).blobs ∧
    (feed jl (cs1 ++ cs2) w).presented = (feed jl cs1 w).presented ∧
    (feed jl (cs1 ++ cs2) w).writer.count = (feed jl cs1 w).writer.count ∧
    (feed jl (cs1 ++ cs2) w).query.saf_msg = (feed jl cs1 w).query.saf_msg ∧
    (feed jl (cs1 ++ cs2) w).aborted = false ∧
    ('\n' ∈ cs2.flatten →
      (feed jl (cs1 ++ cs2) w).query.saf_cond = sc_we_limited ∧
      (feed jl (cs1 ++ cs2) w).fetch.stopped = true) := by
  have hk := feed_keeps_invariant jl cs1 w ha hok hn hv
  have hf := (feed_frame jl cs2 (feed jl cs1 w) hv hk.1 hk.2).1
  rw [feed_append]
  refine ⟨?_, ?_⟩
  · intro rec n
    refine ⟨?_, rfl, rfl, rfl⟩
    unfold deblock_record
    rw [if_pos hl]
  · cases hsp : (split_lines ((feed jl cs1 w).fetch.buf ++ cs2.flatten)).1 with
    | nil =>
      rw [hsp, records_nil] at hf
      have hno : '\n' ∉ cs2.flatten := by
        intro hm
        exact split_lines_nonempty (List.mem_append_right _ hm) hsp
      exact ⟨congrArg (fun x => x.blobs) hf, congrArg (fun x => x.presented) hf,
        congrArg (fun x => x.writer.count) hf, congrArg (fun x => x.query.saf_msg) hf,
        (obs_aborted _ _ hf).trans hv, fun hm => absurd hm hno⟩
    | cons rec more =>
      rw [hsp, records_limit_reached jl more _ 0 rec hv hl] at hf
      exact ⟨congrArg (fun x => x.blobs) hf, congrArg (fun x => x.presented) hf,
        congrArg (fun x => x.writer.count) hf, congrArg (fun x => x.query.saf_msg) hf,
        (obs_aborted _ _ hf).trans hv,
        fun _ => ⟨congrArg (fun x => x.query.saf_cond) hf,
          congrArg (fun x => x.fetch.stopped) hf⟩⟩

set_option maxRecDepth 1000000 in
/-- C28 at a sample input: with the limit 2, two data records and then the
record `{"cond":"failed","msg":"boom"}`: the query ends in `sc_we_limited`
with no `saf_msg`; without limit the same stream ends in `sc_failed` with the
message stored. -/
theorem cap_masks_control_records_witness :
    (feed failed_loadb masked_chunks (sample_world 2)).query.saf_cond = sc_we_limited ∧
    (feed failed_loadb masked_chunks (sample_world 2)).fetch.stopped = true ∧
    (feed failed_loadb masked_chunks (sample_world 2)).query.saf_msg = none ∧
    (feed failed_loadb masked_chunks (sample_world 2)).blobs = [line_begin, line_a, line_b] ∧
    (feed failed_loadb masked_chunks (sample_world (-1))).query.saf_cond = sc_failed ∧
    (feed failed_loadb masked_chunks (sample_world (-1))).query.saf_msg = some "boom" :=
  ⟨((cap_masks_control_records failed_loadb [frame [line_begin, line_a, line_b] []]
      [frame [line_failed_msg] []] (sample_world 2) rfl (by decide) (by decide) (by decide)
      (by decide)).2.2.2.2.2.2 (by decide)).1,
    ((cap_masks_control_records failed_loadb [frame [line_begin, line_a, line_b] []]
      [frame [line_failed_msg] []] (sample_world 2) rfl (by decide) (by decide) (by decide)
      (by decide)).2.2.2.2.2.2 (by decide)).2,
    by decide, by decide, by decide, by decide⟩


/-! ## C26: records after a terminal record -/

theorem cond_chain_state (w : world) (c : String) :
    (cond_chain w c).1.query.saf_cond = cond_state c := by
  unfold cond_chain cond_state
  split_ifs <;> rfl

theorem take_msg_state (w : world) (tup : pdns_tuple) :
    (take_msg w tup).query.saf_cond = w.query.saf_cond := by
  unfold take_msg
  cases tup.msg <;> rfl

theorem data_blob_tuple_state (w : world) (tup : pdns_tuple) (rec : List Char) :
    (data_blob_tuple w tup rec).1.query.saf_cond =
      (take_cond (take_msg w tup) tup).1.query.saf_cond := by
  unfold data_blob_tuple
  simp only []
  split_ifs
  · rfl
  · rfl
  · exact congrArg (fun q => q.saf_cond) (present_frame _ tup rec).2.2.1

/-- The call of `data_blob_tuple` returns when the tuple has no obj or the
presenter returns for it. -/
theorem data_blob_tuple_returns (w : world) (tup : pdns_tuple) (rec : List Char)
    (h : tup.obj.saf_obj.isNone = true ∨ presenter_returns w.presenter tup = true) :
    (data_blob_tuple w tup rec).1.aborted = w.aborted := by
  rcases h with h | h
  · have hc := take_cond_frame (take_msg w tup) tup
    have hm := take_msg_frame w tup
    unfold data_blob_tuple
    simp only [h]
    split_ifs
    · exact hc.2.2.1.trans hm.2.2.1
    · exact hc.2.2.1.trans hm.2.2.1
  · exact (data_blob_tuple_frame w tup rec).2.2.1 h

theorem data_blob_state (jl : List Char → Option json_t) (w : world) (rec : List Char)
    (main : json_t) (tup : pdns_tuple) (hj : jl rec = some main)
    (ht : tuple_fields main = Except.ok tup) :
    (∀ c, tup.cond = some c → (data_blob jl w rec).1.query.saf_cond = cond_state c) ∧
    (tup.cond = none → (data_blob jl w rec).1.query.saf_cond = w.query.saf_cond) ∧
    (tup.obj.saf_obj.isNone = true ∨ presenter_returns w.presenter tup = true →
      (data_blob jl w rec).1.aborted = w.aborted) := by
  rw [data_blob_of_fields jl w rec main tup hj ht, data_blob_tuple_state]
  refine ⟨?_, ?_, ?_⟩
  · intro c hc
    unfold take_cond
    rw [hc]
    exact cond_chain_state _ c
  · intro hc
    unfold take_cond
    rw [hc]
    exact take_msg_state _ tup
  · intro h
    exact data_blob_tuple_returns (note_blob w rec) tup rec h

theorem decode_record_query (jl : List Char → Option json_t) (w : world) (rec : List Char) :
    (decode_record jl w rec).query = (data_blob jl w rec).1.query ∧
    (decode_record jl w rec).aborted = (data_blob jl w rec).1.aborted ∧
    (w.fetch.stopped = true → (decode_record jl w rec).fetch.stopped = true) := by
  have hf := (data_blob_frame jl w rec).1
  by_cases ha : (data_blob jl w rec).1.aborted = true
  · have e : decode_record jl w rec = (data_blob jl w rec).1 := by
      simp [decode_record, ha]
    rw [e]
    exact ⟨rfl, rfl, fun h => by rw [hf]; exact h⟩
  · have ha2 : (data_blob jl w rec).1.aborted = false := by simpa using ha
    unfold decode_record
    simp only [ha2]
    cases hc : (data_blob jl w rec).1.query.saf_cond <;>
      simp [hc, hf, ha2]

theorem decode_record_stopped (jl : List Char → Option json_t) (w : world) (rec : List Char)
    (ha : (data_blob jl w rec).1.aborted = false) :
    (decode_record jl w rec).query = (data_blob jl w rec).1.query ∧
    (terminal (data_blob jl w rec).1.query.saf_cond = true →
      (decode_record jl w rec).fetch.stopped = true) ∧
    (w.fetch.stopped = true → (decode_record jl w rec).fetch.stopped = true) := by
  have hf := (data_blob_frame jl w rec).1
  unfold decode_record
  simp only [ha]
  cases hc : (data_blob jl w rec).1.query.saf_cond <;>
    simp [hc, terminal, hf]

set_option maxRecDepth 1000000 in
/-- C26, the inputs that separate code and claim, on a 200 response without
output limit.  After the records begin and succeeded the query is in
`sc_succeeded`; a data record that follows in the stream is forwarded to the
presenter and counted, and a begin record that follows puts the query into
`sc_begin`.  With the batch presenter a record whose obj has neither rrname
nor rdata, after the same two records, is forwarded too, and the presenter
ends the process with it. -/
theorem record_after_terminal_record :
    (feed sample_loadb [frame [line_begin, line_succeeded] []]
      (sample_world (-1))).query.saf_cond = sc_succeeded ∧
    (feed sample_loadb [frame [line_begin, line_succeeded] []]
      (sample_world (-1))).presented.length = 0 ∧
    (feed sample_loadb [frame [line_begin, line_succeeded] [], frame [line_a] []]
      (sample_world (-1))).presented.map Prod.snd = [line_a] ∧
    (feed sample_loadb [frame [line_begin, line_succeeded] [], frame [line_a] []]
      (sample_world (-1))).writer.count = 1 ∧
    (feed sample_loadb [frame [line_begin, line_succeeded] [], frame [line_begin] []]
      (sample_world (-1))).query.saf_cond = sc_begin ∧
    (feed bare_loadb [frame [line_begin, line_succeeded] [], frame [line_bare_obj] []]
      (batch_world (-1))).presented.map Prod.snd = [line_bare_obj] ∧
    (feed bare_loadb [frame [line_begin, line_succeeded] [], frame [line_bare_obj] []]
      (batch_world (-1))).writer.count = 0 ∧
    (feed bare_loadb [frame [line_begin, line_succeeded] [], frame [line_bare_obj] []]
      (batch_world (-1))).ended = some by_panic := by
  decide

/-- C26, as the code has it.  For a query the decoder has put into succeeded,
limited or failed, and a well-formed record decoded after that: a record with
a cond puts the query into the state `cond_state` gives for it (so "ongoing"
into `sc_ongoing`, "begin" into `sc_begin`); a record without cond leaves the
state as it is, and when it has no obj or the presenter returns for it the
call returns and the fetch is flagged stopped; a record with an obj payload
whose cond, if any, is none of begin, succeeded, limited, failed is forwarded
to the presenter once, and it is counted when the presenter returns, while a
presenter that does not return (the batch presenters, for an obj with
neither rrname nor rdata) ends the process with exit status 1 before the
count is changed; and a fetch that is flagged stopped stays so. -/
theorem records_after_terminal_state (jl : List Char → Option json_t) (w : world)
    (rec : List Char) (main : json_t) (tup : pdns_tuple)
    (hterm : terminal w.query.saf_cond = true) (ha : w.aborted = false)
    (hj : jl rec = some main) (ht : tuple_fields main = Except.ok tup) :
    (∀ c, json_object_get (some main) "cond" = some (json_t.string c) →
      (decode_record jl w rec).query.saf_cond = cond_state c) ∧
    (json_object_get (some main) "cond" = none →
      (decode_record jl w rec).query.saf_cond = w.query.saf_cond ∧
      (json_object_get (some main) "obj" = none ∨
          presenter_returns w.presenter tup = true →
        (decode_record jl w rec).aborted = false ∧
        (decode_record jl w rec).fetch.stopped = true)) ∧
    (json_object_get (some main) "obj" ≠ none →
      (∀ c, json_object_get (some main) "cond" = some (json_t.string c) →
        c ≠ "begin" ∧ c ≠ "succeeded" ∧ c ≠ "limited" ∧ c ≠ "failed") →
      (decode_record jl w rec).presented = w.presented ++ [(tup, rec)] ∧
      (presenter_returns w.presenter tup = true →
        (decode_record jl w rec).writer.count = w.writer.count + 1 ∧
        (decode_record jl w rec).aborted = false) ∧
      (presenter_returns w.presenter tup = false →
        (decode_record jl w rec).writer.count = w.writer.count ∧
        (decode_record jl w rec).aborted = true ∧
        (decode_record jl w rec).ended = some by_panic)) ∧
    (w.fetch.stopped = true → (decode_record jl w rec).fetch.stopped = true) := by
  have hs := data_blob_state jl w rec main tup hj ht
  have hq := decode_record_query jl w rec
  refine ⟨?_, ?_, ?_, hq.2.2⟩
  · intro c hc
    rw [hq.1]
    exact hs.1 c (tuple_cond_of_member main tup ht c hc)
  · intro hc
    have hn := tuple_cond_of_absent main tup ht hc
    have e := hs.2.1 hn
    refine ⟨by rw [hq.1]; exact e, ?_⟩
    intro hr
    have hr2 : tup.obj.saf_obj.isNone = true ∨ presenter_returns w.presenter tup = true := by
      rcases hr with hr | hr
      · left
        rw [(tuple_fields_ok main tup ht).2.2.2, hr]
        rfl
      · exact Or.inr hr
    have hab : (data_blob jl w rec).1.aborted = false := (hs.2.2 hr2).trans ha
    refine ⟨hq.2.1.trans hab, ?_⟩
    apply (decode_record_stopped jl w rec hab).2.1
    rw [e]
    exact hterm
  · intro hobj hcond
    exact decode_record_data jl w rec main tup hj ht hobj hcond ha

set_option maxRecDepth 1000000 in
/-- C26 at a sample input: the world after begin and succeeded, and a begin
record. -/
theorem records_after_terminal_state_witness :
    (decode_record sample_loadb
      (feed sample_loadb [frame [line_begin, line_succeeded] []] (sample_world (-1)))
      line_begin).query.saf_cond = cond_state "begin" ∧
    cond_state "begin" = sc_begin :=
  ⟨(records_after_terminal_state sample_loadb
      (feed sample_loadb [frame [line_begin, line_succeeded] []] (sample_world (-1)))
      line_begin (json_cond "begin") (sample_tuple (json_cond "begin"))
      (by decide) (by decide) rfl rfl).1 "begin" rfl,
    by decide⟩


/-! ## C27: the status pair -/

theorem writer_func_links (jl : List Char → Option json_t) (ptr : List Char) (w : world) :
    (writer_func jl ptr w).1.linked = w.linked ∧ (writer_func jl ptr w).1.reaped = w.reaped := by
  rcases fetch_ok_or_error w.fetch with hok | he
  · rw [writer_func_ok jl ptr w hok]
    have h := deblock_links jl (w.fetch.buf ++ ptr).length
      (set_io w (w.fetch.buf ++ ptr) (seen_rcode w.fetch), ptr.length)
    exact ⟨h.1, h.2.1⟩
  · cases hq : w.fetch.easy with
    | none => simp [fetch_error, hq] at he
    | some easy =>
      rw [writer_func_error jl ptr w easy hq he]
      have h := error_report_frame easy (set_io w (w.fetch.buf ++ ptr) (seen_rcode w.fetch))
      exact ⟨h.2.1, h.2.2.1⟩

theorem writer_func_pair (jl : List Char → Option json_t) (ptr : List Char) (w : world)
    (ha : w.aborted = false) (hp : pair_consistent w.query = true) :
    pair_consistent (writer_func jl ptr w).1.query = true ∧
    (fetch_error w.fetch = true →
      (w.fetch.buf ++ ptr ≠ [] → (writer_func jl ptr w).1.aborted = false) ∧
      (w.fetch.buf ++ ptr = [] → (writer_func jl ptr w).1.ended ≠ some by_abort)) ∧
    (w.query.status ≠ none →
      (writer_func jl ptr w).1.query.status = w.query.status ∧
      (writer_func jl ptr w).1.query.message = w.query.message) := by
  rcases fetch_ok_or_error w.fetch with hok | he
  · have h := deblock_links jl (w.fetch.buf ++ ptr).length
      (set_io w (w.fetch.buf ++ ptr) (seen_rcode w.fetch), ptr.length)
    have h1 : (writer_func jl ptr w).1.query.status = w.query.status := by
      rw [writer_func_ok jl ptr w hok]
      exact h.2.2.1
    have h2 : (writer_func jl ptr w).1.query.message = w.query.message := by
      rw [writer_func_ok jl ptr w hok]
      exact h.2.2.2.1
    refine ⟨?_, ?_, fun _ => ⟨h1, h2⟩⟩
    · unfold pair_consistent at hp ⊢
      rw [h1, h2]
      exact hp
    · intro he
      exfalso
      unfold fetch_ok at hok
      unfold fetch_error at he
      cases hq : w.fetch.easy with
      | none => simp [hq] at he
      | some easy =>
        simp only [hq, decide_eq_true_eq] at hok he
        exact he hok
  · have hs := writer_func_error_any jl ptr w ha he hp
    refine ⟨hs.2.2.1,
      fun _ => ⟨fun hb => (writer_func_error_step jl ptr w ha he hp hb).2.1,
        fun hb => by rw [(hs.2.2.2.2.2.2.2.2.2.2 hb).2]; decide⟩, fun hst => ?_⟩
    rw [hs.2.1, captured_of_status _ _ _ hst]
    exact ⟨rfl, rfl⟩

theorem default_status_alive (w : world) (hp : pair_consistent w.query = true) :
    (default_status w).aborted = w.aborted ∧
    (w.query.status ≠ none → (default_status w).query = w.query) := by
  unfold default_status
  by_cases h : w.writer.count = 0 ∧ w.query.status.isNone = true
  · rw [if_pos h]
    have hc : w.query.status.isNone = w.query.message.isNone ∧ w.query.status.isNone = true := by
      refine ⟨?_, h.2⟩
      unfold pair_consistent at hp
      simpa using hp
    constructor
    · unfold query_status
      rw [if_pos hc]
    · intro hst
      exfalso
      cases hs : w.query.status with
      | none => exact hst hs
      | some x =>
        have := h.2
        rw [hs] at this
        cases this
  · rw [if_neg h]
    exact ⟨rfl, fun _ => rfl⟩

theorem io_drain_pair (result : Nat) (w : world) (hp : pair_consistent w.query = true) :
    (default_status (classify result (drain_rcode w))).aborted = w.aborted ∧
    (w.query.status ≠ none → (io_drain result w).query = w.query) := by
  have hq : (classify result (drain_rcode w)).query = w.query :=
    (classify_query result _).1.trans (drain_rcode_query w).1
  have hab : (classify result (drain_rcode w)).aborted = w.aborted :=
    (classify_query result _).2.2.1.trans (drain_rcode_query w).2.2.1
  have hd := default_status_alive (classify result (drain_rcode w)) (by rw [hq]; exact hp)
  refine ⟨hd.1.trans hab, fun hst => ?_⟩
  rw [io_drain_query, hd.2 (by rw [hq]; exact hst), hq]

theorem reachable_pair_consistent (jl : List Char → Option json_t) (w : world)
    (h : reachable jl w) : pair_consistent w.query = true := by
  induction h with
  | launch qd quiet easy => rfl
  | chunk w ptr _ ha ih => exact (writer_func_pair jl ptr w ha ih).1
  | drain w result _ _ ih => exact io_drain_pair_consistent result w ih
  | fini w _ _ ih =>
    rw [(writer_fini_frame w).2.1]
    exact ih

/-- C27: the status-pair invariant.  In every state of a run (from
`query_launcher` on, through calls of `writer_func`, `io_drain` and
`writer_fini`) status and message of the query are both set or both unset.
In such a state of a running process the two assertions of `query_status`
hold where it is called: a call of `writer_func` on an error response does
not end in `abort()` (it returns, and when buffer and chunk are both empty,
where the store into the buffer after the call site is outside the buffer,
it still is not an assertion that ends the process), nor does the
default-status step of `io_drain`, and `query_status` itself does not when
the status is unset.  Once the status is set, a call of
`writer_func`, `io_drain` and `writer_fini` leave status and message as they
are: the pair is written at most once. -/
theorem status_pair_invariant (jl : List Char → Option json_t) (w : world)
    (h : reachable jl w) :
    pair_consistent w.query = true ∧
    (w.aborted = false →
      (∀ ptr : List Char, fetch_error w.fetch = true →
        (w.fetch.buf ++ ptr ≠ [] → (writer_func jl ptr w).1.aborted = false) ∧
        (w.fetch.buf ++ ptr = [] → (writer_func jl ptr w).1.ended ≠ some by_abort)) ∧
      (∀ result : Nat, (default_status (classify result (drain_rcode w))).aborted = false) ∧
      (∀ st me : String, w.query.status = none → (query_status w st me).aborted = false)) ∧
    (w.aborted = false → w.query.status ≠ none →
      (∀ ptr : List Char,
        (writer_func jl ptr w).1.query.status = w.query.status ∧
        (writer_func jl ptr w).1.query.message = w.query.message) ∧
      (∀ result : Nat, (io_drain result w).query = w.query) ∧
      (writer_fini w).query = w.query) := by
  have hp := reachable_pair_consistent jl w h
  refine ⟨hp, fun ha => ⟨fun ptr he => (writer_func_pair jl ptr w ha hp).2.1 he,
    fun result => (io_drain_pair result w hp).1.trans ha, fun st me hs => ?_⟩,
    fun ha hst => ⟨fun ptr => (writer_func_pair jl ptr w ha hp).2.2 hst,
      fun result => (io_drain_pair result w hp).2 hst, (writer_fini_frame w).2.1⟩⟩
  unfold query_status
  have hc : w.query.status.isNone = w.query.message.isNone ∧ w.query.status.isNone = true := by
    refine ⟨?_, by rw [hs]; rfl⟩
    unfold pair_consistent at hp
    simpa using hp
  rw [if_pos hc]
  exact ha

/-- C27 at a sample input: the state after the first chunk of a 403
response. -/
theorem status_pair_invariant_witness :
    pair_consistent (writer_func sample_loadb plain_body
      (launch_world { } false { response_code := 403 } pres_json)).1.query = true ∧
    (writer_func sample_loadb plain_body
      (launch_world { } false { response_code := 403 } pres_json)).1.query.status = some status_error :=
  ⟨(status_pair_invariant sample_loadb _
      (reachable.chunk (launch_world { } false { response_code := 403 } pres_json) plain_body
        (reachable.launch { } false { response_code := 403 } pres_json) rfl)).1,
    by decide⟩


/-! ## C21: the fetch is released once -/

theorem feed_links (jl : List Char → Option json_t) (chunks : List (List Char)) :
    ∀ w : world, pair_consistent w.query = true →
      (feed jl chunks w).linked = w.linked ∧ (feed jl chunks w).reaped = w.reaped ∧
      pair_consistent (feed jl chunks w).query = true := by
  induction chunks with
  | nil => intro w hp; exact ⟨rfl, rfl, hp⟩
  | cons ptr rest ih =>
    intro w hp
    rw [feed_cons]
    by_cases ha : w.aborted = true
    · have e : deliver jl w ptr = w := by simp [deliver, ha]
      rw [e]
      exact ih w hp
    · have ha2 : w.aborted = false := by simpa using ha
      have e : deliver jl w ptr = (writer_func jl ptr w).1 := by simp [deliver, ha2]
      rw [e]
      have hl := writer_func_links jl ptr w
      have hi := ih _ (writer_func_pair jl ptr w ha2 hp).1
      exact ⟨hi.1.trans hl.1, hi.2.1.trans hl.2, hi.2.2⟩

theorem drain_rcode_reaped (w : world) : (drain_rcode w).reaped = w.reaped := by
  unfold drain_rcode
  split_ifs
  · cases w.fetch.easy <;> rfl
  · rfl

theorem classify_reaped (result : Nat) (w : world) : (classify result w).reaped = w.reaped := by
  unfold classify
  split_ifs <;> rfl

theorem default_status_links (w : world) :
    (default_status w).linked = w.linked ∧ (default_status w).reaped = w.reaped := by
  unfold default_status query_status
  split_ifs <;> exact ⟨rfl, rfl⟩

theorem io_drain_release (result : Nat) (w : world) (ha : w.aborted = false)
    (hl : w.linked = true) (hp : pair_consistent w.query = true) :
    (io_drain result w).aborted = false ∧ (io_drain result w).linked = false ∧
    (io_drain result w).reaped = w.reaped + 1 ∧ (io_drain result w).fetch.easy = none ∧
    (io_drain result w).fetch.buf = [] := by
  have hab := (io_drain_pair result w hp).1.trans ha
  have hli : (default_status (classify result (drain_rcode w))).linked = true :=
    ((default_status_links _).1.trans
      ((classify_query result _).2.2.2.trans (drain_rcode_query w).2.2.2.1)).trans hl
  have hre : (default_status (classify result (drain_rcode w))).reaped = w.reaped :=
    (default_status_links _).2.trans ((classify_reaped result _).trans (drain_rcode_reaped w))
  have hq := query_done_query (default_status (classify result (drain_rcode w)))
  unfold io_drain
  rw [if_neg (by rw [hab]; simp)]
  unfold fetch_release
  rw [if_pos (hq.2.2.1.trans hli)]
  refine ⟨hq.2.1.trans hab, rfl, ?_, rfl, rfl⟩
  show (query_done (default_status (classify result (drain_rcode w)))).reaped + 1 = w.reaped + 1
  rw [hq.2.2.2.2, hre]

theorem writer_fini_release (w : world) :
    (w.linked = true →
      (writer_fini w).reaped = w.reaped + 1 ∧ (writer_fini w).linked = false ∧
      (writer_fini w).fetch.easy = none) ∧
    (w.linked = false → (writer_fini w).reaped = w.reaped ∧ (writer_fini w).linked = false ∧
      (writer_fini w).fetch = w.fetch) := by
  constructor
  · intro hl
    unfold writer_fini
    simp only [hl, if_true]
    split_ifs <;> exact ⟨rfl, rfl, rfl⟩
  · intro hl
    unfold writer_fini
    simp only [hl, Bool.false_eq_true, if_false]
    split_ifs
    · exact ⟨rfl, hl, rfl⟩
    · exact ⟨rfl, hl, rfl⟩

/-- C21: single release.  `reaped` counts the calls of `fetch_reap`, `linked`
says that the fetch is attached to its query.  In a run that has not ended in
`abort()`, after `query_launcher` and any calls of `writer_func` the fetch is
attached and not reaped.  When `io_drain` sees the completion it reaps the
fetch and detaches it, and the `writer_fini` that follows reaps nothing: one
release.  When `writer_fini` comes without that, it reaps the fetch: one
release.  In both orders `writer_fini` gets past its assertion to the frees
of query and writer.  On any query whose fetch is already detached
`writer_fini` reaps nothing, leaves the fetch alone and gets to the frees of
query and writer. -/
theorem single_release (jl : List Char → Option json_t) (qd : qdesc) (quiet : Bool)
    (easy : CURL) (presentation : present_e) (chunks : List (List Char)) (result : Nat) :
    ((feed jl chunks (launch_world qd quiet easy presentation)).aborted = false →
      (feed jl chunks (launch_world qd quiet easy presentation)).reaped = 0 ∧
      (feed jl chunks (launch_world qd quiet easy presentation)).linked = true ∧
      (io_drain result (feed jl chunks (launch_world qd quiet easy presentation))).reaped = 1 ∧
      (io_drain result (feed jl chunks (launch_world qd quiet easy presentation))).linked = false ∧
      (io_drain result (feed jl chunks (launch_world qd quiet easy presentation))).fetch.easy = none ∧
      (io_drain result (feed jl chunks (launch_world qd quiet easy presentation))).aborted = false ∧
      (writer_fini (io_drain result (feed jl chunks (launch_world qd quiet easy presentation)))).reaped = 1 ∧
      (writer_fini (io_drain result (feed jl chunks (launch_world qd quiet easy presentation)))).aborted
        = false ∧
      (writer_fini (feed jl chunks (launch_world qd quiet easy presentation))).reaped = 1 ∧
      (writer_fini (feed jl chunks (launch_world qd quiet easy presentation))).linked = false ∧
      (writer_fini (feed jl chunks (launch_world qd quiet easy presentation))).aborted = false) ∧
    (∀ v : world, v.linked = false → v.aborted = false → pair_consistent v.query = true →
      (writer_fini v).reaped = v.reaped ∧ (writer_fini v).fetch = v.fetch ∧
      (writer_fini v).aborted = false) := by
  constructor
  · intro ha
    have hf := feed_links jl chunks (launch_world qd quiet easy presentation) rfl
    have hl : (feed jl chunks (launch_world qd quiet easy presentation)).linked = true := hf.1
    have hr : (feed jl chunks (launch_world qd quiet easy presentation)).reaped = 0 := hf.2.1
    have hd := io_drain_release result _ ha hl hf.2.2
    have hpd := io_drain_pair_consistent result _ hf.2.2
    have h1 := (writer_fini_release (io_drain result
      (feed jl chunks (launch_world qd quiet easy presentation)))).2 hd.2.1
    have h2 := (writer_fini_release (feed jl chunks (launch_world qd quiet easy presentation))).1 hl
    refine ⟨hr, hl, ?_, hd.2.1, hd.2.2.2.1, hd.1, ?_, ?_, ?_, h2.2.1, ?_⟩
    · rw [hd.2.2.1, hr]
    · rw [h1.1, hd.2.2.1, hr]
    · rw [(writer_fini_frame _).2.2 hpd]
      exact hd.1
    · rw [h2.1, hr]
    · rw [(writer_fini_frame _).2.2 hf.2.2]
      exact ha
  · intro v hl ha hp
    have h := (writer_fini_release v).2 hl
    exact ⟨h.1, h.2.2, ((writer_fini_frame v).2.2 hp).trans ha⟩

set_option maxRecDepth 1000000 in
/-- C21 at a sample input: the run on the sample chunks. -/
theorem single_release_witness :
    (writer_fini (io_drain CURLE_OK
      (feed sample_loadb sample_chunks (launch_world { } false { response_code := 200 } pres_json)))).reaped
      = 1 ∧
    (writer_fini
      (feed sample_loadb sample_chunks (launch_world { } false { response_code := 200 } pres_json))).reaped
      = 1 :=
  ⟨((single_release sample_loadb { } false { response_code := 200 } pres_json sample_chunks
      CURLE_OK).1
      (by decide)).2.2.2.2.2.2.1,
    ((single_release sample_loadb { } false { response_code := 200 } pres_json sample_chunks
      CURLE_OK).1
      (by decide)).2.2.2.2.2.2.2.2.1⟩


/-! ## C24: the request URL -/

theorem strstr_found_iff (hay needle : List Char) :
    strstr_found hay needle = true ↔ List.IsInfix needle hay := by
  induction hay with
  | nil =>
    cases needle with
    | nil => simp [strstr_found]
    | cons c cs => simp [strstr_found]
  | cons c cs ih =>
    rw [strstr_found, Bool.or_eq_true, ih, List.infix_cons_iff, List.isPrefixOf_iff_prefix]

theorem or_else_ite (c : Prop) [Decidable c] (s : String) :
    or_else (if c then some s else none) "" = if c then s else "" := by
  by_cases h : c <;> simp [h, or_else]

theorem dnsdb_url_eq (base path : String) (qd : qdesc) (f : pdns_fence) :
    dnsdb_url base path qd f = url_spec base path qd f := by
  have hs : (if strstr_found base.data "://".data = true then "" else "https://") =
      (if List.IsInfix "://".data base.data then ("" : String) else "https://") := by
    by_cases h : strstr_found base.data "://".data = true
    · rw [if_pos h, if_pos ((strstr_found_iff _ _).mp h)]
    · rw [if_neg h, if_neg (fun x => h ((strstr_found_iff _ _).mpr x))]
  have he : or_else (match qd.exclude with
      | some e => some ("&exclude=" ++ e)
      | none => none) "" =
      (match qd.exclude with
      | some e => "&exclude=" ++ e
      | none => "") := by
    cases qd.exclude <;> rfl
  have hk : ∀ a : String, a ++ "?swclient=" ++ id_swclient ++ "&version=" ++ id_version =
      a ++ "?swclient=dnsdbflex&version=1.0.5" := by
    intro a
    rw [String.append_assoc, String.append_assoc, String.append_assoc]
    rfl
  unfold dnsdb_url url_spec
  simp only [or_else_ite, hs, he, hk]

theorem makepath_eq (qd : qdesc) (v : String) (hv : qd.value = some v)
    (hm : qd.search_method ≠ search_method_t.method_none)
    (ht : qd.what_to_search ≠ what_to_search_t.search_none) :
    makepath qd = Except.ok (path_spec
      (if qd.search_method = search_method_t.method_regex then "regex" else "glob")
      (if qd.what_to_search = what_to_search_t.search_rrnames then "rrnames" else "rdata")
      v qd.rrtype) := by
  unfold makepath path_spec
  rw [hv]
  cases h1 : qd.search_method with
  | method_none => exact absurd h1 hm
  | method_regex =>
    cases h2 : qd.what_to_search with
    | search_none => exact absurd h2 ht
    | search_rrnames => cases qd.rrtype <;> simp [or_else, String.append_assoc]
    | search_rdata => cases qd.rrtype <;> simp [or_else, String.append_assoc]
  | method_glob =>
    cases h2 : qd.what_to_search with
    | search_none => exact absurd h2 ht
    | search_rrnames => cases qd.rrtype <;> simp [or_else, String.append_assoc]
    | search_rdata => cases qd.rrtype <;> simp [or_else, String.append_assoc]

/-- C24: the request URL.  For every base URL, path, descriptor and fence
`dnsdb_url` gives the URL `url_spec` describes: "https://" when the base URL
holds no "://", the base URL, "/", the path,
"?swclient=dnsdbflex&version=1.0.5", and then in this order "&offset=N" when
offset > 0, "&limit=N" when query_limit is not -1, the four time parameters
when their fence value is not 0, and "&exclude=E" when an exclusion pattern
is set.  For a descriptor with a value, a search method and a search target
`makepath` gives method/target/value, with "/rrtype" appended when an rrtype
is set, and `query_launcher` asks for the URL of that path and its fence. -/
theorem request_url (base path : String) (qd : qdesc) (f : pdns_fence) :
    dnsdb_url base path qd f = url_spec base path qd f ∧
    (∀ v : String, qd.value = some v →
      qd.search_method ≠ search_method_t.method_none →
      qd.what_to_search ≠ what_to_search_t.search_none →
      makepath qd = Except.ok (path_spec
        (if qd.search_method = search_method_t.method_regex then "regex" else "glob")
        (if qd.what_to_search = what_to_search_t.search_rrnames then "rrnames" else "rdata")
        v qd.rrtype) ∧
      query_launcher_url base qd = Except.ok (url_spec base (path_spec
        (if qd.search_method = search_method_t.method_regex then "regex" else "glob")
        (if qd.what_to_search = what_to_search_t.search_rrnames then "rrnames" else "rdata")
        v qd.rrtype) qd (query_launcher_fence qd))) := by
  refine ⟨dnsdb_url_eq base path qd f, fun v hv hm ht => ?_⟩
  have h := makepath_eq qd v hv hm ht
  refine ⟨h, ?_⟩
  unfold query_launcher_url
  rw [h]
  dsimp only
  rw [dnsdb_url_eq]

/-- C24 at a sample input: a regex search on rrnames with an rrtype, a query
limit and a time fence, against a server given without scheme. -/
theorem request_url_witness :
    makepath sample_qdesc = Except.ok (path_spec "regex" "rrnames" "example" (some "A")) ∧
    (query_launcher_url "api.dnsdb.info/dnsdb/v2" sample_qdesc).toOption = some
      "https://api.dnsdb.info/dnsdb/v2/regex/rrnames/example/A?swclient=dnsdbflex&version=1.0.5&limit=10&time_last_after=100" :=
  ⟨((request_url "api.dnsdb.info/dnsdb/v2" "" sample_qdesc { }).2 "example" rfl
      (by decide) (by decide)).1,
    by decide⟩


/-! ## C29: the readiness check -/

theorem strstr_found_append (a n : List Char) : strstr_found (a ++ n) n = true := by
  rw [strstr_found_iff]
  exact ⟨a, [], by simp⟩

/-- The base URL `dnsdb_ready` leaves holds "/dnsdb/v2", however the call
ends. -/
theorem dnsdb_ready_base_url (st : dnsdb_conf) (env_api_key env_server : Option String)
    (psys_base_url : String) :
    ∃ b : String, (dnsdb_ready st env_api_key env_server psys_base_url).1.dnsdb_base_url
      = some b ∧ strstr_found b.data dnsdb2_url_prefix.data = true := by
  have key : ∀ base : String, strstr_found
      (if strstr_found base.data dnsdb2_url_prefix.data = true then base
        else base ++ dnsdb2_url_prefix).data dnsdb2_url_prefix.data = true := by
    intro base
    by_cases h : strstr_found base.data dnsdb2_url_prefix.data = true
    · rw [if_pos h]
      exact h
    · rw [if_neg h, String.data_append]
      exact strstr_found_append _ _
  unfold dnsdb_ready
  dsimp only
  split <;> [skip; split; split] <;> exact ⟨_, rfl, key _⟩

/-- With an API key configured, in the environment or else in the config
file, `dnsdb_ready` returns NULL when the key does not start with "dce-" and
the not-allowed message when it does. -/
theorem dnsdb_ready_with_key (st : dnsdb_conf) (env_api_key env_server : Option String)
    (psys_base_url : String) (key : String)
    (hk : (match env_api_key with
      | some value => some value
      | none => st.api_key) = some key) :
    (dnsdb_ready st env_api_key env_server psys_base_url).2 =
      if strncmp_eq "dce-".data key.data 4 = true then
        ready_outcome.returned
          (some "The type of API key given is not allowed to use the DNSDB Flex API")
      else ready_outcome.returned none := by
  have h3 : ∀ (s1 : dnsdb_conf), s1.api_key = some key →
      (match env_server with
        | some value => (dnsdb_setval s1 "server" value).1
        | none => s1).api_key = some key := by
    intro s1 h
    cases env_server with
    | none => exact h
    | some v => simpa [dnsdb_setval] using h
  have h1 : (match env_api_key with
      | some value => (dnsdb_setval st "apikey" value).1
      | none => st).api_key = some key := by
    cases env_api_key with
    | none => exact hk
    | some v => simpa [dnsdb_setval] using hk
  have h2 := h3 _ h1
  unfold dnsdb_ready
  dsimp only
  rw [h2]
  by_cases hb : strncmp_eq "dce-".data key.data 4 = true
  · have e : api_key_blocked (some key) = some true := by
      show some (strncmp_eq "dce-".data key.data 4 || false) = some true
      rw [hb]
      rfl
    rw [e, if_pos hb]
  · have e : api_key_blocked (some key) = some false := by
      show some (strncmp_eq "dce-".data key.data 4 || false) = some false
      have hb2 : strncmp_eq "dce-".data key.data 4 = false := by simpa using hb
      rw [hb2]
      rfl
    rw [e, if_neg hb]
    rfl

/-- Without an API key, in the environment and in the config file,
`dnsdb_ready` ends in the null-pointer read of `api_key_blocked`. -/
theorem dnsdb_ready_no_key (st : dnsdb_conf) (env_server : Option String)
    (psys_base_url : String) (hk : st.api_key = none) :
    (dnsdb_ready st none env_server psys_base_url).2 = ready_outcome.crashed := by
  have h2 : (match env_server with
      | some value => (dnsdb_setval st "server" value).1
      | none => st).api_key = none := by
    cases env_server with
    | none => exact hk
    | some v => simpa [dnsdb_setval] using hk
  unfold dnsdb_ready
  dsimp only
  rw [h2]
  rfl

/-- C29: with no API key configured, in the config file or in
`DNSDB_API_KEY`, `dnsdb_ready` does not return "no API key given":
`api_key_blocked` is called first and hands the NULL key to `strncmp`.  With
a key, the call returns NULL for a key that does not start with "dce-" and
the not-allowed message for one that does. -/
theorem dnsdb_ready_without_api_key :
    (dnsdb_ready { } none none "https://api.dnsdb.info/dnsdb/v2").2 = ready_outcome.crashed ∧
    (dnsdb_ready { } none none "https://api.dnsdb.info/dnsdb/v2").2 ≠
      ready_outcome.returned (some "no API key given") ∧
    (dnsdb_ready { } none none "https://api.dnsdb.info/dnsdb/v2").1.dnsdb_base_url =
      some "https://api.dnsdb.info/dnsdb/v2" ∧
    (dnsdb_ready { api_key := some "abc123" } none none "https://api.dnsdb.info/dnsdb/v2").2 =
      ready_outcome.returned none ∧
    (dnsdb_ready { } (some "dce-abc123") none "https://api.dnsdb.info/dnsdb/v2").2 =
      ready_outcome.returned
        (some "The type of API key given is not allowed to use the DNSDB Flex API") := by
  decide

end Dnsdbflex
